import Mathlib

/-!
# Loris Tunnel: a shallow embedding of the forwarding and CRUD code

Conventions of the embedding.

* Go `int`, `int64` and `time.Duration` values are Lean `Int`s; wherever the
  Go code can overflow, the result is wrapped explicitly by `wrapInt64`
  (two's complement, 64 bits; the desktop targets are 64-bit platforms).
* `time.Duration` counts nanoseconds.
* Go `byte` is `UInt8`; a Go `[]byte` and a Go `string` built from raw bytes
  is a `List UInt8`.
* Go `error` values are represented by their message (`String`).
-/

namespace LorisTunnel

/-! ## Machine integers and durations -/

/-- Two's complement wrap of an integer to 64 bits (Go `int64` arithmetic). -/
def wrapInt64 (x : Int) : Int :=
  (x + 9223372036854775808) % 18446744073709551616 - 9223372036854775808

/-- Largest value of a Go `int64`. -/
def maxInt64 : Int := 9223372036854775807

/-- Smallest value of a Go `int64`. -/
def minInt64 : Int := -9223372036854775808

/-- Equality of Go results (value or error) is decidable. -/
instance instDecidableEqExcept {ε α : Type} [DecidableEq ε] [DecidableEq α] :
    DecidableEq (Except ε α)
  | .ok a, .ok b => if h : a = b then isTrue (by rw [h]) else isFalse (by intro hab; cases hab; exact h rfl)
  | .error a, .error b => if h : a = b then isTrue (by rw [h]) else isFalse (by intro hab; cases hab; exact h rfl)
  | .ok _, .error _ => isFalse (by intro hab; cases hab)
  | .error _, .ok _ => isFalse (by intro hab; cases hab)

/-- Go `time.Millisecond`, in nanoseconds. -/
def Millisecond : Int := 1000000

/-- Go `time.Second`, in nanoseconds. -/
def Second : Int := 1000000000

/-- Go `time.Minute`, in nanoseconds. -/
def Minute : Int := 60000000000

/-! ## internal/model/tunnel.go -/

/-- Go `model.Jumper`. -/
structure Jumper where
  ID : Int
  Name : String
  Host : String
  Port : Int
  User : String
  AuthType : String
  KeyPath : String
  AgentSocketPath : String
  Password : String
  BypassHostVerification : Bool
  KeepAliveIntervalMs : Int
  TimeoutMs : Int
  HostKeyAlgorithms : String
  Notes : String
  deriving DecidableEq, Repr

/-- Go `model.Tunnel`. -/
structure Tunnel where
  ID : Int
  Name : String
  Mode : String
  JumperIDs : List Int
  LocalHost : String
  LocalPort : Int
  RemoteHost : String
  RemotePort : Int
  AutoStart : Bool
  Status : String
  LastError : String
  Description : String
  LatencyMs : Int
  deriving DecidableEq, Repr

/-- The zero value `model.Jumper{}`. -/
def Jumper.zero : Jumper :=
  { ID := 0, Name := "", Host := "", Port := 0, User := "", AuthType := "",
    KeyPath := "", AgentSocketPath := "", Password := "",
    BypassHostVerification := false, KeepAliveIntervalMs := 0, TimeoutMs := 0,
    HostKeyAlgorithms := "", Notes := "" }

/-- The zero value `model.Tunnel{}`. -/
def Tunnel.zero : Tunnel :=
  { ID := 0, Name := "", Mode := "", JumperIDs := [], LocalHost := "",
    LocalPort := 0, RemoteHost := "", RemotePort := 0, AutoStart := false,
    Status := "", LastError := "", Description := "", LatencyMs := 0 }

/-- Go `model.TunnelPayload`. -/
structure TunnelPayload where
  Name : String
  Mode : String
  JumperIDs : List Int
  LocalHost : String
  LocalPort : Int
  RemoteHost : String
  RemotePort : Int
  AutoStart : Bool
  Status : String
  Description : String
  deriving DecidableEq, Repr

/-! ## Go standard library: `strings.TrimSpace` -/

/-- Go `unicode.IsSpace`. -/
def isSpace (ch : Char) : Bool :=
  ch = '\t' || ch = '\n' || ch.toNat = 0x0B || ch.toNat = 0x0C || ch = '\r' || ch = ' ' ||
  ch.toNat = 0x85 || ch.toNat = 0xA0 || ch.toNat = 0x1680 ||
  (0x2000 ≤ ch.toNat && ch.toNat ≤ 0x200A) ||
  ch.toNat = 0x2028 || ch.toNat = 0x2029 || ch.toNat = 0x202F || ch.toNat = 0x205F ||
  ch.toNat = 0x3000

/-- Go `strings.TrimSpace`: leading and trailing white space removed. -/
def trimSpace (s : String) : String :=
  String.mk (((s.data.dropWhile isSpace).reverse.dropWhile isSpace).reverse)

/-! ## internal/conf/config.go -/

/-- Go constant `currentConfigVersion`. -/
def currentConfigVersion : Int := 1

/-- Go `conf.Config`. A nil slice and an empty slice are both the empty list. -/
structure Config where
  Version : Int
  Jumpers : List Jumper
  Tunnels : List Tunnel
  deriving DecidableEq, Repr

/-- Go `DefaultConfig`. -/
def DefaultConfig : Config :=
  { Version := currentConfigVersion, Jumpers := [], Tunnels := [] }

/-- Go `(*Config).Clone` on a non-nil receiver. -/
def Config.Clone (c : Config) : Config :=
  { Version := c.Version, Jumpers := [] ++ c.Jumpers, Tunnels := [] ++ c.Tunnels }

/-- The loop of Go `normalizeJumperIDs` (the same function in packages `conf`
and `biz`): `out` is the result so far and `seen` the set of IDs in it. -/
def normalizeJumperIDsLoop : List Int → List Int → List Int → List Int
  | [], out, _ => out
  | id :: rest, out, seen =>
    if id ≤ 0 then normalizeJumperIDsLoop rest out seen
    else if seen.contains id then normalizeJumperIDsLoop rest out seen
    else normalizeJumperIDsLoop rest (out ++ [id]) (id :: seen)

/-- Go `normalizeJumperIDs`. -/
def normalizeJumperIDs (ids : List Int) : List Int :=
  normalizeJumperIDsLoop ids [] []

/-- Go `(*Config).Normalize`, returning the normalized config. -/
def Config.Normalize (c : Config) : Config :=
  { Version := if c.Version ≤ 0 then currentConfigVersion else c.Version,
    Jumpers := c.Jumpers,
    Tunnels := c.Tunnels.map
      (fun t => { t with JumperIDs := normalizeJumperIDs t.JumperIDs }) }

/-! ## internal/conf/storage.go -/

/-- The message of Go `ErrInvalidTOMLConfigurationFile`. -/
def ErrInvalidTOMLConfigurationFile : String := "invalid config TOML"

/-- The TOML library (`github.com/BurntSushi/toml`), which is not part of this
repository: `decode data cfg` is `toml.Decode(data, cfg)`, filling the fields
present in `data` into `cfg`; `encode cfg` is the text `Encoder.Encode` writes. -/
structure TomlCodec where
  decode : String → Config → Except String Config
  encode : Config → Except String String

/-- The state behind a Go `conf.Storage`: the content of the file at its path,
`none` while the file does not exist. Creating the parent directory, reading
an existing file, writing the temporary file and renaming it are taken to
succeed; the mutex is not modelled (calls are atomic). -/
structure Storage where
  file : Option String
  deriving DecidableEq, Repr

/-- Go `parseConfigTOML`. -/
def parseConfigTOML (codec : TomlCodec) (data : String) : Except String Config :=
  match codec.decode data DefaultConfig with
  | .error err => .error (ErrInvalidTOMLConfigurationFile ++ ": " ++ err)
  | .ok cfg => .ok cfg.Normalize

/-- Go `encodeConfigTOML`: the bytes, and `cfg` as normalized in place. -/
def encodeConfigTOML (codec : TomlCodec) (cfg : Config) : String × Config :=
  let cfg := cfg.Normalize
  match codec.encode cfg with
  | .error _ => ("", cfg)
  | .ok text => (text, cfg)

/-- Go `(*Storage).saveLocked`: the error, the storage and `cfg` as normalized
in place. The write to `<path>.tmp` followed by the rename replaces the file. -/
def Storage.saveLocked (codec : TomlCodec) (_r : Storage) (cfg : Config) :
    Option String × Storage × Config :=
  let cfg := cfg.Normalize
  let (data, cfg) := encodeConfigTOML codec cfg
  (none, { file := some data }, cfg)

/-- Go `(*Storage).loadLocked`. -/
def Storage.loadLocked (codec : TomlCodec) (r : Storage) : Except String Config × Storage :=
  match r.file with
  | none =>
    match r.saveLocked codec DefaultConfig with
    | (some err, r, _) => (.error err, r)
    | (none, r, cfg) => (.ok cfg, r)
  | some data =>
    if (trimSpace data).utf8ByteSize = 0 then
      match r.saveLocked codec DefaultConfig with
      | (some err, r, _) => (.error err, r)
      | (none, r, cfg) => (.ok cfg, r)
    else
      match parseConfigTOML codec data with
      | .error err => (.error err, r)
      | .ok cfg => (.ok cfg.Normalize, r)

/-- Go `(*Storage).Load`. -/
def Storage.Load (codec : TomlCodec) (r : Storage) : Except String Config × Storage :=
  match r.loadLocked codec with
  | (.error err, r) => (.error err, r)
  | (.ok cfg, r) => (.ok cfg.Clone, r)

/-- Go `(*Storage).Update`. The mutator returns the mutated config together
with the value it assigns to the variable captured from its caller. -/
def Storage.Update {α : Type} (codec : TomlCodec) (r : Storage)
    (mutator : Config → Except String (Config × α)) :
    Except String (Config × α) × Storage :=
  match r.loadLocked codec with
  | (.error err, r) => (.error err, r)
  | (.ok cfg, r) =>
    match mutator cfg with
    | .error err => (.error err, r)
    | .ok (cfg, captured) =>
      let cfg := cfg.Normalize
      match r.saveLocked codec cfg with
      | (some err, r, _) => (.error err, r)
      | (none, r, cfg) => (.ok (cfg.Clone, captured), r)

/-! ## internal/biz/jumper.go -/

/-- The message of Go `ErrJumperNotFound`. -/
def ErrJumperNotFound : String := "jumper not found"

/-- The message of Go `ErrJumperInUse`. -/
def ErrJumperInUse : String := "jumper is used by existing tunnels"

/-- The index search `for i := range cfg.Jumpers { if cfg.Jumpers[i].ID == id ... }`;
`none` stands for `idx == -1`. -/
def jumperIndex (items : List Jumper) (id : Int) : Option Nat :=
  items.findIdx? (fun item => item.ID = id)

/-- The mutator passed to `Storage.Update` by Go `(*JumperBiz).Delete`. -/
def jumperDeleteMutator (id : Int) (cfg : Config) : Except String (Config × Unit) :=
  if cfg.Tunnels.any (fun tunnel => tunnel.JumperIDs.any (fun jid => jid = id)) then
    .error ErrJumperInUse
  else
    match jumperIndex cfg.Jumpers id with
    | none => .error ErrJumperNotFound
    | some idx =>
      .ok ({ cfg with Jumpers := cfg.Jumpers.take idx ++ cfg.Jumpers.drop (idx + 1) }, ())

/-- Go `(*JumperBiz).Delete`: the returned error (`none` is `nil`) and the
storage after the call. -/
def JumperBiz.Delete (codec : TomlCodec) (storage : Storage) (id : Int) :
    Option String × Storage :=
  if id ≤ 0 then
    (some "invalid jumper id", storage)
  else
    match storage.Update codec (jumperDeleteMutator id) with
    | (.error err, storage) => (some err, storage)
    | (.ok _, storage) => (none, storage)

/-! ## internal/biz/tunnel.go -/

/-- The message of Go `ErrTunnelNotFound`. -/
def ErrTunnelNotFound : String := "tunnel not found"

/-- Go `biz.TunnelBiz`: the storage and the map `runs` from tunnel ID to the
live runtime, a runtime being represented by a handle. -/
structure TunnelBiz where
  storage : Storage
  runs : List (Int × Nat)
  deriving DecidableEq, Repr

/-- Go `(*TunnelBiz).isRunning`. -/
def TunnelBiz.isRunning (b : TunnelBiz) (id : Int) : Bool :=
  (b.runs.lookup id).isSome

/-- Go `normalizeTunnelPayload`. -/
def normalizeTunnelPayload (payload : TunnelPayload) : TunnelPayload :=
  let payload := { payload with
    Name := trimSpace payload.Name,
    Mode := trimSpace payload.Mode,
    LocalHost := trimSpace payload.LocalHost,
    RemoteHost := trimSpace payload.RemoteHost,
    Description := trimSpace payload.Description,
    Status := trimSpace payload.Status,
    JumperIDs := normalizeJumperIDs payload.JumperIDs }
  let payload := if payload.Mode = "" then { payload with Mode := "local" } else payload
  let payload := if payload.Status = "" then { payload with Status := "stopped" } else payload
  let payload :=
    if payload.LocalHost = "" then { payload with LocalHost := "127.0.0.1" } else payload
  payload

/-- Go `validateTunnelPayloadWithOption`; `none` is `nil`. -/
def validateTunnelPayloadWithOption (payload : TunnelPayload) (requireJumpers : Bool) :
    Option String :=
  if payload.Name = "" then some "name is required"
  else if requireJumpers ∧ payload.JumperIDs.length = 0 then some "jumperIds is required"
  else if payload.LocalHost = "" then some "localHost is required"
  else if payload.LocalPort < 1 ∨ payload.LocalPort > 65535 then
    some "localPort must be between 1 and 65535"
  else if ¬ (payload.Mode = "local" ∨ payload.Mode = "remote" ∨ payload.Mode = "dynamic") then
    some ("unsupported mode: " ++ payload.Mode)
  else if payload.Mode ≠ "dynamic" ∧ payload.RemoteHost = "" then
    some "remoteHost is required for non-dynamic mode"
  else if payload.Mode ≠ "dynamic" ∧ (payload.RemotePort < 1 ∨ payload.RemotePort > 65535) then
    some "remotePort must be between 1 and 65535"
  else if ¬ (payload.Status = "running" ∨ payload.Status = "stopped"
      ∨ payload.Status = "error") then
    some ("unsupported status: " ++ payload.Status)
  else none

/-- Go `validateTunnelPayload`. -/
def validateTunnelPayload (payload : TunnelPayload) : Option String :=
  validateTunnelPayloadWithOption payload true

/-- Go `findJumperByID`; `none` is `(model.Jumper{}, false)`. -/
def findJumperByID (items : List Jumper) (id : Int) : Option Jumper :=
  items.find? (fun item => item.ID = id)

/-- Go `findTunnelByID`; `none` is `(model.Tunnel{}, false)`. -/
def findTunnelByID (items : List Tunnel) (id : Int) : Option Tunnel :=
  items.find? (fun item => item.ID = id)

/-- The loop of Go `collectJumpers` over the IDs. -/
def collectJumpersLoop (items : List Jumper) : List Int → List Jumper → Except String (List Jumper)
  | [], collected => .ok collected
  | id :: rest, collected =>
    match findJumperByID items id with
    | none => .error ErrJumperNotFound
    | some item => collectJumpersLoop items rest (collected ++ [item])

/-- Go `collectJumpers`. -/
def collectJumpers (items : List Jumper) (ids : List Int) : Except String (List Jumper) :=
  if ids.length = 0 then .error ErrJumperNotFound
  else collectJumpersLoop items ids []

/-- The index search `for i := range cfg.Tunnels { if cfg.Tunnels[i].ID == id ... }`;
`none` stands for `idx == -1`. -/
def tunnelIndex (items : List Tunnel) (id : Int) : Option Nat :=
  items.findIdx? (fun item => item.ID = id)

/-- The mutator passed to `Storage.Update` by Go `(*TunnelBiz).Update`, for the
normalized payload. -/
def tunnelUpdateMutator (id : Int) (payload : TunnelPayload) (cfg : Config) :
    Except String (Config × Tunnel) :=
  match validateTunnelPayload payload with
  | some err => .error err
  | none =>
    match collectJumpers cfg.Jumpers payload.JumperIDs with
    | .error err => .error err
    | .ok _ =>
      match tunnelIndex cfg.Tunnels id with
      | none => .error ErrTunnelNotFound
      | some idx =>
        let updated : Tunnel :=
          { ID := id,
            Name := payload.Name,
            Mode := payload.Mode,
            JumperIDs := [] ++ payload.JumperIDs,
            LocalHost := payload.LocalHost,
            LocalPort := payload.LocalPort,
            RemoteHost := payload.RemoteHost,
            RemotePort := payload.RemotePort,
            AutoStart := payload.AutoStart,
            Status := payload.Status,
            LastError := ((cfg.Tunnels.get? idx).getD Tunnel.zero).LastError,
            Description := payload.Description,
            LatencyMs := 0 }
        .ok ({ cfg with Tunnels := cfg.Tunnels.set idx updated }, updated)

/-- Go `(*TunnelBiz).Update`: the updated tunnel or the error, and the
manager after the call. -/
def TunnelBiz.Update (codec : TomlCodec) (b : TunnelBiz) (id : Int) (payload : TunnelPayload) :
    Except String Tunnel × TunnelBiz :=
  if id ≤ 0 then
    (.error "invalid tunnel id", b)
  else if b.isRunning id then
    (.error "tunnel is running, stop it before editing", b)
  else
    let payload := normalizeTunnelPayload payload
    match b.storage.Update codec (tunnelUpdateMutator id payload) with
    | (.error err, storage) => (.error err, { b with storage := storage })
    | (.ok (_, updated), storage) => (.ok updated, { b with storage := storage })

/-- A stand-in for the TOML library on concrete inputs: every non-blank file
decodes to `cfg`, and every config encodes to the text `fixture`. -/
def fixtureCodec (cfg : Config) : TomlCodec :=
  { decode := (fun _ _ => Except.ok cfg)
    encode := (fun _ => Except.ok "fixture") }

/-- A config with one jumper (ID 1) and one tunnel (ID 1) through it. -/
def fixtureConfig : Config :=
  { Version := 1,
    Jumpers := [{ Jumper.zero with
                  ID := 1, Name := "bastion", Host := "10.0.0.1",
                  Port := 22, User := "ops", AuthType := "ssh_agent", TimeoutMs := 5000 }],
    Tunnels := [{ Tunnel.zero with
                  ID := 1, Name := "web", Mode := "local",
                  JumperIDs := [1], LocalHost := "127.0.0.1", LocalPort := 18080,
                  RemoteHost := "example.com", RemotePort := 80, Status := "stopped" }] }

/-! ## internal/forward/port_forward.go: reconnect backoff and keepalive -/

/-- Go constant `initReconnectWait = 500 * time.Millisecond`. -/
def initReconnectWait : Int := 500 * Millisecond

/-- Go constant `maxReconnectWait = 1 * time.Minute`. -/
def maxReconnectWait : Int := 1 * Minute

/-- Go `nextReconnectWait`. -/
def nextReconnectWait (current : Int) : Int :=
  if current ≤ 0 then initReconnectWait
  else
    let next := wrapInt64 (current * 2)
    if next > maxReconnectWait then maxReconnectWait else next

/-- Go `keepAliveInterval`. -/
def keepAliveInterval (jumper : Jumper) : Int :=
  let interval := wrapInt64 (jumper.KeepAliveIntervalMs * Millisecond)
  if interval > 0 then interval else 0

/-- Go `keepAliveRequestTimeout`; Go's `/` on integers truncates (`Int.tdiv`). -/
def keepAliveRequestTimeout (interval : Int) : Int :=
  if interval ≤ 0 then 5 * Second
  else
    let timeout := Int.tdiv interval 2
    let timeout := if timeout < 5 * Second then 5 * Second else timeout
    let timeout := if timeout > 10 * Second then 10 * Second else timeout
    timeout

/-! ## Go standard library pieces used by the SOCKS5 front end -/

/-- The bytes of an ASCII string literal. -/
def asciiBytes (s : String) : List UInt8 :=
  s.toList.map (fun ch => ch.toNat.toUInt8)

/-- Go `strconv.Itoa` on a non-negative value, as bytes. -/
def itoaBytes (n : Nat) : List UInt8 :=
  (Nat.toDigits 10 n).map (fun ch => ch.toNat.toUInt8)

/-- Go `%d` formatting of a non-negative value inside an error message. -/
def fmtNat (n : Nat) : String :=
  (Nat.toDigits 10 n).asString

/-- Go `binary.BigEndian.Uint16`: `uint16(b[1]) | uint16(b[0])<<8`. -/
def bigEndianUint16 (b0 b1 : UInt8) : Nat :=
  b1.toNat ||| (b0.toNat <<< 8)

/-- Go `net.JoinHostPort`: a host containing a colon is bracketed. -/
def joinHostPort (host port : List UInt8) : List UInt8 :=
  if host.contains 0x3A then
    [0x5B] ++ host ++ [0x5D, 0x3A] ++ port
  else
    host ++ [0x3A] ++ port

/-- Dotted decimal text of four address bytes. -/
def dottedQuad (a b c d : UInt8) : List UInt8 :=
  itoaBytes a.toNat ++ [0x2E] ++ itoaBytes b.toNat ++ [0x2E] ++
    itoaBytes c.toNat ++ [0x2E] ++ itoaBytes d.toNat

/-- The eight 16-bit groups of a 16-byte address. -/
def ipv6Groups : List UInt8 → List Nat
  | hi :: lo :: rest => (hi.toNat * 256 + lo.toNat) :: ipv6Groups rest
  | _ => []

/-- Length of the run of zero groups at the head of a list. -/
def zeroRunLength : List Nat → Nat
  | 0 :: rest => zeroRunLength rest + 1
  | _ => 0

/-- Search of Go `netip.Addr.appendTo6` for the first longest run of at least
two zero groups: `(zeroStart, zeroEnd)` so far, scanning the groups from
index `i`. Both are 255 while no run has been found. -/
def longestZeroRun : List Nat → Nat → Nat × Nat → Nat × Nat
  | [], _, best => best
  | g :: rest, i, best =>
    let l := zeroRunLength (g :: rest)
    let best := if l ≥ 2 ∧ l > best.2 - best.1 then (i, i + l) else best
    longestZeroRun rest (i + 1) best

/-- Output loop of Go `netip.Addr.appendTo6` from group index `i`. -/
def appendTo6 (groups : List Nat) (zeroStart zeroEnd : Nat) : Nat → Nat → List UInt8
  | 0, _ => []
  | fuel + 1, i =>
    if i ≥ 8 then []
    else if i = zeroStart then
      if zeroEnd ≥ 8 then [0x3A, 0x3A]
      else
        [0x3A, 0x3A] ++ (Nat.toDigits 16 (groups.getD zeroEnd 0)).map (fun ch => ch.toNat.toUInt8)
          ++ appendTo6 groups zeroStart zeroEnd fuel (zeroEnd + 1)
    else
      (if i > 0 then [0x3A] else []) ++
        (Nat.toDigits 16 (groups.getD i 0)).map (fun ch => ch.toNat.toUInt8)
        ++ appendTo6 groups zeroStart zeroEnd fuel (i + 1)

/-- Go `net.IP.To4`: the four bytes of an IPv4 or IPv4-mapped address. -/
def ipTo4 (raw : List UInt8) : Option (List UInt8) :=
  if raw.length = 4 then some raw
  else if raw.length = 16 ∧ raw.take 10 = List.replicate 10 0
      ∧ raw.getD 10 0 = 0xFF ∧ raw.getD 11 0 = 0xFF then
    some (raw.drop 12)
  else none

/-- Go `net.IP.String`: dotted decimal for an IPv4 or IPv4-mapped address,
RFC 5952 text for any other 16-byte address. -/
def ipString (raw : List UInt8) : List UInt8 :=
  if raw.length = 0 then asciiBytes "<nil>"
  else if raw.length ≠ 4 ∧ raw.length ≠ 16 then
    [0x3F] ++ raw.flatMap (fun b =>
      (if b.toNat < 16 then [0x30] else []) ++
        (Nat.toDigits 16 b.toNat).map (fun ch => ch.toNat.toUInt8))
  else
    match ipTo4 raw with
    | some p4 => dottedQuad (p4.getD 0 0) (p4.getD 1 0) (p4.getD 2 0) (p4.getD 3 0)
    | none =>
      let groups := ipv6Groups raw
      let run := longestZeroRun groups 0 (255, 255)
      appendTo6 groups run.1 run.2 8 0

/-! ## internal/forward/dynamic_socks5.go -/

def socksVersion : UInt8 := 0x05
def socksAuthNoAuth : UInt8 := 0x00
def socksAuthNoAccepted : UInt8 := 0xFF
def socksCmdConnect : UInt8 := 0x01

def socksAddrIPv4 : UInt8 := 0x01
def socksAddrDomain : UInt8 := 0x03
def socksAddrIPv6 : UInt8 := 0x04

def socksReplySucceeded : UInt8 := 0x00
def socksReplyGeneralFailure : UInt8 := 0x01
def socksReplyCommandUnsupported : UInt8 := 0x07
def socksReplyAddressUnsupported : UInt8 := 0x08

/-- The server side of an accepted `net.Conn`: the bytes the client sends
that have not been read yet (the client closes after them), the bytes written
to the client so far, and the error every `Write` fails with, if any. -/
structure Conn where
  input : List UInt8
  output : List UInt8
  writeErr : Option String
  deriving DecidableEq, Repr

/-- A fresh connection on which the client sends `bytes` and writes succeed. -/
def Conn.ofClient (bytes : List UInt8) : Conn :=
  { input := bytes, output := [], writeErr := none }

/-- Go `io.ReadFull(conn, buf)` with `len(buf) = n`: exactly `n` bytes, or
`EOF` when the stream ended before any byte, or `unexpected EOF` when it ended
after some. -/
def Conn.readFull (conn : Conn) (n : Nat) : Except String (List UInt8) × Conn :=
  if n ≤ conn.input.length then
    (.ok (conn.input.take n), { conn with input := conn.input.drop n })
  else if conn.input.isEmpty then
    (.error "EOF", conn)
  else
    (.error "unexpected EOF", { conn with input := [] })

/-- Go `conn.Write(b)`: the returned error, if any, and the connection. -/
def Conn.write (conn : Conn) (b : List UInt8) : Option String × Conn :=
  match conn.writeErr with
  | some err => (some err, conn)
  | none => (none, { conn with output := conn.output ++ b })

/-- Go `writeSOCKS5Reply`. -/
def writeSOCKS5Reply (conn : Conn) (reply : UInt8) : Option String × Conn :=
  conn.write [socksVersion, reply, 0x00, socksAddrIPv4, 0x00, 0x00, 0x00, 0x00, 0x00, 0x00]

/-- Go `containsSOCKSAuthMethod`. -/
def containsSOCKSAuthMethod : List UInt8 → UInt8 → Bool
  | [], _ => false
  | method :: rest, want =>
    if method = want then true else containsSOCKSAuthMethod rest want

/-- Go `readSOCKSAddressHost`. -/
def readSOCKSAddressHost (conn : Conn) (atyp : UInt8) : Except String (List UInt8) × Conn :=
  if atyp = socksAddrIPv4 then
    match conn.readFull 4 with
    | (.error err, conn) => (.error ("read socks5 ipv4 failed: " ++ err), conn)
    | (.ok raw, conn) => (.ok (ipString raw), conn)
  else if atyp = socksAddrDomain then
    match conn.readFull 1 with
    | (.error err, conn) => (.error ("read socks5 domain length failed: " ++ err), conn)
    | (.ok size, conn) =>
      if size.headD 0 = 0 then
        (.error "invalid socks5 domain length", conn)
      else
        match conn.readFull (size.headD 0).toNat with
        | (.error err, conn) => (.error ("read socks5 domain failed: " ++ err), conn)
        | (.ok raw, conn) => (.ok raw, conn)
  else if atyp = socksAddrIPv6 then
    match conn.readFull 16 with
    | (.error err, conn) => (.error ("read socks5 ipv6 failed: " ++ err), conn)
    | (.ok raw, conn) => (.ok (ipString raw), conn)
  else
    (.error ("unsupported socks5 address type: " ++ fmtNat atyp.toNat), conn)

/-- Go `readSOCKS5ConnectTarget`: the target or the error, and the connection
after the call. -/
def readSOCKS5ConnectTarget (conn : Conn) : Except String (List UInt8) × Conn :=
  match conn.readFull 2 with
  | (.error err, conn) => (.error ("read socks5 greeting failed: " ++ err), conn)
  | (.ok greeting, conn) =>
    if greeting.getD 0 0 ≠ socksVersion then
      (.error ("unsupported socks version: " ++ fmtNat (greeting.getD 0 0).toNat), conn)
    else
      let methodCount := (greeting.getD 1 0).toNat
      if methodCount ≤ 0 then
        (.error "empty socks5 auth methods", conn)
      else
        match conn.readFull methodCount with
        | (.error err, conn) => (.error ("read socks5 auth methods failed: " ++ err), conn)
        | (.ok methods, conn) =>
          if !containsSOCKSAuthMethod methods socksAuthNoAuth then
            let conn := (conn.write [socksVersion, socksAuthNoAccepted]).2
            (.error "socks5 no-auth method is not accepted by client", conn)
          else
            match conn.write [socksVersion, socksAuthNoAuth] with
            | (some err, conn) => (.error ("write socks5 auth response failed: " ++ err), conn)
            | (none, conn) =>
              match conn.readFull 4 with
              | (.error err, conn) =>
                (.error ("read socks5 request header failed: " ++ err), conn)
              | (.ok reqHeader, conn) =>
                if reqHeader.getD 0 0 ≠ socksVersion then
                  (.error ("unsupported socks request version: "
                    ++ fmtNat (reqHeader.getD 0 0).toNat), conn)
                else
                  let cmd := reqHeader.getD 1 0
                  let atyp := reqHeader.getD 3 0
                  if cmd ≠ socksCmdConnect then
                    let conn := (writeSOCKS5Reply conn socksReplyCommandUnsupported).2
                    (.error ("unsupported socks5 command: " ++ fmtNat cmd.toNat), conn)
                  else
                    match readSOCKSAddressHost conn atyp with
                    | (.error err, conn) =>
                      let conn := (writeSOCKS5Reply conn socksReplyAddressUnsupported).2
                      (.error err, conn)
                    | (.ok host, conn) =>
                      match conn.readFull 2 with
                      | (.error err, conn) =>
                        (.error ("read socks5 target port failed: " ++ err), conn)
                      | (.ok portBytes, conn) =>
                        let port := bigEndianUint16 (portBytes.getD 0 0) (portBytes.getD 1 0)
                        (.ok (joinHostPort host (itoaBytes port)), conn)

/-! ## internal/forward/port_forward.go: host key algorithms -/

/-- Go `strings.HasPrefix`. -/
def hasPrefix (s pre : String) : Bool :=
  pre.data.isPrefixOf s.data

/-- Go `strings.TrimPrefix`. -/
def trimPrefix (s pre : String) : String :=
  if hasPrefix s pre then String.mk (s.data.drop pre.data.length) else s

/-- Go `strings.Split(s, ",")` on the characters of `s`: the pieces between
the commas, in order; an empty input gives one empty piece. -/
def splitOnComma : List Char → List (List Char)
  | [] => [[]]
  | ch :: rest =>
    if ch = ',' then [] :: splitOnComma rest
    else
      match splitOnComma rest with
      | [] => [[ch]]
      | piece :: pieces => (ch :: piece) :: pieces

/-- Go `splitAlgorithms`. -/
def splitAlgorithms (s : String) : List String :=
  (splitOnComma s.data).map String.mk

/-- Go `getDefaultHostKeyAlgorithms`. -/
def getDefaultHostKeyAlgorithms : List String :=
  ["ssh-rsa", "rsa-sha2-256", "rsa-sha2-512", "ecdsa-sha2-nistp256",
   "ecdsa-sha2-nistp384", "ecdsa-sha2-nistp521", "ssh-ed25519"]

/-- Go `removeFromDefaultHostKeyAlgorithms`: the loop keeps, in order, every
default algorithm different from `algorithm`. -/
def removeFromDefaultHostKeyAlgorithms (algorithm : String) : List String :=
  getDefaultHostKeyAlgorithms.filter (fun algo => algo ≠ algorithm)

/-- Go `parseHostKeyAlgorithms`; the `nil` result is the empty list. -/
def parseHostKeyAlgorithms (s : String) : List String :=
  let s := trimSpace s
  if s = "" then []
  else if hasPrefix s "+" then
    getDefaultHostKeyAlgorithms ++ [trimPrefix s "+"]
  else if hasPrefix s "-" then
    removeFromDefaultHostKeyAlgorithms (trimPrefix s "-")
  else
    splitAlgorithms s

/-- The text obtained by writing the pieces one after the other with a comma
between neighbours: what splitting at commas has to undo. -/
def joinWithCommas : List String → String
  | [] => ""
  | [piece] => piece
  | piece :: next :: rest => piece ++ "," ++ joinWithCommas (next :: rest)

/-! ## internal/biz/jumper.go: create and update -/

/-- Go `model.JumperPayload`. -/
structure JumperPayload where
  Name : String
  Host : String
  Port : Int
  User : String
  AuthType : String
  KeyPath : String
  AgentSocketPath : String
  Password : String
  BypassHostVerification : Bool
  KeepAliveIntervalMs : Int
  TimeoutMs : Int
  HostKeyAlgorithms : String
  Notes : String
  deriving DecidableEq, Repr

/-- Go constant `defaultKeepAliveIntervalMs`. -/
def defaultKeepAliveIntervalMs : Int := 5000

/-- Go constant `minKeepAliveIntervalMs`. -/
def minKeepAliveIntervalMs : Int := 1000

/-- Go constant `maxKeepAliveIntervalMs`. -/
def maxKeepAliveIntervalMs : Int := 120000

/-- Go `normalizeJumperPayload`. -/
def normalizeJumperPayload (payload : JumperPayload) : JumperPayload :=
  let payload := { payload with
    Name := trimSpace payload.Name,
    Host := trimSpace payload.Host,
    User := trimSpace payload.User,
    AuthType := trimSpace payload.AuthType,
    KeyPath := trimSpace payload.KeyPath,
    AgentSocketPath := trimSpace payload.AgentSocketPath,
    HostKeyAlgorithms := trimSpace payload.HostKeyAlgorithms,
    Notes := trimSpace payload.Notes }
  let payload := if payload.Port ≤ 0 then { payload with Port := 22 } else payload
  let payload := if payload.TimeoutMs ≤ 0 then { payload with TimeoutMs := 5000 } else payload
  let payload :=
    if payload.KeepAliveIntervalMs < 0 then
      { payload with KeepAliveIntervalMs := defaultKeepAliveIntervalMs }
    else payload
  let payload := if payload.AuthType = "" then { payload with AuthType := "ssh_key" } else payload
  let payload := if payload.AuthType ≠ "ssh_key" then { payload with KeyPath := "" } else payload
  let payload := if payload.AuthType = "ssh_agent" then { payload with Password := "" } else payload
  payload

/-- Go `validateJumperPayload`; `none` is `nil`. -/
def validateJumperPayload (payload : JumperPayload) : Option String :=
  if payload.Name = "" then some "name is required"
  else if payload.Host = "" then some "host is required"
  else if payload.User = "" then some "user is required"
  else if payload.Port < 1 ∨ payload.Port > 65535 then
    some "port must be between 1 and 65535"
  else if payload.TimeoutMs < 100 ∨ payload.TimeoutMs > 120000 then
    some "timeoutMs must be between 100 and 120000"
  else if payload.KeepAliveIntervalMs > maxKeepAliveIntervalMs then
    some "keepAliveIntervalMs must be 0 (disable) or between 1000 and 120000"
  else if payload.KeepAliveIntervalMs > 0
      ∧ payload.KeepAliveIntervalMs < minKeepAliveIntervalMs then
    some "keepAliveIntervalMs must be 0 (disable) or between 1000 and 120000"
  else if payload.AuthType = "password" then
    if trimSpace payload.Password = "" then some "password auth requires password" else none
  else if payload.AuthType = "ssh_key" then
    if payload.KeyPath = "" then some "ssh_key auth requires keyPath" else none
  else if payload.AuthType = "ssh_agent" then none
  else some ("unsupported authType: " ++ payload.AuthType)

/-- One round of the loop of Go `nextJumperID` and `nextTunnelID`:
`if item.ID >= next { next = item.ID + 1 }`, in `int` arithmetic. -/
def nextIDStep (next id : Int) : Int :=
  if id ≥ next then wrapInt64 (id + 1) else next

/-- Go `nextJumperID`. -/
def nextJumperID (items : List Jumper) : Int :=
  items.foldl (fun next item => nextIDStep next item.ID) 1

/-- The struct literal `model.Jumper{ID: ..., Name: payload.Name, ...}` of Go
`(*JumperBiz).Create` and `(*JumperBiz).Update`. -/
def jumperFromPayload (id : Int) (payload : JumperPayload) : Jumper :=
  { ID := id,
    Name := payload.Name,
    Host := payload.Host,
    Port := payload.Port,
    User := payload.User,
    AuthType := payload.AuthType,
    KeyPath := payload.KeyPath,
    AgentSocketPath := payload.AgentSocketPath,
    Password := payload.Password,
    BypassHostVerification := payload.BypassHostVerification,
    KeepAliveIntervalMs := payload.KeepAliveIntervalMs,
    TimeoutMs := payload.TimeoutMs,
    HostKeyAlgorithms := payload.HostKeyAlgorithms,
    Notes := payload.Notes }

/-- The mutator passed to `Storage.Update` by Go `(*JumperBiz).Create`, for the
normalized payload. -/
def jumperCreateMutator (payload : JumperPayload) (cfg : Config) :
    Except String (Config × Jumper) :=
  let created := jumperFromPayload (nextJumperID cfg.Jumpers) payload
  .ok ({ cfg with Jumpers := cfg.Jumpers ++ [created] }, created)

/-- Go `(*JumperBiz).Create`: the created jumper or the error, and the storage
after the call. -/
def JumperBiz.Create (codec : TomlCodec) (storage : Storage) (payload : JumperPayload) :
    Except String Jumper × Storage :=
  let payload := normalizeJumperPayload payload
  match validateJumperPayload payload with
  | some err => (.error err, storage)
  | none =>
    match storage.Update codec (jumperCreateMutator payload) with
    | (.error err, storage) => (.error err, storage)
    | (.ok (_, created), storage) => (.ok created, storage)

/-- The mutator passed to `Storage.Update` by Go `(*JumperBiz).Update`, for the
normalized payload. -/
def jumperUpdateMutator (id : Int) (payload : JumperPayload) (cfg : Config) :
    Except String (Config × Jumper) :=
  match jumperIndex cfg.Jumpers id with
  | none => .error ErrJumperNotFound
  | some idx =>
    let updated := jumperFromPayload id payload
    .ok ({ cfg with Jumpers := cfg.Jumpers.set idx updated }, updated)

/-- Go `(*JumperBiz).Update`. -/
def JumperBiz.Update (codec : TomlCodec) (storage : Storage) (id : Int)
    (payload : JumperPayload) : Except String Jumper × Storage :=
  if id ≤ 0 then
    (.error "invalid jumper id", storage)
  else
    let payload := normalizeJumperPayload payload
    match validateJumperPayload payload with
    | some err => (.error err, storage)
    | none =>
      match storage.Update codec (jumperUpdateMutator id payload) with
      | (.error err, storage) => (.error err, storage)
      | (.ok (_, updated), storage) => (.ok updated, storage)

/-! ## internal/biz/tunnel.go: create, delete and status -/

/-- Go `nextTunnelID`. -/
def nextTunnelID (items : List Tunnel) : Int :=
  items.foldl (fun next item => nextIDStep next item.ID) 1

/-- The mutator passed to `Storage.Update` by Go `(*TunnelBiz).Create`, for the
normalized payload. -/
def tunnelCreateMutator (payload : TunnelPayload) (cfg : Config) :
    Except String (Config × Tunnel) :=
  match validateTunnelPayload payload with
  | some err => .error err
  | none =>
    match collectJumpers cfg.Jumpers payload.JumperIDs with
    | .error err => .error err
    | .ok _ =>
      let created : Tunnel :=
        { ID := nextTunnelID cfg.Tunnels,
          Name := payload.Name,
          Mode := payload.Mode,
          JumperIDs := [] ++ payload.JumperIDs,
          LocalHost := payload.LocalHost,
          LocalPort := payload.LocalPort,
          RemoteHost := payload.RemoteHost,
          RemotePort := payload.RemotePort,
          AutoStart := payload.AutoStart,
          Status := payload.Status,
          LastError := "",
          Description := payload.Description,
          LatencyMs := 0 }
      .ok ({ cfg with Tunnels := cfg.Tunnels ++ [created] }, created)

/-- Go `(*TunnelBiz).Create`. -/
def TunnelBiz.Create (codec : TomlCodec) (b : TunnelBiz) (payload : TunnelPayload) :
    Except String Tunnel × TunnelBiz :=
  let payload := normalizeTunnelPayload payload
  match b.storage.Update codec (tunnelCreateMutator payload) with
  | (.error err, storage) => (.error err, { b with storage := storage })
  | (.ok (_, created), storage) => (.ok created, { b with storage := storage })

/-- Go `(*TunnelBiz).stopRuntime`: the entry of `id` is deleted from the map
and the runtime stopped; `(*LocalForward).Stop` always returns `nil`. -/
def TunnelBiz.stopRuntime (b : TunnelBiz) (id : Int) : Option String × TunnelBiz :=
  match b.runs.lookup id with
  | some _ => (none, { b with runs := b.runs.filter (fun entry => entry.1 ≠ id) })
  | none => (none, b)

/-- The mutator passed to `Storage.Update` by Go `(*TunnelBiz).Delete`. -/
def tunnelDeleteMutator (id : Int) (cfg : Config) : Except String (Config × Unit) :=
  match tunnelIndex cfg.Tunnels id with
  | none => .error ErrTunnelNotFound
  | some idx =>
    .ok ({ cfg with Tunnels := cfg.Tunnels.take idx ++ cfg.Tunnels.drop (idx + 1) }, ())

/-- Go `(*TunnelBiz).Delete`. -/
def TunnelBiz.Delete (codec : TomlCodec) (b : TunnelBiz) (id : Int) :
    Option String × TunnelBiz :=
  if id ≤ 0 then
    (some "invalid tunnel id", b)
  else
    match b.stopRuntime id with
    | (some err, b) => (some err, b)
    | (none, b) =>
      match b.storage.Update codec (tunnelDeleteMutator id) with
      | (.error err, storage) => (some err, { b with storage := storage })
      | (.ok _, storage) => (none, { b with storage := storage })

/-- The mutator passed to `Storage.Update` by Go `(*TunnelBiz).updateStatus`. -/
def tunnelStatusMutator (id : Int) (status lastError : String) (cfg : Config) :
    Except String (Config × Tunnel) :=
  match tunnelIndex cfg.Tunnels id with
  | none => .error ErrTunnelNotFound
  | some idx =>
    let updated : Tunnel :=
      { (cfg.Tunnels.get? idx).getD Tunnel.zero with
        Status := status, LastError := trimSpace lastError }
    .ok ({ cfg with Tunnels := cfg.Tunnels.set idx updated }, updated)

/-- Go `(*TunnelBiz).updateStatus`. -/
def TunnelBiz.updateStatus (codec : TomlCodec) (b : TunnelBiz) (id : Int)
    (status lastError : String) : Except String Tunnel × TunnelBiz :=
  match b.storage.Update codec (tunnelStatusMutator id status lastError) with
  | (.error err, storage) => (.error err, { b with storage := storage })
  | (.ok (_, updated), storage) => (.ok updated, { b with storage := storage })

/-! ## Reference description of `normalizeJumperIDs` -/

/-- The elements of `ids` that are strictly positive and occur neither in
`earlier` nor earlier in `ids`, in the order of `ids`. -/
def firstPositiveOccurrencesFrom : List Int → List Int → List Int
  | _, [] => []
  | earlier, id :: rest =>
    if 0 < id ∧ id ∉ earlier then
      id :: firstPositiveOccurrencesFrom (earlier ++ [id]) rest
    else
      firstPositiveOccurrencesFrom (earlier ++ [id]) rest

/-- The subsequence of `ids` made of the first occurrence of each strictly
positive value. -/
def firstPositiveOccurrences (ids : List Int) : List Int :=
  firstPositiveOccurrencesFrom [] ids

/-! ## The TOML library as seen by the store -/

/-- The part of a tunnel that has a TOML key: `LatencyMs` is tagged `toml:"-"`
in `model.Tunnel`, so it is never written and reads back as the zero value. -/
def Tunnel.persisted (t : Tunnel) : Tunnel :=
  { t with LatencyMs := 0 }

/-- The part of a config that has TOML keys. -/
def Config.persisted (c : Config) : Config :=
  { c with Tunnels := c.Tunnels.map Tunnel.persisted }

/-- The contract the store expects from the TOML library: every config is
encoded without error into a text that is not blank, and decoding that text
into `DefaultConfig` gives the config back, up to the fields without a key. -/
def TomlCodec.Faithful (codec : TomlCodec) : Prop :=
  ∀ cfg : Config, ∃ text : String,
    codec.encode cfg = .ok text ∧ (trimSpace text).utf8ByteSize ≠ 0 ∧
    codec.decode text DefaultConfig = .ok cfg.persisted

/-! ## A reference codec

A small lossless text format that satisfies `TomlCodec.Faithful`, used to run
the store on concrete inputs. Numbers are written in unary, strings and lists
with their length in front. -/

/-- A natural number: that many `1`, then `0`. -/
def encNat (n : Nat) : List Char :=
  List.replicate n '1' ++ ['0']

/-- Reads a natural number written by `encNat`. -/
def decNat : List Char → Option (Nat × List Char)
  | [] => none
  | ch :: rest =>
    if ch = '1' then
      match decNat rest with
      | some (n, r) => some (n + 1, r)
      | none => none
    else if ch = '0' then some (0, rest)
    else none

/-- An integer: its sign, then its absolute value. -/
def encInt (z : Int) : List Char :=
  (if z < 0 then '-' else '+') :: encNat z.natAbs

/-- Reads an integer written by `encInt`. -/
def decInt : List Char → Option (Int × List Char)
  | [] => none
  | ch :: rest =>
    match decNat rest with
    | some (n, r) =>
      if ch = '-' then some (-(n : Int), r)
      else if ch = '+' then some ((n : Int), r)
      else none
    | none => none

/-- A boolean: `t` or `f`. -/
def encBool (b : Bool) : List Char :=
  [if b then 't' else 'f']

/-- Reads a boolean written by `encBool`. -/
def decBool : List Char → Option (Bool × List Char)
  | [] => none
  | ch :: rest =>
    if ch = 't' then some (true, rest)
    else if ch = 'f' then some (false, rest)
    else none

/-- A string: its length, then its characters. -/
def encStr (s : String) : List Char :=
  encNat s.data.length ++ s.data

/-- Reads a string written by `encStr`. -/
def decStr (l : List Char) : Option (String × List Char) :=
  match decNat l with
  | some (n, r) => if n ≤ r.length then some (String.mk (r.take n), r.drop n) else none
  | none => none

/-- The items of a list, one after the other. -/
def encItems {α : Type} (enc : α → List Char) : List α → List Char
  | [] => []
  | x :: xs => enc x ++ encItems enc xs

/-- Reads `n` items. -/
def decItems {α : Type} (dec : List Char → Option (α × List Char)) :
    Nat → List Char → Option (List α × List Char)
  | 0, l => some ([], l)
  | n + 1, l =>
    match dec l with
    | some (x, r) =>
      match decItems dec n r with
      | some (xs, r2) => some (x :: xs, r2)
      | none => none
    | none => none

/-- A list: its length, then its items. -/
def encList {α : Type} (enc : α → List Char) (xs : List α) : List Char :=
  encNat xs.length ++ encItems enc xs

/-- Reads a list written by `encList`. -/
def decList {α : Type} (dec : List Char → Option (α × List Char)) (l : List Char) :
    Option (List α × List Char) :=
  match decNat l with
  | some (n, r) => decItems dec n r
  | none => none

/-- A jumper: its fields in the order of `model.Jumper`. -/
def encJumper (j : Jumper) : List Char :=
  encInt j.ID ++ (encStr j.Name ++ (encStr j.Host ++ (encInt j.Port ++ (encStr j.User ++
    (encStr j.AuthType ++ (encStr j.KeyPath ++ (encStr j.AgentSocketPath ++
    (encStr j.Password ++ (encBool j.BypassHostVerification ++
    (encInt j.KeepAliveIntervalMs ++ (encInt j.TimeoutMs ++
    (encStr j.HostKeyAlgorithms ++ encStr j.Notes))))))))))))

/-- Reads a jumper written by `encJumper`. -/
def decJumper (l : List Char) : Option (Jumper × List Char) :=
  match decInt l with
  | none => none
  | some (id, l) =>
  match decStr l with
  | none => none
  | some (name, l) =>
  match decStr l with
  | none => none
  | some (host, l) =>
  match decInt l with
  | none => none
  | some (port, l) =>
  match decStr l with
  | none => none
  | some (user, l) =>
  match decStr l with
  | none => none
  | some (authType, l) =>
  match decStr l with
  | none => none
  | some (keyPath, l) =>
  match decStr l with
  | none => none
  | some (agentSocketPath, l) =>
  match decStr l with
  | none => none
  | some (password, l) =>
  match decBool l with
  | none => none
  | some (bypass, l) =>
  match decInt l with
  | none => none
  | some (keepAlive, l) =>
  match decInt l with
  | none => none
  | some (timeout, l) =>
  match decStr l with
  | none => none
  | some (algorithms, l) =>
  match decStr l with
  | none => none
  | some (notes, l) =>
    some ({ ID := id, Name := name, Host := host, Port := port, User := user,
            AuthType := authType, KeyPath := keyPath, AgentSocketPath := agentSocketPath,
            Password := password, BypassHostVerification := bypass,
            KeepAliveIntervalMs := keepAlive, TimeoutMs := timeout,
            HostKeyAlgorithms := algorithms, Notes := notes }, l)

/-- A tunnel: its fields with a TOML key, in the order of `model.Tunnel`. -/
def encTunnel (t : Tunnel) : List Char :=
  encInt t.ID ++ (encStr t.Name ++ (encStr t.Mode ++ (encList encInt t.JumperIDs ++
    (encStr t.LocalHost ++ (encInt t.LocalPort ++ (encStr t.RemoteHost ++
    (encInt t.RemotePort ++ (encBool t.AutoStart ++ (encStr t.Status ++
    (encStr t.LastError ++ encStr t.Description))))))))))

/-- Reads a tunnel written by `encTunnel`; `LatencyMs` is the zero value. -/
def decTunnel (l : List Char) : Option (Tunnel × List Char) :=
  match decInt l with
  | none => none
  | some (id, l) =>
  match decStr l with
  | none => none
  | some (name, l) =>
  match decStr l with
  | none => none
  | some (mode, l) =>
  match decList decInt l with
  | none => none
  | some (jumperIDs, l) =>
  match decStr l with
  | none => none
  | some (localHost, l) =>
  match decInt l with
  | none => none
  | some (localPort, l) =>
  match decStr l with
  | none => none
  | some (remoteHost, l) =>
  match decInt l with
  | none => none
  | some (remotePort, l) =>
  match decBool l with
  | none => none
  | some (autoStart, l) =>
  match decStr l with
  | none => none
  | some (status, l) =>
  match decStr l with
  | none => none
  | some (lastError, l) =>
  match decStr l with
  | none => none
  | some (description, l) =>
    some ({ ID := id, Name := name, Mode := mode, JumperIDs := jumperIDs,
            LocalHost := localHost, LocalPort := localPort, RemoteHost := remoteHost,
            RemotePort := remotePort, AutoStart := autoStart, Status := status,
            LastError := lastError, Description := description, LatencyMs := 0 }, l)

/-- A config: the letter `v`, the version, the jumpers, the tunnels. -/
def encConfig (c : Config) : List Char :=
  'v' :: (encInt c.Version ++ (encList encJumper c.Jumpers ++ encList encTunnel c.Tunnels))

/-- Reads a config written by `encConfig`. -/
def decConfig (l : List Char) : Option Config :=
  match l with
  | [] => none
  | ch :: l =>
    if ch ≠ 'v' then none
    else
      match decInt l with
      | none => none
      | some (version, l) =>
      match decList decJumper l with
      | none => none
      | some (jumpers, l) =>
      match decList decTunnel l with
      | none => none
      | some (tunnels, _) =>
        some { Version := version, Jumpers := jumpers, Tunnels := tunnels }

/-- The reference codec. -/
def referenceCodec : TomlCodec :=
  { decode := (fun text _ =>
      match decConfig text.data with
      | some cfg => Except.ok cfg
      | none => Except.error "malformed reference text")
    encode := (fun cfg => Except.ok (String.mk (encConfig cfg))) }

/-- A config with small numbers for the reference codec: jumper 1 and tunnel 1
through it. -/
def smallConfig : Config :=
  { Version := 1,
    Jumpers := [{ Jumper.zero with
                  ID := 1, Name := "bastion", Host := "10.0.0.1",
                  Port := 22, User := "ops", AuthType := "ssh_agent", TimeoutMs := 100 }],
    Tunnels := [{ Tunnel.zero with
                  ID := 1, Name := "web", Mode := "local",
                  JumperIDs := [1], LocalHost := "127.0.0.1", LocalPort := 81,
                  RemoteHost := "example.com", RemotePort := 80, Status := "stopped" }] }

/-- The storage whose file is `smallConfig` as written by the reference codec. -/
def smallStorage : Storage :=
  { file := some (encodeConfigTOML referenceCodec smallConfig).1 }

/-! ## Invariants of a config -/

/-- Referential integrity: every ID in every tunnel's `JumperIDs` is the ID of
some jumper of the config. -/
def Config.ReferencesResolve (c : Config) : Prop :=
  ∀ t ∈ c.Tunnels, ∀ id ∈ t.JumperIDs, ∃ j ∈ c.Jumpers, j.ID = id

/-- A list of IDs is pairwise distinct and holds only IDs ≥ 1. -/
def idsUnique (ids : List Int) : Prop :=
  ids.Nodup ∧ ∀ id ∈ ids, 1 ≤ id

/-- The jumper IDs of a config are pairwise distinct and ≥ 1. -/
def Config.JumperIDsUnique (c : Config) : Prop :=
  idsUnique (c.Jumpers.map (fun j => j.ID))

/-- The tunnel IDs of a config are pairwise distinct and ≥ 1. -/
def Config.TunnelIDsUnique (c : Config) : Prop :=
  idsUnique (c.Tunnels.map (fun t => t.ID))

/-- A config whose only jumper has the largest `int` as its ID. -/
def maxIDConfig : Config :=
  { Version := 1,
    Jumpers := [{ Jumper.zero with
                  ID := 9223372036854775807, Name := "last", Host := "10.0.0.9",
                  Port := 22, User := "ops", AuthType := "ssh_agent", TimeoutMs := 100 }],
    Tunnels := [] }

/-- The storage whose file is `maxIDConfig` as written by the reference codec. -/
def maxIDStorage : Storage :=
  { file := some (encodeConfigTOML referenceCodec maxIDConfig).1 }

/-- A valid jumper payload. -/
def nextPayload : JumperPayload :=
  { Name := "next", Host := "10.0.0.10", Port := 22, User := "ops", AuthType := "ssh_agent",
    KeyPath := "", AgentSocketPath := "", Password := "", BypassHostVerification := false,
    KeepAliveIntervalMs := 0, TimeoutMs := 100, HostKeyAlgorithms := "", Notes := "" }

/-! ## Successive calls -/

/-- Successive `JumperBiz.Create` calls, one per payload, in order: the
results and the storage after the last call. -/
def JumperBiz.CreateAll (codec : TomlCodec) :
    Storage → List JumperPayload → List (Except String Jumper) × Storage
  | storage, [] => ([], storage)
  | storage, p :: rest =>
    ((JumperBiz.Create codec storage p).1 ::
        (JumperBiz.CreateAll codec (JumperBiz.Create codec storage p).2 rest).1,
      (JumperBiz.CreateAll codec (JumperBiz.Create codec storage p).2 rest).2)

/-- Successive `TunnelBiz.Create` calls, one per payload, in order: the
results and the manager after the last call. -/
def TunnelBiz.CreateAll (codec : TomlCodec) :
    TunnelBiz → List TunnelPayload → List (Except String Tunnel) × TunnelBiz
  | b, [] => ([], b)
  | b, p :: rest =>
    ((TunnelBiz.Create codec b p).1 ::
        (TunnelBiz.CreateAll codec (TunnelBiz.Create codec b p).2 rest).1,
      (TunnelBiz.CreateAll codec (TunnelBiz.Create codec b p).2 rest).2)

/-- The IDs `k, k + 1, ...`, `n` of them. -/
def idsFrom (k : Int) : Nat → List Int
  | 0 => []
  | n + 1 => k :: idsFrom (k + 1) n

/-- The config `smallConfig` without its tunnel: jumper 1 only. -/
def jumperOnlyConfig : Config :=
  { smallConfig with Tunnels := [] }

/-- The storage whose file is `jumperOnlyConfig` as written by the reference
codec. -/
def jumperOnlyStorage : Storage :=
  { file := some (encodeConfigTOML referenceCodec jumperOnlyConfig).1 }

/-- A valid tunnel payload through jumper 1. -/
def webPayload : TunnelPayload :=
  { Name := "web", Mode := "local", JumperIDs := [1], LocalHost := "127.0.0.1",
    LocalPort := 81, RemoteHost := "example.com", RemotePort := 80, AutoStart := false,
    Status := "stopped", Description := "" }

/-! ## Save, then load -/

/-- The config a `loadLocked` returns right after `saveLocked cfg` wrote the
file. -/
def saveThenLoad (codec : TomlCodec) (r : Storage) (cfg : Config) : Except String Config :=
  ((r.saveLocked codec cfg).2.1.loadLocked codec).1

/-- The config `smallConfig` with a measured latency of 7 ms on its tunnel. -/
def latencyConfig : Config :=
  { smallConfig with
    Tunnels := smallConfig.Tunnels.map (fun t => { t with LatencyMs := 7 }) }

/-- The jumper of `TestStorage_LoadUpdate`. -/
def testJumper : Jumper :=
  { Jumper.zero with ID := 1, Name := "Test Jumper", Host := "localhost" }

/-- The default config with `testJumper` appended, as the mutator of
`TestStorage_LoadUpdate` leaves it. -/
def testJumperConfig : Config :=
  { DefaultConfig with Jumpers := DefaultConfig.Jumpers ++ [testJumper] }

/-! ## internal/biz/tunnel.go: toggling a tunnel -/

/-- What `(*TunnelBiz).Toggle` takes from outside the package: `start t
jumpers` is the outcome of `forward.NewLocalForward(t, jumpers).Start()`, the
error message or the handle of the runtime now running, and `errorf format` is
the message of `fmt.Errorf(format)` called without arguments. -/
structure ToggleEnv where
  start : Tunnel → List Jumper → Except String Nat
  errorf : String → String

/-- Go `errReason` on a non-nil error. -/
def errReason (err : String) : String :=
  trimSpace err

/-- Go `(*TunnelBiz).startRuntime`: the error and the manager after the call.
The runtime is watched by a goroutine of its own, which is not part of the
call. -/
def TunnelBiz.startRuntime (env : ToggleEnv) (b : TunnelBiz) (t : Tunnel)
    (jumpers : List Jumper) : Option String × TunnelBiz :=
  if (b.runs.lookup t.ID).isSome then
    (none, b)
  else
    match env.start t jumpers with
    | .error err => (some err, b)
    | .ok run =>
      if (b.runs.lookup t.ID).isSome then
        (none, b)
      else
        (none, { b with runs := (t.ID, run) :: b.runs })

/-- Go `(*TunnelBiz).Toggle`: the tunnel as persisted by the call or the
error, and the manager after the call. -/
def TunnelBiz.Toggle (codec : TomlCodec) (env : ToggleEnv) (b : TunnelBiz) (id : Int) :
    Except String Tunnel × TunnelBiz :=
  if id ≤ 0 then
    (.error "invalid tunnel id", b)
  else
    match b.storage.Load codec with
    | (.error err, storage) => (.error err, { b with storage := storage })
    | (.ok cfg, storage) =>
      let b : TunnelBiz := { b with storage := storage }
      match findTunnelByID cfg.Tunnels id with
      | none => (.error ErrTunnelNotFound, b)
      | some tunnel =>
        if b.isRunning id ∨ tunnel.Status = "running" then
          match b.stopRuntime id with
          | (some err, b) => (.error err, b)
          | (none, b) => b.updateStatus codec id "stopped" ""
        else
          match collectJumpers cfg.Jumpers tunnel.JumperIDs with
          | .error _ =>
            match b.updateStatus codec id "error" "jumper not found" with
            | (.error _, b) => (.error ErrJumperNotFound, b)
            | (.ok updated, b) => (.ok updated, b)
          | .ok jumpers =>
            if tunnel.Mode ≠ "local" ∧ tunnel.Mode ≠ "remote" ∧ tunnel.Mode ≠ "dynamic" then
              let msg := "mode " ++ tunnel.Mode ++
                " is not supported yet, only local, remote and dynamic forward are implemented"
              match b.updateStatus codec id "error" msg with
              | (.error _, b) => (.error (env.errorf msg), b)
              | (.ok updated, b) => (.ok updated, b)
            else
              match b.startRuntime env tunnel jumpers with
              | (some err, b) =>
                match b.updateStatus codec id "error" (errReason err) with
                | (.error statusErr, b) =>
                  (.error ("start tunnel failed: " ++ err ++ " (persist status failed: " ++
                    statusErr ++ ")"), b)
                | (.ok updated, b) => (.ok updated, b)
              | (none, b) =>
                match b.updateStatus codec id "running" "" with
                | (.error err, b) => (.error err, (b.stopRuntime id).2)
                | (.ok updated, b) => (.ok updated, b)

/-- The config `smallConfig` with its tunnel persisted as running. -/
def runningConfig : Config :=
  { smallConfig with
    Tunnels := smallConfig.Tunnels.map (fun t => { t with Status := "running" }) }

/-- The tunnel of `runningConfig`. -/
def runningTunnel : Tunnel :=
  runningConfig.Tunnels.getD 0 Tunnel.zero

/-- The storage whose file is `runningConfig` as written by the reference
codec. -/
def runningStorage : Storage :=
  { file := some (encodeConfigTOML referenceCodec runningConfig).1 }

/-- An environment in which every runtime starts, with handle 7. -/
def startingEnv : ToggleEnv :=
  { start := (fun _ _ => .ok 7), errorf := (fun format => format) }

/-! ## internal/forward/port_forward.go: SSH agent sockets -/

/-- What the agent socket search reads from its process: the two environment
variables, `os.UserHomeDir()` (`none` when it returns an error), whether the
build is the Windows one (`runtime.GOOS` and the build tag of
`agent_windows.go`), and `filepath.Join`. -/
structure AgentEnv where
  lorisSock : String
  sshAuthSock : String
  home : Option String
  windows : Bool
  join : List String → String

/-- Go `windowsSSHAgentPipe`. -/
def windowsSSHAgentPipe : String := "\\\\.\\pipe\\openssh-ssh-agent"

/-- Go `defaultAgentSocketCandidates`, of `agent_windows.go` or
`agent_unix.go`. -/
def defaultAgentSocketCandidates (env : AgentEnv) : List String :=
  if env.windows then [windowsSSHAgentPipe] else []

/-- Go `normalizeAgentSocketPath`. -/
def normalizeAgentSocketPath (env : AgentEnv) (sock : String) : String :=
  let s := trimSpace sock
  if s = "" then ""
  else if hasPrefix s "~/" then
    match env.home with
    | none => s
    | some home => env.join [home, trimPrefix s "~/"]
  else s

/-- The closure `add` of Go `agentSocketCandidates`, on the pair of the set
`seen` and the slice `candidates`. -/
def agentSocketAdd (env : AgentEnv) (state : List String × List String) (sock : String) :
    List String × List String :=
  let normalized := normalizeAgentSocketPath env sock
  if normalized = "" then state
  else if state.1.contains normalized then state
  else (normalized :: state.1, state.2 ++ [normalized])

/-- Go `agentSocketCandidates`. -/
def agentSocketCandidates (env : AgentEnv) (preferredSocketPath : String) : List String :=
  let state := agentSocketAdd env ([], []) preferredSocketPath
  let state := agentSocketAdd env state env.lorisSock
  let state := agentSocketAdd env state env.sshAuthSock
  let state := (defaultAgentSocketCandidates env).foldl (agentSocketAdd env) state
  let state :=
    if env.windows then state
    else
      match env.home with
      | none => state
      | some home =>
        if trimSpace home ≠ "" then
          agentSocketAdd env state (env.join [home, ".ssh", "ssh-agent.sock"])
        else state
  state.2

/-! ## Reference description of the agent socket candidates -/

/-- The elements of a list that occur neither in `earlier` nor earlier in the
list, in the order of the list. -/
def firstOccurrencesFrom {α : Type} [DecidableEq α] : List α → List α → List α
  | _, [] => []
  | earlier, x :: rest =>
    if x ∈ earlier then firstOccurrencesFrom earlier rest
    else x :: firstOccurrencesFrom (earlier ++ [x]) rest

/-- The OS defaults among the agent sockets: the named pipe on Windows;
elsewhere `<home>/.ssh/ssh-agent.sock` when the home directory is known and
not blank. -/
def osDefaultAgentSockets (env : AgentEnv) : List String :=
  if env.windows then [windowsSSHAgentPipe]
  else
    match env.home with
    | none => []
    | some home => if trimSpace home ≠ "" then [env.join [home, ".ssh", "ssh-agent.sock"]] else []

/-- The entries of the agent socket search in the order of the claim: explicit
path, `LORIS_TUNNEL_SSH_AUTH_SOCK`, `SSH_AUTH_SOCK`, OS defaults. -/
def agentSocketSources (env : AgentEnv) (explicit : String) : List String :=
  [explicit, env.lorisSock, env.sshAuthSock] ++ osDefaultAgentSockets env

/-- Trimming, then expanding a leading `~/` to the home directory `home`. -/
def expandHome (join : List String → String) (home : String) (entry : String) : String :=
  if hasPrefix (trimSpace entry) "~/" then join [home, trimPrefix (trimSpace entry) "~/"]
  else trimSpace entry

/-- Go `strings.Split(s, "/")` on the characters of `s`. -/
def splitOnSlash : List Char → List (List Char)
  | [] => [[]]
  | c :: rest =>
    if c = '/' then [] :: splitOnSlash rest
    else
      match splitOnSlash rest with
      | [] => [[c]]
      | piece :: pieces => (c :: piece) :: pieces

/-- One path element of Go `filepath.Clean` on Unix: empty elements and `.`
are dropped, `..` removes the element before it, stays in front of a relative
path and is dropped at the root. `kept` holds the elements kept so far, the
last one first. -/
def cleanElement (rooted : Bool) (kept : List (List Char)) (element : List Char) :
    List (List Char) :=
  if element = [] ∨ element = ['.'] then kept
  else if element = ['.', '.'] then
    match kept with
    | [] => if rooted then [] else [element]
    | last :: before => if last = ['.', '.'] then element :: kept else before
  else element :: kept

/-- Go `filepath.Clean` on Unix, after its documentation. -/
def pathClean (path : String) : String :=
  if path = "" then "."
  else
    let rooted : Bool := path.data.head? = some '/'
    let kept := (splitOnSlash path.data).foldl (cleanElement rooted) []
    let body := "/".intercalate (kept.reverse.map String.mk)
    if rooted then "/" ++ body
    else if body = "" then "."
    else body

/-- Go `filepath.Join` on Unix, after its documentation: the elements from the
first non-empty one on, separated by `/` and cleaned. -/
def unixJoin (elems : List String) : String :=
  match elems.dropWhile (fun e => e = "") with
  | [] => ""
  | rest => pathClean ("/".intercalate rest)

/-- The environment of `TestAgentSocketCandidates_OrderAndNormalization`, with
`/home/u` as the home directory. -/
def testAgentEnv : AgentEnv :=
  { lorisSock := "~/custom-agent.sock", sshAuthSock := "/tmp/another-agent.sock",
    home := some "/home/u", windows := false, join := unixJoin }

/-- An environment without a home directory. -/
def homelessAgentEnv : AgentEnv :=
  { lorisSock := "", sshAuthSock := "", home := none, windows := false, join := unixJoin }

/-! ## internal/forward/port_forward.go: legacy RSA signers -/

/-- The constant `ssh.KeyAlgoRSA` of `golang.org/x/crypto/ssh`. -/
def KeyAlgoRSA : String := "ssh-rsa"

/-- The constant `ssh.KeyAlgoRSASHA256` of `golang.org/x/crypto/ssh`. -/
def KeyAlgoRSASHA256 : String := "rsa-sha2-256"

/-- The constant `ssh.KeyAlgoRSASHA512` of `golang.org/x/crypto/ssh`. -/
def KeyAlgoRSASHA512 : String := "rsa-sha2-512"

/-- The constant `ssh.KeyAlgoED25519` of `golang.org/x/crypto/ssh`. -/
def KeyAlgoED25519 : String := "ssh-ed25519"

/-- An `ssh.Signer` as `ensureSignerSupportsLegacyRSA` sees it: the type of
its public key (`none` when `PublicKey()` is nil), the key itself, whether the
signer implements `ssh.AlgorithmSigner`, and the list `Algorithms()` when it
implements `ssh.MultiAlgorithmSigner` (`none` when it does not). -/
structure Signer where
  keyType : Option String
  keyBlob : List UInt8
  algorithmSigner : Bool
  algorithms : Option (List String)
  deriving DecidableEq, Repr

/-- Go `ensureSignerSupportsLegacyRSA`; `newSignerWithAlgorithms` is
`ssh.NewSignerWithAlgorithms` of `golang.org/x/crypto/ssh`, and `none` a nil
signer. -/
def ensureSignerSupportsLegacyRSA
    (newSignerWithAlgorithms : Signer → List String → Except String Signer)
    (signer : Option Signer) : Option Signer :=
  match signer with
  | none => none
  | some signer =>
    match signer.keyType with
    | none => some signer
    | some keyType =>
      if keyType ≠ KeyAlgoRSA then some signer
      else if signer.algorithmSigner = false then some signer
      else
        match newSignerWithAlgorithms signer
            [KeyAlgoRSASHA512, KeyAlgoRSASHA256, KeyAlgoRSA] with
        | .error _ => some signer
        | .ok compatibleSigner => some compatibleSigner

/-- What `ensureSignerSupportsLegacyRSA` relies on when
`ssh.NewSignerWithAlgorithms` succeeds: the signer returned is for the same
key and advertises the algorithms asked for. -/
def RestrictsSigner (newSignerWithAlgorithms : Signer → List String → Except String Signer) :
    Prop :=
  ∀ (signer restricted : Signer) (algorithms : List String),
    newSignerWithAlgorithms signer algorithms = .ok restricted →
    restricted.keyType = signer.keyType ∧ restricted.keyBlob = signer.keyBlob ∧
    restricted.algorithms = some algorithms

/-- The signature algorithms of a key format, as `golang.org/x/crypto/ssh`
documents them: the three RSA algorithms for `ssh-rsa`, the format itself
otherwise. -/
def algorithmsForKeyFormat (keyFormat : String) : List String :=
  if keyFormat = KeyAlgoRSA then [KeyAlgoRSASHA256, KeyAlgoRSASHA512, KeyAlgoRSA]
  else [keyFormat]

/-- A model of `ssh.NewSignerWithAlgorithms` after its documentation in
`golang.org/x/crypto/ssh`: the list must not be empty, every algorithm must be
one of the key format, and none may be outside the list a multi-algorithm
signer is already restricted to. -/
def referenceNewSignerWithAlgorithms (signer : Signer) (algorithms : List String) :
    Except String Signer :=
  if algorithms = [] then
    .error "ssh: please specify at least one valid signing algorithm"
  else
    let supportedAlgos := algorithmsForKeyFormat (signer.keyType.getD "")
    let signerAlgos := signer.algorithms.getD supportedAlgos
    match algorithms.find? (fun algo => algo ∉ supportedAlgos) with
    | some algo => .error ("ssh: algorithm " ++ algo ++ " is not supported for key type")
    | none =>
      match algorithms.find? (fun algo => algo ∉ signerAlgos) with
      | some algo =>
        .error ("ssh: algorithm " ++ algo ++ " is restricted for the provided signer")
      | none => .ok { signer with algorithmSigner := true, algorithms := some algorithms }

/-- A freshly built RSA signer: an algorithm signer without a restriction. -/
def freshRSASigner : Signer :=
  { keyType := some KeyAlgoRSA, keyBlob := [1, 0, 1], algorithmSigner := true,
    algorithms := none }

/-- An RSA signer already restricted to `rsa-sha2-256`. -/
def restrictedRSASigner : Signer :=
  { keyType := some KeyAlgoRSA, keyBlob := [1, 0, 1], algorithmSigner := true,
    algorithms := some [KeyAlgoRSASHA256] }

/-! ## internal/conf/config.go: where the config file is -/

/-- Go `defaultConfigPath`. -/
def defaultConfigPath : String := "config.toml"

/-- What `ResolveConfigPath` reads from its process: the value of
`LORIS_TUNNEL_CONFIG_PATH` (empty when unset), `os.Getwd()` and
`os.UserHomeDir()` (`none` when they return an error), whether
`os.CreateTemp(dir, ".write_test_*")` succeeds, and `filepath.Join`. -/
structure ConfigEnv where
  configPathVar : String
  cwd : Option String
  createTemp : String → Bool
  home : Option String
  join : List String → String

/-- Go `isDirWritable`. -/
def isDirWritable (env : ConfigEnv) (dir : String) : Bool :=
  if env.createTemp dir then true else false

/-- Go `getDefaultConfigDir`. -/
def getDefaultConfigDir (env : ConfigEnv) : String :=
  match env.cwd with
  | some cwd =>
    if isDirWritable env cwd then cwd
    else
      match env.home with
      | none => "."
      | some homeDir => env.join [homeDir, ".loris-tunnel"]
  | none =>
    match env.home with
    | none => "."
    | some homeDir => env.join [homeDir, ".loris-tunnel"]

/-- Go `ResolveConfigPath`. -/
def ResolveConfigPath (env : ConfigEnv) : String :=
  let path := trimSpace env.configPathVar
  if path ≠ "" then path
  else env.join [getDefaultConfigDir env, defaultConfigPath]

/-- A process without `LORIS_TUNNEL_CONFIG_PATH`, in the read-only working
directory `/Applications/Loris.app`, with `/home/u` as home directory. -/
def bundleConfigEnv : ConfigEnv :=
  { configPathVar := "", cwd := some "/Applications/Loris.app",
    createTemp := (fun _ => false), home := some "/home/u", join := unixJoin }

/-! ## internal/forward/probe.go -/

/-- Whether the characters `sub` occur in a row somewhere in the characters
`s`. -/
def containsChars : List Char → List Char → Bool
  | [], sub => sub.isEmpty
  | c :: rest, sub => sub.isPrefixOf (c :: rest) || containsChars rest sub

/-- Go `strings.Contains`. -/
def stringsContains (s sub : String) : Bool :=
  containsChars s.data sub.data

/-- Go `isPortForwardDenied`; `none` is a nil error and `toLower` is
`strings.ToLower`. -/
def isPortForwardDenied (toLower : String → String) (err : Option String) : Bool :=
  match err with
  | none => false
  | some err =>
    let msg := toLower err
    stringsContains msg "administratively prohibited" ||
      stringsContains msg "forwarding disabled" ||
      stringsContains msg "port forwarding disabled"

/-- Go `probeDynamicForwardCapability`; `none` is a nil error. `dial network
addr` is the outcome of `client.Dial(network, addr)`: the error message, or the
connection, of which only the result of its `Close()` matters. -/
def probeDynamicForwardCapability (toLower : String → String)
    (dial : String → String → Except String (Option String)) : Option String :=
  let probeAddr := "127.0.0.1:1"
  match dial "tcp" probeAddr with
  | .ok closeResult => closeResult
  | .error err =>
    if isPortForwardDenied toLower (some err) then
      some ("dynamic forward is not allowed by ssh server: " ++ err)
    else none

/-- Lower case for the letters `A` to `Z`, on which `strings.ToLower` agrees
with it. -/
def asciiLower (s : String) : String :=
  String.mk (s.data.map (fun c => if 'A' ≤ c ∧ c ≤ 'Z' then Char.ofNat (c.toNat + 32) else c))

/-! ## internal/forward/port_forward.go: dialling the jumper chain -/

/-- Go `strconv.Itoa`. -/
def itoa (n : Int) : String :=
  if n < 0 then "-" ++ fmtNat n.natAbs else fmtNat n.toNat

/-- Go `net.JoinHostPort` on strings: a host containing a colon is
bracketed. -/
def joinHostPortString (host port : String) : String :=
  if host.data.contains ':' then "[" ++ host ++ "]:" ++ port
  else host ++ ":" ++ port

/-- What dialling a jumper chain meets outside the program, each entry being
the error message of the call or `none` when it succeeds: `loadPrivateSigner`
for a jumper, building the `known_hosts` callback, `ssh.Dial` to an address,
and, for the hop with a given index, opening the TCP channel through the
previous client (`current.Dial`) and the SSH handshake over it
(`ssh.NewClientConn`). -/
structure SSHWorld where
  loadPrivateSigner : Jumper → Option String
  knownHosts : Option String
  sshDial : String → Option String
  channelDial : Nat → String → Option String
  handshake : Nat → String → Option String

/-- Go `makeAuthMethod`: the error, `none` when the method is built. -/
def makeAuthMethod (w : SSHWorld) (jumper : Jumper) : Option String :=
  if trimSpace jumper.AuthType = "password" then
    if jumper.Password = "" then some "password auth requires password" else none
  else if trimSpace jumper.AuthType = "ssh_key" then w.loadPrivateSigner jumper
  else if trimSpace jumper.AuthType = "ssh_agent" then none
  else some ("unsupported authType: " ++ jumper.AuthType)

/-- Go `makeHostKeyCallback`: the error, `none` when the callback is built. -/
def makeHostKeyCallback (w : SSHWorld) (bypass : Bool) : Option String :=
  if bypass then none else w.knownHosts

/-- Go `makeSSHClientConfig`: the error, `none` when the config is built. -/
def makeSSHClientConfig (w : SSHWorld) (jumper : Jumper) : Option String :=
  if trimSpace jumper.User = "" then some "jumper user is required"
  else
    match makeAuthMethod w jumper with
    | some err => some err
    | none =>
      match makeHostKeyCallback w jumper.BypassHostVerification with
      | some err => some err
      | none => none

/-- The address a jumper is dialled at: its trimmed host and its port, 22 when
the port is not positive. -/
def jumperAddr (jumper : Jumper) : String :=
  joinHostPortString (trimSpace jumper.Host)
    (itoa (if jumper.Port ≤ 0 then 22 else jumper.Port))

/-- Go `dialSSH`: the error, `none` when the client is connected. -/
def dialSSH (w : SSHWorld) (jumper : Jumper) : Option String :=
  match makeSSHClientConfig w jumper with
  | some err => some err
  | none =>
    if trimSpace jumper.Host = "" then some "jumper host is required"
    else
      match w.sshDial (jumperAddr jumper) with
      | some err => some ("ssh dial " ++ jumperAddr jumper ++ " failed: " ++ err)
      | none => none

/-- A `Close()` call made by `dialSSHChain`: on the client of a hop, or on the
TCP channel opened for a hop. -/
inductive Closed where
  | client (hop : Nat)
  | conn (hop : Nat)
  deriving DecidableEq, Repr

/-- The first run of the closure `closeAll` of Go `dialSSHChain`: the clients
are closed from the last to the first. -/
def closeAll (clients : List Nat) : List Closed :=
  clients.reverse.map Closed.client

/-- The loop of Go `dialSSHChain` over the jumpers after the first: `i` is the
loop index, `clients` the slice of clients (a client is named by its hop) and
`current` the last one. The result is the error, or the client returned and
the clients the returned `closeAll` will close; with it come the `Close()`
calls made before returning. -/
def dialSSHChainLoop (w : SSHWorld) :
    List Jumper → Nat → List Nat → Nat → Except String (Nat × List Nat) × List Closed
  | [], _, clients, current => (.ok (current, clients), [])
  | next :: rest, i, clients, _ =>
    match makeSSHClientConfig w next with
    | some err => (.error err, closeAll clients)
    | none =>
      if trimSpace next.Host = "" then
        (.error ("jumper[" ++ fmtNat i ++ "] host is required"), closeAll clients)
      else
        match w.channelDial i (jumperAddr next) with
        | some err =>
          (.error ("ssh dial " ++ jumperAddr next ++ " via hop " ++ fmtNat i ++ " failed: "
            ++ err), closeAll clients)
        | none =>
          match w.handshake i (jumperAddr next) with
          | some err =>
            (.error ("ssh handshake " ++ jumperAddr next ++ " via hop " ++ fmtNat i ++
              " failed: " ++ err), Closed.conn i :: closeAll clients)
          | none => dialSSHChainLoop w rest (i + 1) (clients ++ [i]) i

/-- Go `dialSSHChain`. -/
def dialSSHChain (w : SSHWorld) (jumpers : List Jumper) :
    Except String (Nat × List Nat) × List Closed :=
  match jumpers with
  | [] => (.error "at least one jumper is required", [])
  | first :: rest =>
    match dialSSH w first with
    | some err => (.error err, [])
    | none => dialSSHChainLoop w rest 1 [0] 0

/-- The clients closed by a sequence of `Close()` calls, in order. -/
def closedClients (log : List Closed) : List Nat :=
  log.filterMap (fun c => match c with
    | .client hop => some hop
    | .conn _ => none)

/-- An error message names the hop `i` the way `dialSSHChain` words it. -/
def NamesHop (err : String) (i : Nat) : Prop :=
  err = "jumper[" ++ fmtNat i ++ "] host is required" ∨
  (∃ addr cause : String,
    err = "ssh dial " ++ addr ++ " via hop " ++ fmtNat i ++ " failed: " ++ cause) ∨
  (∃ addr cause : String,
    err = "ssh handshake " ++ addr ++ " via hop " ++ fmtNat i ++ " failed: " ++ cause)

/-- A world in which every call succeeds. -/
def openWorld : SSHWorld :=
  { loadPrivateSigner := (fun _ => none), knownHosts := none, sshDial := (fun _ => none),
    channelDial := (fun _ _ => none), handshake := (fun _ _ => none) }

/-- A jumper that can be dialled. -/
def bastion : Jumper :=
  { Jumper.zero with
    ID := 1, Name := "bastion", Host := "10.0.0.1", Port := 22, User := "ops",
    AuthType := "ssh_agent" }

/-- A jumper without a host. -/
def hostlessJumper : Jumper :=
  { bastion with ID := 2, Host := " " }

/-! ## internal/forward/port_forward.go: runtime events -/

/-- Go `RuntimeEventType`. -/
inductive RuntimeEventType where
  | disconnected
  | reconnected
  deriving DecidableEq, Repr

/-- Go `RuntimeEvent`; `Err` is the message of the error, `none` for nil. -/
structure RuntimeEvent where
  type : RuntimeEventType
  Err : Option String
  deriving DecidableEq, Repr

/-- A Go buffered channel `make(chan α, capacity)` that is not closed: the
values sent and not yet received, the oldest first. -/
structure Chan (α : Type) where
  capacity : Nat
  queue : List α
  deriving DecidableEq, Repr

/-- Go `select { case ch <- v: default: }`: the value is queued when the
buffer has room, and the `default` branch leaves the channel as it is when the
buffer is full. -/
def Chan.trySend {α : Type} (ch : Chan α) (v : α) : Chan α :=
  if ch.queue.length < ch.capacity then { ch with queue := ch.queue ++ [v] } else ch

/-- Go `<-ch` on a channel that holds a value: the oldest value leaves the
queue. -/
def Chan.receive {α : Type} (ch : Chan α) : Chan α :=
  { ch with queue := ch.queue.tail }

/-- The fields of Go `LocalForward` that the event queue lives in: `started`
and the channel `events`, `none` while it is nil. -/
structure LocalForward where
  started : Bool
  events : Option (Chan RuntimeEvent)
  deriving DecidableEq, Repr

/-- Go `NewLocalForward`, on these fields. -/
def NewLocalForward : LocalForward :=
  { started := false, events := none }

/-- The locked section of Go `(*LocalForward).Start` that marks the runtime
started and makes its channels. -/
def LocalForward.Start (f : LocalForward) : LocalForward :=
  if f.started then f
  else { started := true, events := some { capacity := 8, queue := [] } }

/-- Go `(*LocalForward).emitEvent`. -/
def LocalForward.emitEvent (f : LocalForward) (event : RuntimeEvent) : LocalForward :=
  match f.events with
  | none => f
  | some events => { f with events := some (events.trySend event) }

/-- The watcher of the runtime receives an event from `Events()`. -/
def LocalForward.deliver (f : LocalForward) : LocalForward :=
  match f.events with
  | none => f
  | some events => { f with events := some events.receive }

/-- What happens to the event queue of a running runtime: an event is emitted,
or the watcher receives one. -/
inductive EventOp where
  | emit (event : RuntimeEvent)
  | deliver
  deriving DecidableEq, Repr

/-- One operation on the event queue. -/
def LocalForward.apply (f : LocalForward) : EventOp → LocalForward
  | .emit event => f.emitEvent event
  | .deliver => f.deliver

/-- The events queued in a runtime; none when the channel is nil. -/
def LocalForward.queued (f : LocalForward) : List RuntimeEvent :=
  match f.events with
  | none => []
  | some events => events.queue

/-! ## internal/updater/provider_github_release.go: comparing versions -/

/-- Go `semVersion`. -/
structure semVersion where
  Major : Int
  Minor : Int
  Patch : Int
  Prerelease : List String
  deriving DecidableEq, Repr

/-- Go `strconv.Atoi`; `none` is a non-nil error: an optional sign followed by
decimal digits, with a value that fits an `int`. -/
def atoi (s : String) : Option Int :=
  let negative : Bool := s.data.head? = some '-'
  let digits : List Char :=
    if s.data.head? = some '-' ∨ s.data.head? = some '+' then s.data.tail else s.data
  if digits = [] ∨ ¬ digits.all Char.isDigit then none
  else
    let magnitude : Nat := digits.foldl (fun acc ch => acc * 10 + (ch.toNat - 48)) 0
    let value : Int := if negative then -(magnitude : Int) else (magnitude : Int)
    if value < minInt64 ∨ value > maxInt64 then none else some value

/-- Go `comparePrereleaseIdentifier`. -/
def comparePrereleaseIdentifier (a b : String) : Int :=
  let a := trimSpace a
  let b := trimSpace b
  if a = b then 0
  else
    match atoi a, atoi b with
    | some aInt, some bInt => if aInt > bInt then 1 else -1
    | some _, none => -1
    | none, some _ => 1
    | none, none => if a > b then 1 else -1

/-- The loop of Go `compareSemver` over the prerelease identifiers, from the
index at which the two lists are still to be compared. -/
def comparePrerelease : List String → List String → Int
  | [], [] => 0
  | [], _ :: _ => -1
  | _ :: _, [] => 1
  | a :: as, b :: bs =>
    if comparePrereleaseIdentifier a b ≠ 0 then comparePrereleaseIdentifier a b
    else comparePrerelease as bs

/-- Go `compareSemver`. -/
def compareSemver (a b : semVersion) : Int :=
  if a.Major ≠ b.Major then (if a.Major > b.Major then 1 else -1)
  else if a.Minor ≠ b.Minor then (if a.Minor > b.Minor then 1 else -1)
  else if a.Patch ≠ b.Patch then (if a.Patch > b.Patch then 1 else -1)
  else
    let aHasPre : Bool := a.Prerelease.length > 0
    let bHasPre : Bool := b.Prerelease.length > 0
    if ¬ aHasPre ∧ ¬ bHasPre then 0
    else if ¬ aHasPre then 1
    else if ¬ bHasPre then -1
    else comparePrerelease a.Prerelease b.Prerelease

/-- The config `smallConfig` with its tunnel twice: the jumper IDs are
pairwise distinct, the tunnel ID 1 is repeated. -/
def twinTunnelConfig : Config :=
  { smallConfig with Tunnels := smallConfig.Tunnels ++ smallConfig.Tunnels }

/-- The storage whose file is `twinTunnelConfig` as written by the reference
codec. -/
def twinTunnelStorage : Storage :=
  { file := some (encodeConfigTOML referenceCodec twinTunnelConfig).1 }

/-! ## Theorems: backoff and keepalive -/

theorem wrapInt64_of_inRange (x : Int) (hlo : minInt64 ≤ x) (hhi : x ≤ maxInt64) :
    wrapInt64 x = x := by
  unfold wrapInt64
  unfold minInt64 at hlo
  unfold maxInt64 at hhi
  omega

theorem nextReconnectWait_of_small (w : Int) (h0 : 0 < w) (h1 : w ≤ 60 * Second) :
    nextReconnectWait w = min (w * 2) (60 * Second) := by
  have hw : wrapInt64 (w * 2) = w * 2 := by
    apply wrapInt64_of_inRange
    · unfold minInt64; omega
    · unfold maxInt64; unfold Second at h1; omega
  unfold nextReconnectWait
  simp only [hw, maxReconnectWait, Minute, Second] at h1 ⊢
  rcases le_total (w * 2) (60 * 1000000000) with h | h
  · rw [min_eq_left h]
    split_ifs <;> omega
  · rw [min_eq_right h]
    split_ifs <;> omega

theorem iterate_nextReconnectWait_eq (n : Nat) :
    Nat.iterate nextReconnectWait n initReconnectWait
      = min (500 * Millisecond * 2 ^ n) (60 * Second) := by
  induction n with
  | zero => decide
  | succ k ih =>
    have hp : (0 : Int) < 2 ^ k := by positivity
    have hs : (2 : Int) ^ (k + 1) = 2 * 2 ^ k := by ring
    rw [Function.iterate_succ_apply', hs]
    generalize (2 : Int) ^ k = p at ih hp
    have h0 : 0 < Nat.iterate nextReconnectWait k initReconnectWait := by
      rw [ih]; unfold Millisecond Second; omega
    have h1 : Nat.iterate nextReconnectWait k initReconnectWait ≤ 60 * Second := by
      rw [ih]; exact min_le_right _ _
    rw [nextReconnectWait_of_small _ h0 h1, ih]
    unfold Millisecond Second
    omega

/-- C3: starting from `initReconnectWait` = 500 ms, the `n`-th successive
application of `nextReconnectWait` yields `min (500 ms * 2^n) (60 s)`; the
first nine values are 500 ms, 1 s, 2 s, 4 s, 8 s, 16 s, 32 s, 60 s, 60 s, and
no value exceeds 60 s. -/
theorem nextReconnectWait_sequence :
    initReconnectWait = 500 * Millisecond ∧
    (∀ n : Nat, Nat.iterate nextReconnectWait n initReconnectWait
        = min (500 * Millisecond * 2 ^ n) (60 * Second)) ∧
    (∀ n : Nat, Nat.iterate nextReconnectWait n initReconnectWait ≤ 60 * Second) ∧
    (List.range 9).map (fun n => Nat.iterate nextReconnectWait n initReconnectWait)
      = [500 * Millisecond, 1 * Second, 2 * Second, 4 * Second, 8 * Second,
         16 * Second, 32 * Second, 60 * Second, 60 * Second] := by
  refine ⟨rfl, iterate_nextReconnectWait_eq, ?_, by decide⟩
  intro n
  rw [iterate_nextReconnectWait_eq]
  exact min_le_right _ _

/-- C4: for every interval > 0, `keepAliveRequestTimeout interval` is
`max (5 s) (min (interval / 2) (10 s))`, that is `interval / 2` clamped to
[5 s, 10 s]; and for interval 0 it is 5 s. -/
theorem keepAliveRequestTimeout_clamp (interval : Int) (h : 0 < interval) :
    keepAliveRequestTimeout interval
        = max (5 * Second) (min (interval / 2) (10 * Second)) ∧
    5 * Second ≤ keepAliveRequestTimeout interval ∧
    keepAliveRequestTimeout interval ≤ 10 * Second ∧
    keepAliveRequestTimeout 0 = 5 * Second := by
  have hdiv : Int.tdiv interval 2 = interval / 2 :=
    Int.tdiv_eq_ediv (le_of_lt h) (by decide)
  have hmain : keepAliveRequestTimeout interval
      = max (5 * Second) (min (interval / 2) (10 * Second)) := by
    unfold keepAliveRequestTimeout
    rw [if_neg (not_le.mpr h), hdiv]
    simp only [Second]
    generalize interval / 2 = q
    split_ifs <;> omega
  refine ⟨hmain, ?_, ?_, by decide⟩
  · rw [hmain]; exact le_max_left _ _
  · rw [hmain]; unfold Second; omega

/-- Witness for C4 at interval = 12 s, whose probe timeout is 6 s. -/
theorem keepAliveRequestTimeout_clamp_witness :
    (0 : Int) < 12 * Second ∧
    keepAliveRequestTimeout (12 * Second) = 6 * Second ∧
    keepAliveRequestTimeout (12 * Second)
        = max (5 * Second) (min (12 * Second / 2) (10 * Second)) :=
  ⟨by decide, by decide,
    (keepAliveRequestTimeout_clamp (12 * Second) (by decide)).1⟩

/-- C5: the values the code computes at the four intervals of
`TestKeepAliveRequestTimeoutBoundaries`: 5 s for interval 0, 5 s for 2 s,
5 s for 5 s and 6 s for 12 s, none of which is the value the test table
expects (3 s, 2 s, 2.5 s, 5 s). -/
theorem keepAliveRequestTimeout_boundaries_diverge :
    keepAliveRequestTimeout 0 = 5 * Second ∧
    keepAliveRequestTimeout (2 * Second) = 5 * Second ∧
    keepAliveRequestTimeout (5 * Second) = 5 * Second ∧
    keepAliveRequestTimeout (12 * Second) = 6 * Second ∧
    keepAliveRequestTimeout 0 ≠ 3 * Second ∧
    keepAliveRequestTimeout (2 * Second) ≠ 2 * Second ∧
    keepAliveRequestTimeout (5 * Second) ≠ 2500 * Millisecond ∧
    keepAliveRequestTimeout (12 * Second) ≠ 5 * Second := by
  decide

/-- C6, as stated, fails: a jumper whose `KeepAliveIntervalMs` is the valid
`int` 9223372036855 has a positive interval in milliseconds, but the product
with `time.Millisecond` overflows `int64` and `keepAliveInterval` returns 0. -/
theorem keepAliveInterval_overflow_counterexample :
    minInt64 ≤ (9223372036855 : Int) ∧ (9223372036855 : Int) ≤ maxInt64 ∧
    (0 : Int) < ({ Jumper.zero with KeepAliveIntervalMs := 9223372036855 }).KeepAliveIntervalMs ∧
    keepAliveInterval { Jumper.zero with KeepAliveIntervalMs := 9223372036855 } = 0 ∧
    keepAliveInterval { Jumper.zero with KeepAliveIntervalMs := 9223372036855 }
      ≠ 9223372036855 * Millisecond := by
  decide

/-- C6, amended: for every jumper whose `KeepAliveIntervalMs` lies between
-9223372036854 and 9223372036854 (so that the product with `time.Millisecond`
fits in `int64`), `keepAliveInterval` returns `KeepAliveIntervalMs` milliseconds when
it is positive and 0 otherwise, and the result is not negative; 0 ms gives 0
and 7000 ms gives 7 s. -/
theorem keepAliveInterval_spec (j : Jumper)
    (hlo : -9223372036854 ≤ j.KeepAliveIntervalMs)
    (hhi : j.KeepAliveIntervalMs ≤ 9223372036854) :
    keepAliveInterval j
        = (if 0 < j.KeepAliveIntervalMs then j.KeepAliveIntervalMs * Millisecond else 0) ∧
    0 ≤ keepAliveInterval j ∧
    keepAliveInterval { j with KeepAliveIntervalMs := 0 } = 0 ∧
    keepAliveInterval { j with KeepAliveIntervalMs := 7000 } = 7 * Second := by
  have hnn : ∀ k : Jumper, 0 ≤ keepAliveInterval k := by
    intro k
    unfold keepAliveInterval
    simp only
    split_ifs with hpos
    · exact le_of_lt hpos
    · exact le_refl 0
  have hw : wrapInt64 (j.KeepAliveIntervalMs * Millisecond)
      = j.KeepAliveIntervalMs * Millisecond := by
    apply wrapInt64_of_inRange
    · unfold minInt64 Millisecond; omega
    · unfold maxInt64 Millisecond; omega
  refine ⟨?_, hnn j, rfl, rfl⟩
  unfold keepAliveInterval
  simp only
  rw [hw]
  by_cases hpos : 0 < j.KeepAliveIntervalMs
  · rw [if_pos hpos, if_pos]
    unfold Millisecond; omega
  · rw [if_neg hpos, if_neg]
    unfold Millisecond; omega

/-- Witness for the amended C6 at a jumper with `KeepAliveIntervalMs = 5000`. -/
theorem keepAliveInterval_spec_witness :
    keepAliveInterval { Jumper.zero with KeepAliveIntervalMs := 5000 } = 5 * Second :=
  (keepAliveInterval_spec { Jumper.zero with KeepAliveIntervalMs := 5000 }
    (by decide) (by decide)).1.trans (by decide)


/-! ## Theorems: SOCKS5 front end -/

theorem Conn.readFull_append (xs rest out : List UInt8) (we : Option String) :
    Conn.readFull { input := xs ++ rest, output := out, writeErr := we } xs.length
      = (.ok xs, { input := rest, output := out, writeErr := we }) := by
  simp [Conn.readFull]

theorem containsSOCKSAuthMethod_iff (methods : List UInt8) (want : UInt8) :
    containsSOCKSAuthMethod methods want = true ↔ want ∈ methods := by
  induction methods with
  | nil => simp [containsSOCKSAuthMethod]
  | cons m rest ih =>
    unfold containsSOCKSAuthMethod
    by_cases h : m = want
    · simp [h]
    · have h2 : ¬ want = m := fun e => h e.symm
      simp [h, h2, ih]

theorem bigEndianUint16_eq (b0 b1 : UInt8) :
    bigEndianUint16 b0 b1 = 256 * b0.toNat + b1.toNat := by
  unfold bigEndianUint16
  have h1 : b1.toNat < 2 ^ 8 := b1.toNat_lt
  rw [Nat.lor_comm, Nat.shiftLeft_eq, Nat.mul_comm, ← Nat.mul_add_lt_is_or h1]

theorem joinHostPort_of_no_colon (host port : List UInt8) (h : (0x3A : UInt8) ∉ host) :
    joinHostPort host port = host ++ [0x3A] ++ port := by
  unfold joinHostPort
  rw [if_neg]
  simpa using h

/-- Shared first phase: on a greeting that offers NO-AUTH followed by a
version 5 request header, the decoder answers `[05, 00]` and continues with the
command and address type of the header. -/
theorem readSOCKS5ConnectTarget_negotiated (n cmd rsv atyp : UInt8)
    (methods tail : List UInt8)
    (hn : 1 ≤ n.toNat) (hm : methods.length = n.toNat) (h0 : (0 : UInt8) ∈ methods) :
    readSOCKS5ConnectTarget
        (Conn.ofClient ([0x05, n] ++ (methods ++ ([0x05, cmd, rsv, atyp] ++ tail))))
      = if cmd ≠ socksCmdConnect then
          (.error ("unsupported socks5 command: " ++ fmtNat cmd.toNat),
            (writeSOCKS5Reply { input := tail, output := [0x05, 0x00], writeErr := none }
              socksReplyCommandUnsupported).2)
        else
          match readSOCKSAddressHost
              { input := tail, output := [0x05, 0x00], writeErr := none } atyp with
          | (.error err, conn) =>
            (.error err, (writeSOCKS5Reply conn socksReplyAddressUnsupported).2)
          | (.ok host, conn) =>
            match conn.readFull 2 with
            | (.error err, conn) =>
              (.error ("read socks5 target port failed: " ++ err), conn)
            | (.ok portBytes, conn) =>
              (.ok (joinHostPort host
                (itoaBytes (bigEndianUint16 (portBytes.getD 0 0) (portBytes.getD 1 0)))), conn) := by
  have r1 := Conn.readFull_append [0x05, n]
    (methods ++ ([0x05, cmd, rsv, atyp] ++ tail)) [] none
  have r2 := Conn.readFull_append methods ([0x05, cmd, rsv, atyp] ++ tail) [] none
  have r3 := Conn.readFull_append [0x05, cmd, rsv, atyp] tail [0x05, 0x00] none
  rw [hm] at r2
  have hc : containsSOCKSAuthMethod methods 0x00 = true :=
    (containsSOCKSAuthMethod_iff methods 0x00).mpr h0
  have hn0 : ¬ n.toNat ≤ 0 := by omega
  simp only [List.length_cons, List.length_nil, Nat.zero_add, Nat.reduceAdd] at r1 r3
  unfold readSOCKS5ConnectTarget
  simp only [Conn.ofClient, r1, List.getD_cons_zero, List.getD_cons_succ, socksVersion,
    ne_eq, not_true_eq_false, if_false, hn0, r2, hc, Bool.not_true, Bool.false_eq_true,
    Conn.write, socksAuthNoAuth, List.nil_append, r3]

/-- C7: on a greeting `[05, n, methods...]` with `n ≥ 1` offering NO-AUTH,
followed by a CONNECT request `[05, 01, rsv, 03, len, domain..., hi, lo]` with
`1 ≤ len ≤ 255` and a domain without `:` and `%`, the decoder succeeds with
`domain ++ ":" ++ decimal (256 * hi + lo)`, it has consumed exactly these
bytes, and the only bytes it wrote are `[05, 00]`. -/
theorem readSOCKS5ConnectTarget_domain (n rsv len hi lo : UInt8)
    (methods domain rest : List UInt8)
    (hn : 1 ≤ n.toNat) (hm : methods.length = n.toNat) (h0 : (0x00 : UInt8) ∈ methods)
    (hlen : 1 ≤ len.toNat ∧ len.toNat ≤ 255) (hd : domain.length = len.toNat)
    (hcolon : (0x3A : UInt8) ∉ domain) (_hpct : (0x25 : UInt8) ∉ domain) :
    readSOCKS5ConnectTarget
        (Conn.ofClient ([0x05, n] ++ methods ++ [0x05, 0x01, rsv, 0x03, len] ++ domain
          ++ [hi, lo] ++ rest))
      = (.ok (domain ++ asciiBytes ":" ++ itoaBytes (256 * hi.toNat + lo.toNat)),
          { input := rest, output := [0x05, 0x00], writeErr := none }) := by
  have hneg := readSOCKS5ConnectTarget_negotiated n 0x01 rsv 0x03 methods
    ([len] ++ (domain ++ ([hi, lo] ++ rest))) hn hm h0
  have r1 := Conn.readFull_append [len] (domain ++ ([hi, lo] ++ rest)) [0x05, 0x00] none
  have r2 := Conn.readFull_append domain ([hi, lo] ++ rest) [0x05, 0x00] none
  have r3 := Conn.readFull_append [hi, lo] rest [0x05, 0x00] none
  rw [hd] at r2
  simp only [List.length_cons, List.length_nil, Nat.zero_add, Nat.reduceAdd] at r1 r3
  have hlen0 : ¬ len = 0 := by
    intro h
    rw [h] at hlen
    exact absurd hlen.1 (by decide)
  have hhost : readSOCKSAddressHost
      { input := [len] ++ (domain ++ ([hi, lo] ++ rest)), output := [0x05, 0x00],
        writeErr := none } 0x03
      = (.ok domain, { input := [hi, lo] ++ rest, output := [0x05, 0x00], writeErr := none }) := by
    unfold readSOCKSAddressHost
    simp only [socksAddrIPv4, socksAddrDomain, r1, List.headD_cons, hlen0, if_false, r2]
    rfl
  have hin : [0x05, n] ++ methods ++ [0x05, 0x01, rsv, 0x03, len] ++ domain ++ [hi, lo] ++ rest
      = [0x05, n] ++ (methods ++ ([0x05, 0x01, rsv, 0x03]
          ++ ([len] ++ (domain ++ ([hi, lo] ++ rest))))) := by
    simp
  rw [hin, hneg, hhost]
  simp only [socksCmdConnect, ne_eq, not_true_eq_false, if_false, r3, List.getD_cons_zero,
    List.getD_cons_succ, bigEndianUint16_eq, joinHostPort_of_no_colon domain _ hcolon]
  rfl

/-- Witness for C7: `[05 01 00]` then `[05 01 00 03 0B "example.com" 00 50]`
decodes to `"example.com:80"` after the reply `[05 00]`. -/
theorem readSOCKS5ConnectTarget_domain_witness :
    readSOCKS5ConnectTarget
        (Conn.ofClient ([0x05, 0x01, 0x00] ++ [0x05, 0x01, 0x00, 0x03, 0x0B]
          ++ asciiBytes "example.com" ++ [0x00, 0x50]))
      = (.ok (asciiBytes "example.com:80"),
          { input := [], output := [0x05, 0x00], writeErr := none }) :=
  (readSOCKS5ConnectTarget_domain 0x01 0x00 0x0B 0x00 0x50 [0x00]
    (asciiBytes "example.com") [] (by decide) (by decide) (by decide) (by decide)
    (by decide) (by decide) (by decide)).trans (by decide)

/-- C8: on a greeting `[05, n, methods...]` with `n ≥ 1` in which no method is
NO-AUTH (0x00), the decoder writes exactly `[05, FF]`, reads nothing after
the methods, and returns an error. -/
theorem readSOCKS5ConnectTarget_no_acceptable_method (n : UInt8)
    (methods rest : List UInt8)
    (hn : 1 ≤ n.toNat) (hm : methods.length = n.toNat) (h0 : (0x00 : UInt8) ∉ methods) :
    readSOCKS5ConnectTarget (Conn.ofClient ([0x05, n] ++ methods ++ rest))
      = (.error "socks5 no-auth method is not accepted by client",
          { input := rest, output := [0x05, 0xFF], writeErr := none }) := by
  have r1 := Conn.readFull_append [0x05, n] (methods ++ rest) [] none
  have r2 := Conn.readFull_append methods rest [] none
  rw [hm] at r2
  have hc : containsSOCKSAuthMethod methods 0x00 = false := by
    cases hv : containsSOCKSAuthMethod methods 0x00 with
    | false => rfl
    | true => exact absurd ((containsSOCKSAuthMethod_iff methods 0x00).mp hv) h0
  have hn0 : ¬ n.toNat ≤ 0 := by omega
  simp only [List.length_cons, List.length_nil, Nat.zero_add, Nat.reduceAdd] at r1
  unfold readSOCKS5ConnectTarget
  simp only [List.append_assoc, Conn.ofClient, r1, List.getD_cons_zero, List.getD_cons_succ,
    socksVersion, ne_eq, not_true_eq_false, if_false, hn0, r2, hc, socksAuthNoAuth,
    Bool.not_false, if_true, Conn.write, socksAuthNoAccepted, List.nil_append]

/-- Witness for C8: the greeting `[05 01 02]` is answered by `[05 FF]` and an
error. -/
theorem readSOCKS5ConnectTarget_no_acceptable_method_witness :
    readSOCKS5ConnectTarget (Conn.ofClient [0x05, 0x01, 0x02])
      = (.error "socks5 no-auth method is not accepted by client",
          { input := [], output := [0x05, 0xFF], writeErr := none }) :=
  readSOCKS5ConnectTarget_no_acceptable_method 0x01 [0x02] [] (by decide) (by decide)
    (by decide)

/-- C9: after a successful NO-AUTH negotiation, a request header
`[05, cmd, rsv, atyp]` with `cmd ≠ 0x01` makes the decoder write `[05, 00]`
followed by exactly `[05, 07, 00, 01, 00, 00, 00, 00, 00, 00]`, read none of
the bytes after the header, and fail with a message containing
"unsupported socks5 command". -/
theorem readSOCKS5ConnectTarget_unsupported_command (n cmd rsv atyp : UInt8)
    (methods rest : List UInt8)
    (hn : 1 ≤ n.toNat) (hm : methods.length = n.toNat) (h0 : (0x00 : UInt8) ∈ methods)
    (hcmd : cmd ≠ 0x01) :
    readSOCKS5ConnectTarget
        (Conn.ofClient ([0x05, n] ++ methods ++ [0x05, cmd, rsv, atyp] ++ rest))
      = (.error ("unsupported socks5 command" ++ (": " ++ fmtNat cmd.toNat)),
          { input := rest,
            output := [0x05, 0x00]
              ++ [0x05, 0x07, 0x00, 0x01, 0x00, 0x00, 0x00, 0x00, 0x00, 0x00],
            writeErr := none }) := by
  have hneg := readSOCKS5ConnectTarget_negotiated n cmd rsv atyp methods rest hn hm h0
  have hin : [0x05, n] ++ methods ++ [0x05, cmd, rsv, atyp] ++ rest
      = [0x05, n] ++ (methods ++ ([0x05, cmd, rsv, atyp] ++ rest)) := by
    simp
  have hmsg : "unsupported socks5 command: " ++ fmtNat cmd.toNat
      = "unsupported socks5 command" ++ (": " ++ fmtNat cmd.toNat) := by
    rw [← String.append_assoc]
    rfl
  rw [hin, hneg, hmsg]
  simp only [socksCmdConnect, ne_eq, hcmd, not_false_eq_true, if_true, writeSOCKS5Reply,
    Conn.write, socksVersion, socksReplyCommandUnsupported, socksAddrIPv4]

/-- Witness for C9: command 0x02 (BIND) after `[05 01 00]`. -/
theorem readSOCKS5ConnectTarget_unsupported_command_witness :
    readSOCKS5ConnectTarget (Conn.ofClient [0x05, 0x01, 0x00, 0x05, 0x02, 0x00, 0x01])
      = (.error "unsupported socks5 command: 2",
          { input := [],
            output := [0x05, 0x00, 0x05, 0x07, 0x00, 0x01, 0x00, 0x00, 0x00, 0x00, 0x00, 0x00],
            writeErr := none }) :=
  (readSOCKS5ConnectTarget_unsupported_command 0x01 0x02 0x00 0x01 [0x00] []
    (by decide) (by decide) (by decide) (by decide)).trans (by decide)

/-- C10: after a successful NO-AUTH negotiation, a CONNECT request header
whose address type is none of 0x01, 0x03, 0x04 makes the decoder send the
10-byte reply with code 0x08 and return an error. -/
theorem readSOCKS5ConnectTarget_unsupported_address_type (n rsv atyp : UInt8)
    (methods rest : List UInt8)
    (hn : 1 ≤ n.toNat) (hm : methods.length = n.toNat) (h0 : (0x00 : UInt8) ∈ methods)
    (h1 : atyp ≠ 0x01) (h3 : atyp ≠ 0x03) (h4 : atyp ≠ 0x04) :
    readSOCKS5ConnectTarget
        (Conn.ofClient ([0x05, n] ++ methods ++ [0x05, 0x01, rsv, atyp] ++ rest))
      = (.error ("unsupported socks5 address type: " ++ fmtNat atyp.toNat),
          { input := rest,
            output := [0x05, 0x00]
              ++ [0x05, 0x08, 0x00, 0x01, 0x00, 0x00, 0x00, 0x00, 0x00, 0x00],
            writeErr := none }) := by
  have hneg := readSOCKS5ConnectTarget_negotiated n 0x01 rsv atyp methods rest hn hm h0
  have hin : [0x05, n] ++ methods ++ [0x05, 0x01, rsv, atyp] ++ rest
      = [0x05, n] ++ (methods ++ ([0x05, 0x01, rsv, atyp] ++ rest)) := by
    simp
  have hhost : readSOCKSAddressHost
      { input := rest, output := [0x05, 0x00], writeErr := none } atyp
      = (.error ("unsupported socks5 address type: " ++ fmtNat atyp.toNat),
          { input := rest, output := [0x05, 0x00], writeErr := none }) := by
    unfold readSOCKSAddressHost
    simp only [socksAddrIPv4, socksAddrDomain, socksAddrIPv6, h1, h3, h4, if_false]
  rw [hin, hneg, hhost]
  simp only [socksCmdConnect, ne_eq, not_true_eq_false, if_false, writeSOCKS5Reply,
    Conn.write, socksVersion, socksReplyAddressUnsupported, socksAddrIPv4]

/-- Witness for C10: address type 0x09 after `[05 01 00]`. -/
theorem readSOCKS5ConnectTarget_unsupported_address_type_witness :
    readSOCKS5ConnectTarget (Conn.ofClient [0x05, 0x01, 0x00, 0x05, 0x01, 0x00, 0x09])
      = (.error "unsupported socks5 address type: 9",
          { input := [],
            output := [0x05, 0x00, 0x05, 0x08, 0x00, 0x01, 0x00, 0x00, 0x00, 0x00, 0x00, 0x00],
            writeErr := none }) :=
  (readSOCKS5ConnectTarget_unsupported_address_type 0x01 0x00 0x09 [0x00] []
    (by decide) (by decide) (by decide) (by decide) (by decide) (by decide)).trans (by decide)


/-! ## Theorems: storage and CRUD guards -/

theorem normalizeJumperIDsLoop_pos (ids out seen : List Int)
    (hout : ∀ x ∈ out, 0 < x) : ∀ x ∈ normalizeJumperIDsLoop ids out seen, 0 < x := by
  induction ids generalizing out seen with
  | nil => simpa [normalizeJumperIDsLoop] using hout
  | cons id rest ih =>
    unfold normalizeJumperIDsLoop
    split_ifs with h1 h2
    · exact ih out seen hout
    · exact ih out seen hout
    · apply ih
      intro x hx
      rcases List.mem_append.mp hx with hx | hx
      · exact hout x hx
      · have hxid : x = id := by simpa using hx
        rw [hxid]
        exact not_le.mp h1

theorem normalizeJumperIDs_pos (ids : List Int) : ∀ x ∈ normalizeJumperIDs ids, 0 < x :=
  normalizeJumperIDsLoop_pos ids [] [] (by simp)

theorem Config.Normalize_jumperIDs_pos (cfg : Config) (t : Tunnel)
    (ht : t ∈ cfg.Normalize.Tunnels) : ∀ x ∈ t.JumperIDs, 0 < x := by
  simp only [Config.Normalize, List.mem_map] at ht
  obtain ⟨t0, _, rfl⟩ := ht
  exact normalizeJumperIDs_pos t0.JumperIDs

theorem Config.Clone_eq (cfg : Config) : cfg.Clone = cfg := by
  cases cfg
  simp [Config.Clone]

theorem Storage.saveLocked_DefaultConfig (codec : TomlCodec) (r : Storage) :
    (r.saveLocked codec DefaultConfig).2.2 = DefaultConfig := by
  unfold Storage.saveLocked encodeConfigTOML
  have hd : DefaultConfig.Normalize = DefaultConfig := by decide
  simp only [hd]
  cases codec.encode DefaultConfig <;> rfl

/-- A load that yields a config with at least one tunnel read it from the
file: the storage is left as it was and the config is a normalized one. -/
theorem Storage.loadLocked_of_tunnel (codec : TomlCodec) (r : Storage) (C : Config)
    (t : Tunnel) (hload : (r.loadLocked codec).1 = .ok C) (ht : t ∈ C.Tunnels) :
    r.loadLocked codec = (.ok C, r) ∧ ∃ cfg : Config, C = cfg.Normalize := by
  have hdef : ∀ r0 : Storage, (r0.saveLocked codec DefaultConfig).1 = none := by
    intro r0
    unfold Storage.saveLocked encodeConfigTOML
    simp only
  have hfresh : ∀ r0 : Storage,
      (match r0.saveLocked codec DefaultConfig with
        | (some err, r1, _) => ((Except.error err : Except String Config), r1)
        | (none, r1, cfg) => (Except.ok cfg, r1)).1 = .ok C → False := by
    intro r0 h
    have h1 := hdef r0
    have h2 := Storage.saveLocked_DefaultConfig codec r0
    rcases hs : r0.saveLocked codec DefaultConfig with ⟨e, r1, cfg⟩
    rw [hs] at h h1 h2
    simp only at h1 h2
    subst h1
    subst h2
    simp only [Except.ok.injEq] at h
    rw [← h] at ht
    simp [DefaultConfig] at ht
  unfold Storage.loadLocked at hload ⊢
  rcases hf : r.file with _ | data
  · rw [hf] at hload
    exact absurd (hfresh r hload) id
  · rw [hf] at hload
    simp only at hload ⊢
    by_cases hblank : (trimSpace data).utf8ByteSize = 0
    · rw [if_pos hblank] at hload
      exact absurd (hfresh r hload) id
    · rw [if_neg hblank] at hload ⊢
      rcases hp : parseConfigTOML codec data with err | cfg
      · rw [hp] at hload
        simp at hload
      · rw [hp] at hload
        simp only [Except.ok.injEq] at hload
        exact ⟨by simp only [hload], cfg, hload.symm⟩

/-- C1: when the persisted config is `C` and the ID of jumper `j` occurs in the
`JumperIDs` of a tunnel of `C`, `JumperBiz.Delete j.ID` returns
`ErrJumperInUse` and leaves the storage as it was, so that the persisted
config is still `C`. -/
theorem JumperBiz_Delete_in_use (codec : TomlCodec) (r : Storage) (C : Config)
    (j : Jumper) (t : Tunnel)
    (hC : (r.Load codec).1 = .ok C) (ht : t ∈ C.Tunnels) (hj : j.ID ∈ t.JumperIDs) :
    JumperBiz.Delete codec r j.ID = (some ErrJumperInUse, r) ∧
    ((JumperBiz.Delete codec r j.ID).2.Load codec).1 = .ok C := by
  have hload0 : (r.loadLocked codec).1 = .ok C := by
    unfold Storage.Load at hC
    rcases hl : r.loadLocked codec with ⟨res, r1⟩
    rw [hl] at hC
    cases res with
    | error err => simp at hC
    | ok cfg =>
      simp only [Config.Clone_eq, Except.ok.injEq] at hC
      rw [hC]
  obtain ⟨hload, cfg0, hnorm⟩ := Storage.loadLocked_of_tunnel codec r C t hload0 ht
  have hpos : 0 < j.ID := by
    rw [hnorm] at ht
    exact Config.Normalize_jumperIDs_pos cfg0 t ht j.ID hj
  have huse : C.Tunnels.any (fun tunnel => tunnel.JumperIDs.any (fun jid => jid = j.ID))
      = true := by
    rw [List.any_eq_true]
    refine ⟨t, ht, ?_⟩
    rw [List.any_eq_true]
    exact ⟨j.ID, hj, by simp⟩
  have hdel : JumperBiz.Delete codec r j.ID = (some ErrJumperInUse, r) := by
    unfold JumperBiz.Delete
    rw [if_neg (not_le.mpr hpos)]
    unfold Storage.Update
    rw [hload]
    simp only [jumperDeleteMutator, huse, if_true]
  refine ⟨hdel, ?_⟩
  rw [hdel]
  exact hC

/-- Witness for C1: deleting jumper 1 of a config whose tunnel 1 goes through
it returns `ErrJumperInUse` and leaves the file as it was. -/
theorem JumperBiz_Delete_in_use_witness :
    JumperBiz.Delete (fixtureCodec fixtureConfig) { file := some "version = 1" } 1
      = (some "jumper is used by existing tunnels", { file := some "version = 1" }) :=
  (JumperBiz_Delete_in_use (fixtureCodec fixtureConfig) { file := some "version = 1" }
    fixtureConfig { Jumper.zero with ID := 1 }
    { Tunnel.zero with
      ID := 1, Name := "web", Mode := "local",
      JumperIDs := [1], LocalHost := "127.0.0.1", LocalPort := 18080,
      RemoteHost := "example.com", RemotePort := 80, Status := "stopped" }
    (by decide) (by decide) (by decide)).1

/-- C2: for every tunnel id > 0 present in the runtime map, `TunnelBiz.Update`
fails with "tunnel is running, stop it before editing" for every payload, and
neither the storage (the persisted config) nor the runtime map changes. -/
theorem TunnelBiz_Update_running (codec : TomlCodec) (b : TunnelBiz) (id : Int)
    (payload : TunnelPayload) (hid : 0 < id) (hrun : ∃ run, (id, run) ∈ b.runs) :
    TunnelBiz.Update codec b id payload
      = (.error "tunnel is running, stop it before editing", b) ∧
    (TunnelBiz.Update codec b id payload).2.storage = b.storage := by
  have hr : b.isRunning id = true := by
    obtain ⟨run, hmem⟩ := hrun
    unfold TunnelBiz.isRunning
    generalize b.runs = runs at hmem
    induction runs with
    | nil => simp at hmem
    | cons kv rest ih =>
      obtain ⟨k, v⟩ := kv
      by_cases hk : id = k
      · subst hk
        simp [List.lookup]
      · have hmem2 : (id, run) ∈ rest := by
          rcases List.mem_cons.mp hmem with h | h
          · exact absurd (congrArg Prod.fst h) hk
          · exact h
        have hbeq : (id == k) = false := by simpa using hk
        simp only [List.lookup, hbeq]
        exact ih hmem2
  have hupd : TunnelBiz.Update codec b id payload
      = (.error "tunnel is running, stop it before editing", b) := by
    unfold TunnelBiz.Update
    rw [if_neg (not_le.mpr hid), if_pos hr]
  exact ⟨hupd, by rw [hupd]⟩

/-- Witness for C2: tunnel 1 is tracked in the runtime map, and an update of it
is rejected without touching the file. -/
theorem TunnelBiz_Update_running_witness :
    TunnelBiz.Update (fixtureCodec fixtureConfig)
        { storage := { file := some "version = 1" }, runs := [(1, 0)] } 1
        { Name := "web", Mode := "local", JumperIDs := [1], LocalHost := "127.0.0.1",
          LocalPort := 18081, RemoteHost := "example.com", RemotePort := 80,
          AutoStart := false, Status := "stopped", Description := "" }
      = (.error "tunnel is running, stop it before editing",
          { storage := { file := some "version = 1" }, runs := [(1, 0)] }) :=
  (TunnelBiz_Update_running (fixtureCodec fixtureConfig)
    { storage := { file := some "version = 1" }, runs := [(1, 0)] } 1
    { Name := "web", Mode := "local", JumperIDs := [1], LocalHost := "127.0.0.1",
      LocalPort := 18081, RemoteHost := "example.com", RemotePort := 80,
      AutoStart := false, Status := "stopped", Description := "" }
    (by decide) ⟨0, by decide⟩).1


/-! ## Theorems: SOCKS5 IPv4 targets -/

theorem toDigitsCore_ten_mem (fuel n : Nat) (ds : List Char) (ch : Char)
    (h : ch ∈ Nat.toDigitsCore 10 fuel n ds) :
    ch ∈ ds ∨ ∃ k, k < 10 ∧ ch = Nat.digitChar k := by
  induction fuel generalizing n ds with
  | zero => exact Or.inl (by simpa [Nat.toDigitsCore] using h)
  | succ f ih =>
    unfold Nat.toDigitsCore at h
    simp only at h
    split_ifs at h with hz
    · rcases List.mem_cons.mp h with h1 | h1
      · exact Or.inr ⟨n % 10, Nat.mod_lt _ (by decide), h1⟩
      · exact Or.inl h1
    · rcases ih _ _ h with h1 | h1
      · rcases List.mem_cons.mp h1 with h2 | h2
        · exact Or.inr ⟨n % 10, Nat.mod_lt _ (by decide), h2⟩
        · exact Or.inl h2
      · exact Or.inr h1

theorem itoaBytes_no_colon (n : Nat) : (0x3A : UInt8) ∉ itoaBytes n := by
  intro h
  unfold itoaBytes Nat.toDigits at h
  obtain ⟨ch, hch, hb⟩ := List.mem_map.mp h
  rcases toDigitsCore_ten_mem _ _ _ _ hch with h1 | ⟨k, hk, rfl⟩
  · simp at h1
  · interval_cases k <;> revert hb <;> decide

theorem ipString_quad (a b c d : UInt8) : ipString [a, b, c, d] = dottedQuad a b c d := by
  simp [ipString, ipTo4]

theorem dottedQuad_no_colon (a b c d : UInt8) : (0x3A : UInt8) ∉ dottedQuad a b c d := by
  unfold dottedQuad
  simp only [List.mem_append, List.mem_singleton, not_or]
  exact ⟨⟨⟨⟨⟨⟨itoaBytes_no_colon _, by decide⟩, itoaBytes_no_colon _⟩, by decide⟩,
    itoaBytes_no_colon _⟩, by decide⟩, itoaBytes_no_colon _⟩

/-- C11: after a successful NO-AUTH negotiation, a CONNECT request with
address type 0x01, address bytes `a b c d` and port bytes `hi lo` makes the
decoder read exactly those six bytes and return `"a.b.c.d:P"` in decimal with
`P = 256 * hi + lo`; every `P` in 0..65535 is decoded this way from its two
big-endian bytes. -/
theorem readSOCKS5ConnectTarget_ipv4 (n rsv a b c d hi lo : UInt8)
    (methods rest : List UInt8)
    (hn : 1 ≤ n.toNat) (hm : methods.length = n.toNat) (h0 : (0x00 : UInt8) ∈ methods) :
    readSOCKS5ConnectTarget
        (Conn.ofClient ([0x05, n] ++ methods ++ [0x05, 0x01, rsv, 0x01] ++ [a, b, c, d]
          ++ [hi, lo] ++ rest))
      = (.ok (itoaBytes a.toNat ++ asciiBytes "." ++ itoaBytes b.toNat ++ asciiBytes "."
            ++ itoaBytes c.toNat ++ asciiBytes "." ++ itoaBytes d.toNat ++ asciiBytes ":"
            ++ itoaBytes (256 * hi.toNat + lo.toNat)),
          { input := rest, output := [0x05, 0x00], writeErr := none }) ∧
    256 * hi.toNat + lo.toNat ≤ 65535 ∧
    ∀ P : Nat, P ≤ 65535 →
      readSOCKS5ConnectTarget
          (Conn.ofClient ([0x05, n] ++ methods ++ [0x05, 0x01, rsv, 0x01] ++ [a, b, c, d]
            ++ [UInt8.ofNat (P / 256), UInt8.ofNat (P % 256)] ++ rest))
        = (.ok (dottedQuad a b c d ++ asciiBytes ":" ++ itoaBytes P),
            { input := rest, output := [0x05, 0x00], writeErr := none }) := by
  have main : ∀ p q : UInt8,
      readSOCKS5ConnectTarget
          (Conn.ofClient ([0x05, n] ++ methods ++ [0x05, 0x01, rsv, 0x01] ++ [a, b, c, d]
            ++ [p, q] ++ rest))
        = (.ok (dottedQuad a b c d ++ asciiBytes ":" ++ itoaBytes (256 * p.toNat + q.toNat)),
            { input := rest, output := [0x05, 0x00], writeErr := none }) := by
    intro p q
    have hneg := readSOCKS5ConnectTarget_negotiated n 0x01 rsv 0x01 methods
      ([a, b, c, d] ++ ([p, q] ++ rest)) hn hm h0
    have r1 := Conn.readFull_append [a, b, c, d] ([p, q] ++ rest) [0x05, 0x00] none
    have r2 := Conn.readFull_append [p, q] rest [0x05, 0x00] none
    simp only [List.length_cons, List.length_nil, Nat.zero_add, Nat.reduceAdd] at r1 r2
    have hhost : readSOCKSAddressHost
        { input := [a, b, c, d] ++ ([p, q] ++ rest), output := [0x05, 0x00],
          writeErr := none } 0x01
        = (.ok (dottedQuad a b c d),
            { input := [p, q] ++ rest, output := [0x05, 0x00], writeErr := none }) := by
      unfold readSOCKSAddressHost
      simp only [socksAddrIPv4, if_true, r1, ipString_quad]
    have hin : [0x05, n] ++ methods ++ [0x05, 0x01, rsv, 0x01] ++ [a, b, c, d] ++ [p, q] ++ rest
        = [0x05, n] ++ (methods ++ ([0x05, 0x01, rsv, 0x01]
            ++ ([a, b, c, d] ++ ([p, q] ++ rest)))) := by
      simp
    rw [hin, hneg, hhost]
    simp only [socksCmdConnect, ne_eq, not_true_eq_false, if_false, r2, List.getD_cons_zero,
      List.getD_cons_succ, bigEndianUint16_eq,
      joinHostPort_of_no_colon _ _ (dottedQuad_no_colon a b c d)]
    rfl
  refine ⟨?_, ?_, ?_⟩
  · exact main hi lo
  · have h1 := hi.toNat_lt
    have h2 := lo.toNat_lt
    omega
  · intro P hP
    have e1 : (UInt8.ofNat (P / 256)).toNat = P / 256 :=
      UInt8.toNat_ofNat_of_lt (by unfold UInt8.size; omega)
    have e2 : (UInt8.ofNat (P % 256)).toNat = P % 256 :=
      UInt8.toNat_ofNat_of_lt (by unfold UInt8.size; omega)
    rw [main, e1, e2]
    have e3 : 256 * (P / 256) + P % 256 = P := Nat.div_add_mod P 256
    rw [e3]

/-- Witness for C11: `10.0.0.1` port 443 (`01 BB`) after `[05 01 00]`. -/
theorem readSOCKS5ConnectTarget_ipv4_witness :
    readSOCKS5ConnectTarget
        (Conn.ofClient [0x05, 0x01, 0x00, 0x05, 0x01, 0x00, 0x01, 10, 0, 0, 1, 0x01, 0xBB])
      = (.ok (asciiBytes "10.0.0.1:443"),
          { input := [], output := [0x05, 0x00], writeErr := none }) :=
  (readSOCKS5ConnectTarget_ipv4 0x01 0x00 10 0 0 1 0x01 0xBB [0x00] []
    (by decide) (by decide) (by decide)).1.trans (by decide)


/-! ## Theorems: host key algorithms -/

theorem splitOnComma_ne_nil (l : List Char) : splitOnComma l ≠ [] := by
  cases l with
  | nil => simp [splitOnComma]
  | cons ch rest =>
    unfold splitOnComma
    split_ifs
    · simp
    · split <;> simp

theorem splitOnComma_no_comma (l : List Char) : ∀ p ∈ splitOnComma l, ',' ∉ p := by
  induction l with
  | nil => simp [splitOnComma]
  | cons ch rest ih =>
    unfold splitOnComma
    split_ifs with hc
    · intro p hp
      rcases List.mem_cons.mp hp with h | h
      · rw [h]; simp
      · exact ih p h
    · split
      · rename_i hnil
        exact absurd hnil (splitOnComma_ne_nil rest)
      · rename_i piece pieces hs
        rw [hs] at ih
        intro p hp
        rcases List.mem_cons.mp hp with h | h
        · rw [h]
          intro hmem
          rcases List.mem_cons.mp hmem with h1 | h1
          · exact hc h1.symm
          · exact ih piece (List.mem_cons_self _ _) h1
        · exact ih p (List.mem_cons_of_mem _ h)

theorem joinWithCommas_cons (p : List Char) (q : List Char) (rest : List (List Char)) :
    (joinWithCommas ((String.mk p) :: (String.mk q :: rest.map String.mk))).data
      = p ++ ',' :: (joinWithCommas (String.mk q :: rest.map String.mk)).data := by
  simp [joinWithCommas, String.data_append]

theorem joinWithCommas_splitOnComma (l : List Char) :
    (joinWithCommas ((splitOnComma l).map String.mk)).data = l := by
  induction l with
  | nil => simp [splitOnComma, joinWithCommas]
  | cons ch rest ih =>
    unfold splitOnComma
    split_ifs with hc
    · rcases hs : splitOnComma rest with _ | ⟨q, qs⟩
      · exact absurd hs (splitOnComma_ne_nil rest)
      · rw [hs] at ih
        simp only [List.map_cons] at ih ⊢
        rw [joinWithCommas_cons, ih, hc]
        rfl
    · rcases hs : splitOnComma rest with _ | ⟨q, qs⟩
      · exact absurd hs (splitOnComma_ne_nil rest)
      · rw [hs] at ih
        simp only [List.map_cons] at ih ⊢
        cases qs with
        | nil =>
          simp only [List.map_nil, joinWithCommas] at ih ⊢
          rw [← ih]
        | cons q2 qs2 =>
          simp only [List.map_cons] at ih ⊢
          rw [joinWithCommas_cons] at ih ⊢
          rw [← ih]
          rfl

/-- C12: for every `s` whose trimmed text `t` is not empty,
`parseHostKeyAlgorithms s` is the seven default algorithms followed by `x`
when `t = "+x"`, the default list without the elements equal to `x` (order
kept) when `t = "-x"`, and otherwise the pieces of `t` between its commas:
no piece holds a comma and joining them with commas gives `t` back. -/
theorem parseHostKeyAlgorithms_spec (s : String) (h : trimSpace s ≠ "") :
    (∀ x : String, trimSpace s = "+" ++ x →
      parseHostKeyAlgorithms s
        = ["ssh-rsa", "rsa-sha2-256", "rsa-sha2-512", "ecdsa-sha2-nistp256",
           "ecdsa-sha2-nistp384", "ecdsa-sha2-nistp521", "ssh-ed25519"] ++ [x]) ∧
    (∀ x : String, trimSpace s = "-" ++ x →
      parseHostKeyAlgorithms s
        = (["ssh-rsa", "rsa-sha2-256", "rsa-sha2-512", "ecdsa-sha2-nistp256",
            "ecdsa-sha2-nistp384", "ecdsa-sha2-nistp521", "ssh-ed25519"]).filter
            (fun algo => algo ≠ x)) ∧
    ((¬ ∃ x : String, trimSpace s = "+" ++ x) → (¬ ∃ x : String, trimSpace s = "-" ++ x) →
      parseHostKeyAlgorithms s = splitAlgorithms (trimSpace s) ∧
      joinWithCommas (parseHostKeyAlgorithms s) = trimSpace s ∧
      parseHostKeyAlgorithms s ≠ [] ∧
      ∀ piece ∈ parseHostKeyAlgorithms s, ',' ∉ piece.data) := by
  have hdata : ∀ (a : Char) (x : String), trimSpace s = String.mk [a] ++ x →
      (trimSpace s).data = a :: x.data := by
    intro a x hx
    rw [hx, String.data_append]
    rfl
  refine ⟨?_, ?_, ?_⟩
  · intro x hx
    have hd := hdata '+' x hx
    have hp : hasPrefix (trimSpace s) "+" = true := by
      simp [hasPrefix, hd, List.isPrefixOf]
    have ht : trimPrefix (trimSpace s) "+" = x := by
      unfold trimPrefix
      rw [if_pos hp]
      apply String.ext
      simp [hd]
    unfold parseHostKeyAlgorithms
    simp only [h, if_false, hp, if_true, ht]
    rfl
  · intro x hx
    have hd := hdata '-' x hx
    have hp : hasPrefix (trimSpace s) "+" = false := by
      simp [hasPrefix, hd, List.isPrefixOf]
    have hm : hasPrefix (trimSpace s) "-" = true := by
      simp [hasPrefix, hd, List.isPrefixOf]
    have ht : trimPrefix (trimSpace s) "-" = x := by
      unfold trimPrefix
      rw [if_pos hm]
      apply String.ext
      simp [hd]
    unfold parseHostKeyAlgorithms
    simp only [h, if_false, hp, Bool.false_eq_true, hm, if_true, ht]
    rfl
  · intro hplus hminus
    have hnot : ∀ a : Char, (¬ ∃ x : String, trimSpace s = String.mk [a] ++ x) →
        hasPrefix (trimSpace s) (String.mk [a]) = false := by
      intro a hno
      cases hv : hasPrefix (trimSpace s) (String.mk [a]) with
      | false => rfl
      | true =>
        exfalso
        apply hno
        unfold hasPrefix at hv
        rcases hdt : (trimSpace s).data with _ | ⟨c, cs⟩
        · rw [hdt] at hv
          simp [List.isPrefixOf] at hv
        · rw [hdt] at hv
          simp [List.isPrefixOf] at hv
          refine ⟨String.mk cs, ?_⟩
          apply String.ext
          rw [hdt, String.data_append, hv]
          rfl
    have hp : hasPrefix (trimSpace s) "+" = false := hnot '+' hplus
    have hm : hasPrefix (trimSpace s) "-" = false := hnot '-' hminus
    have hparse : parseHostKeyAlgorithms s = splitAlgorithms (trimSpace s) := by
      unfold parseHostKeyAlgorithms
      simp only [h, if_false, hp, hm, Bool.false_eq_true]
    refine ⟨hparse, ?_, ?_, ?_⟩
    · rw [hparse]
      apply String.ext
      exact joinWithCommas_splitOnComma _
    · rw [hparse]
      unfold splitAlgorithms
      simpa using splitOnComma_ne_nil _
    · rw [hparse]
      intro piece hpiece
      unfold splitAlgorithms at hpiece
      obtain ⟨p, hp1, rfl⟩ := List.mem_map.mp hpiece
      exact splitOnComma_no_comma _ p hp1

/-- Witness for C12 at `" +ssh-dss "`, whose trimmed text is `"+ssh-dss"`. -/
theorem parseHostKeyAlgorithms_spec_witness :
    parseHostKeyAlgorithms " +ssh-dss "
      = ["ssh-rsa", "rsa-sha2-256", "rsa-sha2-512", "ecdsa-sha2-nistp256",
         "ecdsa-sha2-nistp384", "ecdsa-sha2-nistp521", "ssh-ed25519", "ssh-dss"] :=
  (parseHostKeyAlgorithms_spec " +ssh-dss " (by decide)).1 "ssh-dss" (by decide)


/-! ## Theorems: ID assignment -/

/-- The loop of `nextJumperID` / `nextTunnelID` from a start value of at least
1, over IDs below the largest `int`: the result is at least the start value,
above every ID, and either the start value or one more than some ID. -/
theorem foldl_nextIDStep (ids : List Int) (init : Int) (hinit : 1 ≤ init)
    (hmax : ∀ id ∈ ids, id < maxInt64) :
    init ≤ ids.foldl nextIDStep init ∧
    (∀ id ∈ ids, id < ids.foldl nextIDStep init) ∧
    (ids.foldl nextIDStep init = init ∨ ∃ id ∈ ids, ids.foldl nextIDStep init = id + 1) := by
  induction ids generalizing init with
  | nil => simp
  | cons x rest ih =>
    have hx : x < maxInt64 := hmax x (List.mem_cons_self _ _)
    have hrest : ∀ id ∈ rest, id < maxInt64 := fun id hid => hmax id (List.mem_cons_of_mem _ hid)
    simp only [List.foldl_cons]
    by_cases hge : x ≥ init
    · have hw : wrapInt64 (x + 1) = x + 1 := by
        apply wrapInt64_of_inRange
        · unfold minInt64; omega
        · omega
      have hstep : nextIDStep init x = x + 1 := by
        unfold nextIDStep
        rw [if_pos hge, hw]
      rw [hstep]
      obtain ⟨h1, h2, h3⟩ := ih (x + 1) (by omega) hrest
      refine ⟨by omega, ?_, ?_⟩
      · intro id hid
        rcases List.mem_cons.mp hid with h | h
        · rw [h]; omega
        · exact h2 id h
      · right
        rcases h3 with h3 | ⟨id, hid, h3⟩
        · exact ⟨x, List.mem_cons_self _ _, h3⟩
        · exact ⟨id, List.mem_cons_of_mem _ hid, h3⟩
    · have hstep : nextIDStep init x = init := by
        unfold nextIDStep
        rw [if_neg hge]
      rw [hstep]
      obtain ⟨h1, h2, h3⟩ := ih init hinit hrest
      refine ⟨h1, ?_, ?_⟩
      · intro id hid
        rcases List.mem_cons.mp hid with h | h
        · rw [h]; omega
        · exact h2 id h
      · rcases h3 with h3 | ⟨id, hid, h3⟩
        · exact Or.inl h3
        · exact Or.inr ⟨id, List.mem_cons_of_mem _ hid, h3⟩

theorem nextJumperID_eq_foldl (items : List Jumper) :
    nextJumperID items = (items.map (fun item => item.ID)).foldl nextIDStep 1 := by
  unfold nextJumperID
  rw [List.foldl_map]

theorem nextTunnelID_eq_foldl (items : List Tunnel) :
    nextTunnelID items = (items.map (fun item => item.ID)).foldl nextIDStep 1 := by
  unfold nextTunnelID
  rw [List.foldl_map]

/-- What the ID loop computes on IDs below the largest `int`: `1` on the empty
list, a value of at least 1 above every ID, and `1 + ` the maximum ID as soon
as some ID is not negative. -/
theorem nextID_characterization (ids : List Int) (hmax : ∀ id ∈ ids, id < maxInt64) :
    1 ≤ ids.foldl nextIDStep 1 ∧
    (∀ id ∈ ids, id < ids.foldl nextIDStep 1) ∧
    ((∃ id ∈ ids, 0 ≤ id) →
      ∃ m ∈ ids, (∀ id ∈ ids, id ≤ m) ∧ ids.foldl nextIDStep 1 = 1 + m) ∧
    ((∀ id ∈ ids, id < 0) → ids.foldl nextIDStep 1 = 1) := by
  obtain ⟨h1, h2, h3⟩ := foldl_nextIDStep ids 1 (le_refl 1) hmax
  refine ⟨h1, h2, ?_, ?_⟩
  · rintro ⟨id0, hid0, hpos⟩
    rcases h3 with h3 | ⟨m, hm, h3⟩
    · have h0 := h2 id0 hid0
      refine ⟨id0, hid0, ?_, by omega⟩
      intro id hid
      have := h2 id hid
      omega
    · refine ⟨m, hm, ?_, by omega⟩
      intro id hid
      have := h2 id hid
      omega
  · intro hneg
    rcases h3 with h3 | ⟨m, hm, h3⟩
    · exact h3
    · have := hneg m hm
      omega

/-- C13, as stated, fails: with an existing ID equal to the largest `int`,
`item.ID + 1` overflows and both functions return the smallest `int` instead
of 1 + the maximum; and with only a negative ID they return 1. -/
theorem nextID_counterexample :
    nextJumperID [{ Jumper.zero with ID := 9223372036854775807 }] = -9223372036854775808 ∧
    nextJumperID [{ Jumper.zero with ID := 9223372036854775807 }]
      ≠ 1 + 9223372036854775807 ∧
    nextTunnelID [{ Tunnel.zero with ID := 9223372036854775807 }] = -9223372036854775808 ∧
    nextJumperID [{ Jumper.zero with ID := -5 }] = 1 ∧
    nextJumperID [{ Jumper.zero with ID := -5 }] ≠ 1 + (-5) := by
  decide

/-- C13, amended: on every list of jumpers (`nextJumperID`) or tunnels
(`nextTunnelID`) whose IDs are below the largest `int`, the function returns 1
when the list is empty, a value ≥ 1 above every existing ID in general, and
1 + the maximum of the existing IDs whenever some ID is ≥ 0 (so for all legal
IDs, which are ≥ 1); with only negative IDs it returns 1. -/
theorem nextID_spec (jumpers : List Jumper) (tunnels : List Tunnel)
    (hj : ∀ j ∈ jumpers, j.ID < maxInt64) (ht : ∀ t ∈ tunnels, t.ID < maxInt64) :
    nextJumperID [] = 1 ∧ nextTunnelID [] = 1 ∧
    (1 ≤ nextJumperID jumpers ∧ ∀ j ∈ jumpers, j.ID < nextJumperID jumpers) ∧
    (1 ≤ nextTunnelID tunnels ∧ ∀ t ∈ tunnels, t.ID < nextTunnelID tunnels) ∧
    ((∃ j ∈ jumpers, 0 ≤ j.ID) →
      ∃ m ∈ jumpers, (∀ j ∈ jumpers, j.ID ≤ m.ID) ∧ nextJumperID jumpers = 1 + m.ID) ∧
    ((∃ t ∈ tunnels, 0 ≤ t.ID) →
      ∃ m ∈ tunnels, (∀ t ∈ tunnels, t.ID ≤ m.ID) ∧ nextTunnelID tunnels = 1 + m.ID) ∧
    ((∀ j ∈ jumpers, j.ID < 0) → nextJumperID jumpers = 1) ∧
    ((∀ t ∈ tunnels, t.ID < 0) → nextTunnelID tunnels = 1) := by
  have hjs : ∀ id ∈ jumpers.map (fun item => item.ID), id < maxInt64 := by
    intro id hid
    obtain ⟨j, hjm, rfl⟩ := List.mem_map.mp hid
    exact hj j hjm
  have hts : ∀ id ∈ tunnels.map (fun item => item.ID), id < maxInt64 := by
    intro id hid
    obtain ⟨t, htm, rfl⟩ := List.mem_map.mp hid
    exact ht t htm
  obtain ⟨a1, a2, a3, a4⟩ := nextID_characterization _ hjs
  obtain ⟨b1, b2, b3, b4⟩ := nextID_characterization _ hts
  rw [← nextJumperID_eq_foldl] at a1 a2 a3 a4
  rw [← nextTunnelID_eq_foldl] at b1 b2 b3 b4
  refine ⟨rfl, rfl, ⟨a1, fun j hjm => a2 j.ID (List.mem_map_of_mem _ hjm)⟩,
    ⟨b1, fun t htm => b2 t.ID (List.mem_map_of_mem _ htm)⟩, ?_, ?_, ?_, ?_⟩
  · rintro ⟨j, hjm, hpos⟩
    obtain ⟨m, hm, hle, heq⟩ := a3 ⟨j.ID, List.mem_map_of_mem _ hjm, hpos⟩
    obtain ⟨mj, hmj, rfl⟩ := List.mem_map.mp hm
    exact ⟨mj, hmj, fun j2 hj2 => hle j2.ID (List.mem_map_of_mem _ hj2), heq⟩
  · rintro ⟨t, htm, hpos⟩
    obtain ⟨m, hm, hle, heq⟩ := b3 ⟨t.ID, List.mem_map_of_mem _ htm, hpos⟩
    obtain ⟨mt, hmt, rfl⟩ := List.mem_map.mp hm
    exact ⟨mt, hmt, fun t2 ht2 => hle t2.ID (List.mem_map_of_mem _ ht2), heq⟩
  · intro hneg
    apply a4
    intro id hid
    obtain ⟨j, hjm, rfl⟩ := List.mem_map.mp hid
    exact hneg j hjm
  · intro hneg
    apply b4
    intro id hid
    obtain ⟨t, htm, rfl⟩ := List.mem_map.mp hid
    exact hneg t htm

/-- Witness for the amended C13: jumpers with IDs 2, 7, 3 and tunnels with IDs
1, 2 give next IDs 8 and 3. -/
theorem nextID_spec_witness :
    nextJumperID [{ Jumper.zero with ID := 2 }, { Jumper.zero with ID := 7 },
        { Jumper.zero with ID := 3 }] = 8 ∧
    nextTunnelID [{ Tunnel.zero with ID := 1 }, { Tunnel.zero with ID := 2 }] = 3 ∧
    (1 : Int) ≤ nextJumperID [{ Jumper.zero with ID := 2 }, { Jumper.zero with ID := 7 },
        { Jumper.zero with ID := 3 }] :=
  ⟨by decide, by decide,
    (nextID_spec [{ Jumper.zero with ID := 2 }, { Jumper.zero with ID := 7 },
        { Jumper.zero with ID := 3 }]
      [{ Tunnel.zero with ID := 1 }, { Tunnel.zero with ID := 2 }]
      (by decide) (by decide)).2.2.1.1⟩


/-! ## Theorems: `normalizeJumperIDs` -/

theorem normalizeJumperIDsLoop_eq (rest out seen earlier : List Int)
    (hseen : ∀ x, x ∈ seen ↔ x ∈ out)
    (hout : ∀ x, x ∈ out ↔ (x ∈ earlier ∧ 0 < x)) :
    normalizeJumperIDsLoop rest out seen = out ++ firstPositiveOccurrencesFrom earlier rest := by
  induction rest generalizing out seen earlier with
  | nil => simp [normalizeJumperIDsLoop, firstPositiveOccurrencesFrom]
  | cons id rest ih =>
    unfold normalizeJumperIDsLoop firstPositiveOccurrencesFrom
    by_cases h1 : id ≤ 0
    · rw [if_pos h1, if_neg (by omega)]
      apply ih out seen (earlier ++ [id]) hseen
      intro x
      rw [hout x]
      constructor
      · rintro ⟨ha, hb⟩
        exact ⟨List.mem_append_left _ ha, hb⟩
      · rintro ⟨ha, hb⟩
        rcases List.mem_append.mp ha with h | h
        · exact ⟨h, hb⟩
        · have : x = id := by simpa using h
          omega
    · rw [if_neg h1]
      by_cases h2 : seen.contains id = true
      · have hin : id ∈ out := (hseen id).mp (by simpa using h2)
        have hearlier : id ∈ earlier := ((hout id).mp hin).1
        rw [if_pos h2, if_neg (by simp [hearlier])]
        apply ih out seen (earlier ++ [id]) hseen
        intro x
        rw [hout x]
        constructor
        · rintro ⟨ha, hb⟩
          exact ⟨List.mem_append_left _ ha, hb⟩
        · rintro ⟨ha, hb⟩
          rcases List.mem_append.mp ha with h | h
          · exact ⟨h, hb⟩
          · have hx : x = id := by simpa using h
            rw [hx]
            exact ⟨hearlier, by omega⟩
      · have hnin : id ∉ out := fun hin => h2 (by simpa using (hseen id).mpr hin)
        have hne : id ∉ earlier := fun he => hnin ((hout id).mpr ⟨he, by omega⟩)
        rw [if_neg h2, if_pos ⟨by omega, hne⟩]
        rw [ih (out ++ [id]) (id :: seen) (earlier ++ [id])]
        · simp
        · intro x
          simp only [List.mem_cons, List.mem_append, List.mem_singleton]
          rw [hseen x]
          tauto
        · intro x
          simp only [List.mem_append, List.mem_singleton]
          rw [hout x]
          constructor
          · rintro (⟨ha, hb⟩ | hx)
            · exact ⟨Or.inl ha, hb⟩
            · rw [hx]; exact ⟨Or.inr rfl, by omega⟩
          · rintro ⟨ha | hx, hb⟩
            · exact Or.inl ⟨ha, hb⟩
            · exact Or.inr hx

theorem normalizeJumperIDs_eq (ids : List Int) :
    normalizeJumperIDs ids = firstPositiveOccurrences ids := by
  unfold normalizeJumperIDs firstPositiveOccurrences
  rw [normalizeJumperIDsLoop_eq ids [] [] [] (by simp) (by simp)]
  simp

theorem mem_firstPositiveOccurrencesFrom (earlier ids : List Int) (x : Int) :
    x ∈ firstPositiveOccurrencesFrom earlier ids ↔ (x ∈ ids ∧ 0 < x ∧ x ∉ earlier) := by
  induction ids generalizing earlier with
  | nil => simp [firstPositiveOccurrencesFrom]
  | cons id rest ih =>
    unfold firstPositiveOccurrencesFrom
    split_ifs with h
    · simp only [List.mem_cons, ih, List.mem_append, List.not_mem_nil, or_false, not_or]
      constructor
      · rintro (hx | ⟨h1, h2, h3, _⟩)
        · rw [hx]; exact ⟨Or.inl rfl, h.1, h.2⟩
        · exact ⟨Or.inr h1, h2, h3⟩
      · rintro ⟨hx | h1, h2, h3⟩
        · exact Or.inl hx
        · by_cases hxid : x = id
          · exact Or.inl hxid
          · exact Or.inr ⟨h1, h2, h3, hxid⟩
    · simp only [List.mem_cons, ih, List.mem_append, List.not_mem_nil, or_false, not_or]
      constructor
      · rintro ⟨h1, h2, h3, _⟩
        exact ⟨Or.inr h1, h2, h3⟩
      · rintro ⟨hx | h1, h2, h3⟩
        · exfalso
          rw [hx] at h2 h3
          exact h ⟨h2, h3⟩
        · by_cases hxid : x = id
          · exfalso
            rw [hxid] at h2 h3
            exact h ⟨h2, h3⟩
          · exact ⟨h1, h2, h3, hxid⟩

theorem nodup_firstPositiveOccurrencesFrom (earlier ids : List Int) :
    (firstPositiveOccurrencesFrom earlier ids).Nodup := by
  induction ids generalizing earlier with
  | nil => simp [firstPositiveOccurrencesFrom]
  | cons id rest ih =>
    unfold firstPositiveOccurrencesFrom
    split_ifs with h
    · rw [List.nodup_cons]
      refine ⟨?_, ih _⟩
      rw [mem_firstPositiveOccurrencesFrom]
      simp
    · exact ih _

theorem sublist_firstPositiveOccurrencesFrom (earlier ids : List Int) :
    List.Sublist (firstPositiveOccurrencesFrom earlier ids) ids := by
  induction ids generalizing earlier with
  | nil => simp [firstPositiveOccurrencesFrom]
  | cons id rest ih =>
    unfold firstPositiveOccurrencesFrom
    split_ifs with h
    · exact List.Sublist.cons₂ _ (ih _)
    · exact List.Sublist.cons _ (ih _)

theorem firstPositiveOccurrencesFrom_fixed (earlier l : List Int) (hnd : l.Nodup)
    (hpos : ∀ x ∈ l, 0 < x) (hdis : ∀ x ∈ l, x ∉ earlier) :
    firstPositiveOccurrencesFrom earlier l = l := by
  induction l generalizing earlier with
  | nil => simp [firstPositiveOccurrencesFrom]
  | cons id rest ih =>
    rw [List.nodup_cons] at hnd
    unfold firstPositiveOccurrencesFrom
    rw [if_pos ⟨hpos id (List.mem_cons_self _ _), hdis id (List.mem_cons_self _ _)⟩]
    rw [ih (earlier ++ [id]) hnd.2 (fun x hx => hpos x (List.mem_cons_of_mem _ hx))]
    intro x hx
    simp only [List.mem_append, List.mem_singleton, not_or]
    refine ⟨hdis x (List.mem_cons_of_mem _ hx), ?_⟩
    intro hxid
    rw [hxid] at hx
    exact hnd.1 hx

theorem normalizeJumperIDs_idempotent (ids : List Int) :
    normalizeJumperIDs (normalizeJumperIDs ids) = normalizeJumperIDs ids := by
  rw [normalizeJumperIDs_eq (normalizeJumperIDs ids)]
  unfold firstPositiveOccurrences
  apply firstPositiveOccurrencesFrom_fixed
  · rw [normalizeJumperIDs_eq]
    exact nodup_firstPositiveOccurrencesFrom _ _
  · exact normalizeJumperIDs_pos ids
  · simp

theorem Config.Normalize_idempotent (cfg : Config) :
    cfg.Normalize.Normalize = cfg.Normalize := by
  unfold Config.Normalize
  simp only [List.map_map, Config.mk.injEq, true_and]
  refine ⟨?_, ?_⟩
  · unfold currentConfigVersion
    split_ifs <;> omega
  · apply List.map_congr_left
    intro t _
    simp [normalizeJumperIDs_idempotent]

/-- C18: `normalizeJumperIDs ids` is the subsequence of `ids` made of the first
occurrence of each strictly positive value: it has no duplicates, holds only
positive values of `ids`, holds every positive value of `ids`, and is a
subsequence of `ids`; `Config.Normalize` applies it to the `JumperIDs` of every
tunnel and changes nothing else in the tunnels and jumpers. -/
theorem normalizeJumperIDs_spec (ids : List Int) (cfg : Config) :
    normalizeJumperIDs ids = firstPositiveOccurrences ids ∧
    (normalizeJumperIDs ids).Nodup ∧
    (∀ x ∈ normalizeJumperIDs ids, 0 < x ∧ x ∈ ids) ∧
    (∀ x ∈ ids, 0 < x → x ∈ normalizeJumperIDs ids) ∧
    List.Sublist (normalizeJumperIDs ids) ids ∧
    cfg.Normalize.Tunnels
      = cfg.Tunnels.map (fun t => { t with JumperIDs := normalizeJumperIDs t.JumperIDs }) ∧
    cfg.Normalize.Jumpers = cfg.Jumpers := by
  have he := normalizeJumperIDs_eq ids
  refine ⟨he, ?_, ?_, ?_, ?_, rfl, rfl⟩
  · rw [he]
    exact nodup_firstPositiveOccurrencesFrom _ _
  · intro x hx
    rw [he] at hx
    have := (mem_firstPositiveOccurrencesFrom [] ids x).mp hx
    exact ⟨this.2.1, this.1⟩
  · intro x hx hpos
    rw [he]
    exact (mem_firstPositiveOccurrencesFrom [] ids x).mpr ⟨hx, hpos, by simp⟩
  · rw [he]
    exact sublist_firstPositiveOccurrencesFrom _ _


/-! ## Theorems: what `Storage.Update` does -/

theorem encodeConfigTOML_snd (codec : TomlCodec) (cfg : Config) :
    (encodeConfigTOML codec cfg).2 = cfg.Normalize := by
  unfold encodeConfigTOML
  simp only
  cases codec.encode cfg.Normalize <;> rfl

theorem encodeConfigTOML_Normalize (codec : TomlCodec) (cfg : Config) :
    encodeConfigTOML codec cfg.Normalize = encodeConfigTOML codec cfg := by
  unfold encodeConfigTOML
  simp only [Config.Normalize_idempotent]

theorem Storage.saveLocked_eq (codec : TomlCodec) (r : Storage) (cfg : Config) :
    r.saveLocked codec cfg
      = (none, { file := some (encodeConfigTOML codec cfg).1 }, cfg.Normalize) := by
  unfold Storage.saveLocked
  simp only [encodeConfigTOML_Normalize]
  rw [← encodeConfigTOML_snd codec cfg]

/-- `Storage.Update` in one step: a failed load or a failed mutator leaves the
storage as the load left it; otherwise the normalized result of the mutator is
encoded into the file and returned. -/
theorem Storage.Update_eq {α : Type} (codec : TomlCodec) (r : Storage)
    (mutator : Config → Except String (Config × α)) :
    r.Update codec mutator =
      match r.loadLocked codec with
      | (.error err, r1) => (.error err, r1)
      | (.ok cfg, r1) =>
        match mutator cfg with
        | .error err => (.error err, r1)
        | .ok (cfg1, captured) =>
          (.ok (cfg1.Normalize, captured),
            { file := some (encodeConfigTOML codec cfg1).1 }) := by
  unfold Storage.Update
  rcases r.loadLocked codec with ⟨res, r1⟩
  cases res with
  | error err => rfl
  | ok cfg =>
    simp only
    cases mutator cfg with
    | error err => rfl
    | ok pair =>
      obtain ⟨cfg1, captured⟩ := pair
      simp only [Storage.saveLocked_eq, Config.Normalize_idempotent, Config.Clone_eq,
        encodeConfigTOML_Normalize]

/-! ## Theorems: jumper payload validation -/

/-- The result of `normalizeJumperPayload`, field by field. -/
theorem normalizeJumperPayload_eq (p : JumperPayload) :
    normalizeJumperPayload p =
      { Name := trimSpace p.Name,
        Host := trimSpace p.Host,
        Port := if p.Port ≤ 0 then 22 else p.Port,
        User := trimSpace p.User,
        AuthType := if trimSpace p.AuthType = "" then "ssh_key" else trimSpace p.AuthType,
        KeyPath :=
          if trimSpace p.AuthType = "" ∨ trimSpace p.AuthType = "ssh_key" then
            trimSpace p.KeyPath
          else "",
        AgentSocketPath := trimSpace p.AgentSocketPath,
        Password := if trimSpace p.AuthType = "ssh_agent" then "" else p.Password,
        BypassHostVerification := p.BypassHostVerification,
        KeepAliveIntervalMs := if p.KeepAliveIntervalMs < 0 then 5000 else p.KeepAliveIntervalMs,
        TimeoutMs := if p.TimeoutMs ≤ 0 then 5000 else p.TimeoutMs,
        HostKeyAlgorithms := trimSpace p.HostKeyAlgorithms,
        Notes := trimSpace p.Notes } := by
  by_cases c1 : p.Port ≤ 0 <;> by_cases c2 : p.TimeoutMs ≤ 0 <;>
    by_cases c3 : p.KeepAliveIntervalMs < 0 <;>
    by_cases c4 : trimSpace p.AuthType = "" <;>
    by_cases c5 : trimSpace p.AuthType = "ssh_key" <;>
    by_cases c6 : trimSpace p.AuthType = "ssh_agent" <;>
    simp [normalizeJumperPayload, defaultKeepAliveIntervalMs, c1, c2, c3, c4, c5, c6]

theorem normalizeJumperPayload_Port (p : JumperPayload) :
    (normalizeJumperPayload p).Port = if p.Port ≤ 0 then 22 else p.Port := by
  rw [normalizeJumperPayload_eq]

theorem normalizeJumperPayload_TimeoutMs (p : JumperPayload) :
    (normalizeJumperPayload p).TimeoutMs = if p.TimeoutMs ≤ 0 then 5000 else p.TimeoutMs := by
  rw [normalizeJumperPayload_eq]

theorem normalizeJumperPayload_KeepAliveIntervalMs (p : JumperPayload) :
    (normalizeJumperPayload p).KeepAliveIntervalMs
      = if p.KeepAliveIntervalMs < 0 then 5000 else p.KeepAliveIntervalMs := by
  rw [normalizeJumperPayload_eq]

/-- What a payload accepted by `validateJumperPayload` satisfies. -/
theorem validateJumperPayload_ok (q : JumperPayload) (h : validateJumperPayload q = none) :
    q.Name ≠ "" ∧ q.Host ≠ "" ∧ q.User ≠ "" ∧
    (1 ≤ q.Port ∧ q.Port ≤ 65535) ∧
    (100 ≤ q.TimeoutMs ∧ q.TimeoutMs ≤ 120000) ∧
    q.KeepAliveIntervalMs ≤ 120000 ∧
    (q.KeepAliveIntervalMs ≤ 0 ∨ 1000 ≤ q.KeepAliveIntervalMs) ∧
    (q.AuthType = "password" ∨ q.AuthType = "ssh_key" ∨ q.AuthType = "ssh_agent") ∧
    (q.AuthType = "password" → trimSpace q.Password ≠ "") ∧
    (q.AuthType = "ssh_key" → q.KeyPath ≠ "") := by
  unfold validateJumperPayload maxKeepAliveIntervalMs minKeepAliveIntervalMs at h
  by_cases h1 : q.Name = ""
  · rw [if_pos h1] at h; exact absurd h (by simp)
  rw [if_neg h1] at h
  by_cases h2 : q.Host = ""
  · rw [if_pos h2] at h; exact absurd h (by simp)
  rw [if_neg h2] at h
  by_cases h3 : q.User = ""
  · rw [if_pos h3] at h; exact absurd h (by simp)
  rw [if_neg h3] at h
  by_cases h4 : q.Port < 1 ∨ q.Port > 65535
  · rw [if_pos h4] at h; exact absurd h (by simp)
  rw [if_neg h4] at h
  by_cases h5 : q.TimeoutMs < 100 ∨ q.TimeoutMs > 120000
  · rw [if_pos h5] at h; exact absurd h (by simp)
  rw [if_neg h5] at h
  by_cases h6 : q.KeepAliveIntervalMs > 120000
  · rw [if_pos h6] at h; exact absurd h (by simp)
  rw [if_neg h6] at h
  by_cases h7 : q.KeepAliveIntervalMs > 0 ∧ q.KeepAliveIntervalMs < 1000
  · rw [if_pos h7] at h; exact absurd h (by simp)
  rw [if_neg h7] at h
  refine ⟨h1, h2, h3, by omega, by omega, by omega, by omega, ?_⟩
  by_cases a1 : q.AuthType = "password"
  · rw [if_pos a1] at h
    by_cases pw : trimSpace q.Password = ""
    · rw [if_pos pw] at h; exact absurd h (by simp)
    · refine ⟨Or.inl a1, fun _ => pw, ?_⟩
      intro hk
      rw [a1] at hk
      exact absurd hk (by decide)
  rw [if_neg a1] at h
  by_cases a2 : q.AuthType = "ssh_key"
  · rw [if_pos a2] at h
    by_cases kp : q.KeyPath = ""
    · rw [if_pos kp] at h; exact absurd h (by simp)
    · exact ⟨Or.inr (Or.inl a2), fun hk => absurd hk a1, fun _ => kp⟩
  rw [if_neg a2] at h
  by_cases a3 : q.AuthType = "ssh_agent"
  · exact ⟨Or.inr (Or.inr a3), fun hk => absurd hk a1, fun hk => absurd hk a2⟩
  · rw [if_neg a3] at h; exact absurd h (by simp)

theorem JumperBiz.Create_ok_eq (codec : TomlCodec) (storage : Storage) (p : JumperPayload)
    (j : Jumper) (h : (JumperBiz.Create codec storage p).1 = .ok j) :
    validateJumperPayload (normalizeJumperPayload p) = none ∧
    ∃ id, j = jumperFromPayload id (normalizeJumperPayload p) := by
  unfold JumperBiz.Create at h
  simp only at h
  cases hv : validateJumperPayload (normalizeJumperPayload p) with
  | some err => rw [hv] at h; simp at h
  | none =>
    rw [hv] at h
    refine ⟨rfl, ?_⟩
    rw [Storage.Update_eq] at h
    generalize storage.loadLocked codec = ld at h
    obtain ⟨res, r1⟩ := ld
    cases res with
    | error err => simp at h
    | ok cfg =>
      simp only [jumperCreateMutator, Except.ok.injEq] at h
      exact ⟨_, h.symm⟩

theorem JumperBiz.Update_ok_eq (codec : TomlCodec) (storage : Storage) (id : Int)
    (p : JumperPayload) (j : Jumper) (h : (JumperBiz.Update codec storage id p).1 = .ok j) :
    validateJumperPayload (normalizeJumperPayload p) = none ∧
    j = jumperFromPayload id (normalizeJumperPayload p) := by
  unfold JumperBiz.Update at h
  by_cases hid : id ≤ 0
  · rw [if_pos hid] at h; simp at h
  · rw [if_neg hid] at h
    simp only at h
    cases hv : validateJumperPayload (normalizeJumperPayload p) with
    | some err => rw [hv] at h; simp at h
    | none =>
      rw [hv] at h
      refine ⟨rfl, ?_⟩
      rw [Storage.Update_eq] at h
      generalize storage.loadLocked codec = ld at h
      obtain ⟨res, r1⟩ := ld
      cases res with
      | error err => simp at h
      | ok cfg =>
        simp only [jumperUpdateMutator] at h
        cases hi : jumperIndex cfg.Jumpers id with
        | none => rw [hi] at h; simp at h
        | some idx =>
          rw [hi] at h
          simp only [Except.ok.injEq] at h
          exact h.symm

/-- C20: when `validateJumperPayload (normalizeJumperPayload p)` succeeds, the
jumper built from the normalized payload (the one `Create` and `Update` store
and return) has its port in 1..65535 (22 when `p.Port ≤ 0`), `TimeoutMs` in
100..120000, `KeepAliveIntervalMs` equal to 0 or in 1000..120000, `AuthType`
among password, ssh_key, ssh_agent, and a non-blank password when the
`AuthType` is password. -/
theorem validated_jumper_ranges (p : JumperPayload) (id : Int)
    (h : validateJumperPayload (normalizeJumperPayload p) = none) :
    (1 ≤ (jumperFromPayload id (normalizeJumperPayload p)).Port ∧
      (jumperFromPayload id (normalizeJumperPayload p)).Port ≤ 65535) ∧
    (p.Port ≤ 0 → (jumperFromPayload id (normalizeJumperPayload p)).Port = 22) ∧
    (100 ≤ (jumperFromPayload id (normalizeJumperPayload p)).TimeoutMs ∧
      (jumperFromPayload id (normalizeJumperPayload p)).TimeoutMs ≤ 120000) ∧
    ((jumperFromPayload id (normalizeJumperPayload p)).KeepAliveIntervalMs = 0 ∨
      (1000 ≤ (jumperFromPayload id (normalizeJumperPayload p)).KeepAliveIntervalMs ∧
        (jumperFromPayload id (normalizeJumperPayload p)).KeepAliveIntervalMs ≤ 120000)) ∧
    ((jumperFromPayload id (normalizeJumperPayload p)).AuthType = "password" ∨
      (jumperFromPayload id (normalizeJumperPayload p)).AuthType = "ssh_key" ∨
      (jumperFromPayload id (normalizeJumperPayload p)).AuthType = "ssh_agent") ∧
    ((jumperFromPayload id (normalizeJumperPayload p)).AuthType = "password" →
      trimSpace (jumperFromPayload id (normalizeJumperPayload p)).Password ≠ "") ∧
    (∀ (codec : TomlCodec) (storage : Storage) (j : Jumper),
      (JumperBiz.Create codec storage p).1 = .ok j →
        ∃ id0, j = jumperFromPayload id0 (normalizeJumperPayload p)) ∧
    (∀ (codec : TomlCodec) (storage : Storage) (j : Jumper),
      (JumperBiz.Update codec storage id p).1 = .ok j →
        j = jumperFromPayload id (normalizeJumperPayload p)) := by
  obtain ⟨_, _, _, hport, htime, hk1, hk2, hauth, hpw, _⟩ :=
    validateJumperPayload_ok (normalizeJumperPayload p) h
  have hK := normalizeJumperPayload_KeepAliveIntervalMs p
  have hP := normalizeJumperPayload_Port p
  refine ⟨hport, ?_, htime, ?_, hauth, hpw, ?_, ?_⟩
  · intro hle
    show (normalizeJumperPayload p).Port = 22
    rw [hP, if_pos hle]
  · show (normalizeJumperPayload p).KeepAliveIntervalMs = 0 ∨
      (1000 ≤ (normalizeJumperPayload p).KeepAliveIntervalMs ∧
        (normalizeJumperPayload p).KeepAliveIntervalMs ≤ 120000)
    have hnn : 0 ≤ (normalizeJumperPayload p).KeepAliveIntervalMs := by
      rw [hK]
      split_ifs <;> omega
    omega
  · intro codec storage j hj
    exact (JumperBiz.Create_ok_eq codec storage p j hj).2
  · intro codec storage j hj
    exact (JumperBiz.Update_ok_eq codec storage id p j hj).2

/-- Witness for C20: a payload with port 0, timeout 0 and keepalive -1 is
stored with port 22, timeout 5000 ms and keepalive 5000 ms. -/
theorem validated_jumper_ranges_witness :
    (jumperFromPayload 1 (normalizeJumperPayload
      { Name := " bastion ", Host := "10.0.0.1", Port := 0, User := "ops",
        AuthType := "password", KeyPath := "", AgentSocketPath := "", Password := "s3cret",
        BypassHostVerification := false, KeepAliveIntervalMs := -1, TimeoutMs := 0,
        HostKeyAlgorithms := "", Notes := "" })).Port = 22 :=
  (validated_jumper_ranges
      { Name := " bastion ", Host := "10.0.0.1", Port := 0, User := "ops",
        AuthType := "password", KeyPath := "", AgentSocketPath := "", Password := "s3cret",
        BypassHostVerification := false, KeepAliveIntervalMs := -1, TimeoutMs := 0,
        HostKeyAlgorithms := "", Notes := "" } 1 (by decide)).2.1 (by decide)


/-! ## Theorems: the reference codec is faithful -/

theorem decNat_encNat (n : Nat) (rest : List Char) :
    decNat (encNat n ++ rest) = some (n, rest) := by
  induction n with
  | zero => simp [encNat, decNat]
  | succ k ih =>
    have hk : encNat (k + 1) ++ rest = '1' :: (encNat k ++ rest) := by
      simp [encNat, List.replicate_succ]
    rw [hk]
    unfold decNat
    simp [ih]

theorem decInt_encInt (z : Int) (rest : List Char) :
    decInt (encInt z ++ rest) = some (z, rest) := by
  unfold encInt
  simp only [List.cons_append]
  unfold decInt
  simp only [decNat_encNat]
  by_cases hz : z < 0
  · simp only [hz, if_true]
    have : -(z.natAbs : Int) = z := by omega
    rw [this]
  · simp only [hz, if_false]
    have : (z.natAbs : Int) = z := by omega
    rw [this]
    simp

theorem decBool_encBool (b : Bool) (rest : List Char) :
    decBool (encBool b ++ rest) = some (b, rest) := by
  cases b <;> simp [encBool, decBool]

theorem decStr_encStr (s : String) (rest : List Char) :
    decStr (encStr s ++ rest) = some (s, rest) := by
  unfold encStr decStr
  rw [List.append_assoc, decNat_encNat]
  simp

theorem decItems_encItems {α : Type} (enc : α → List Char)
    (dec : List Char → Option (α × List Char))
    (h : ∀ x rest, dec (enc x ++ rest) = some (x, rest)) (xs : List α) (rest : List Char) :
    decItems dec xs.length (encItems enc xs ++ rest) = some (xs, rest) := by
  induction xs with
  | nil => simp [encItems, decItems]
  | cons x xs ih =>
    simp only [encItems, List.length_cons, List.append_assoc]
    unfold decItems
    simp only [h, ih]

theorem decList_encList {α : Type} (enc : α → List Char)
    (dec : List Char → Option (α × List Char))
    (h : ∀ x rest, dec (enc x ++ rest) = some (x, rest)) (xs : List α) (rest : List Char) :
    decList dec (encList enc xs ++ rest) = some (xs, rest) := by
  unfold encList decList
  rw [List.append_assoc, decNat_encNat]
  exact decItems_encItems enc dec h xs rest

theorem decJumper_encJumper (j : Jumper) (rest : List Char) :
    decJumper (encJumper j ++ rest) = some (j, rest) := by
  unfold encJumper decJumper
  simp only [List.append_assoc, decInt_encInt, decStr_encStr, decBool_encBool]

theorem decTunnel_encTunnel (t : Tunnel) (rest : List Char) :
    decTunnel (encTunnel t ++ rest) = some (t.persisted, rest) := by
  unfold encTunnel decTunnel
  simp only [List.append_assoc, decInt_encInt, decStr_encStr, decBool_encBool,
    decList_encList encInt decInt decInt_encInt]
  rfl

theorem decItems_encTunnel (ts : List Tunnel) (rest : List Char) :
    decItems decTunnel ts.length (encItems encTunnel ts ++ rest)
      = some (ts.map Tunnel.persisted, rest) := by
  induction ts with
  | nil => simp [encItems, decItems]
  | cons t ts ih =>
    simp only [encItems, List.length_cons, List.append_assoc, List.map_cons]
    unfold decItems
    simp only [decTunnel_encTunnel, ih]

theorem decConfig_encConfig (c : Config) : decConfig (encConfig c) = some c.persisted := by
  unfold encConfig decConfig
  simp only [ne_eq, not_true_eq_false, if_false, List.append_assoc, decInt_encInt,
    decList_encList encJumper decJumper decJumper_encJumper]
  have ht : decList decTunnel (encList encTunnel c.Tunnels)
      = some (c.Tunnels.map Tunnel.persisted, []) := by
    unfold encList decList
    rw [decNat_encNat]
    have := decItems_encTunnel c.Tunnels []
    simpa using this
  rw [ht]
  rfl

theorem dropWhile_ne_nil {α : Type} (p : α → Bool) (l : List α) (x : α) (hx : x ∈ l)
    (hp : p x = false) : l.dropWhile p ≠ [] := by
  induction l with
  | nil => simp at hx
  | cons y ys ih =>
    by_cases hy : p y = true
    · rw [List.dropWhile_cons_of_pos hy]
      rcases List.mem_cons.mp hx with h | h
      · rw [h] at hp
        rw [hp] at hy
        exact absurd hy (by simp)
      · exact ih h
    · rw [List.dropWhile_cons_of_neg hy]
      simp

theorem trimSpace_not_blank (ch : Char) (l : List Char) (hch : isSpace ch = false) :
    (trimSpace (String.mk (ch :: l))).utf8ByteSize ≠ 0 := by
  unfold trimSpace
  simp only
  rw [List.dropWhile_cons_of_neg (by simp [hch])]
  have h1 : ((ch :: l).reverse.dropWhile isSpace) ≠ [] :=
    dropWhile_ne_nil isSpace _ ch (by simp) hch
  rcases hd : ((ch :: l).reverse.dropWhile isSpace).reverse with _ | ⟨c, cs⟩
  · exact absurd (List.reverse_eq_nil_iff.mp hd) h1
  · simp only [String.utf8ByteSize_mk, String.utf8Len_cons]
    have := Char.utf8Size_pos c
    omega

theorem referenceCodec_faithful : referenceCodec.Faithful := by
  intro cfg
  refine ⟨String.mk (encConfig cfg), rfl, ?_, ?_⟩
  · unfold encConfig
    exact trimSpace_not_blank 'v' _ (by decide)
  · show (match decConfig (encConfig cfg) with
      | some c => Except.ok c
      | none => Except.error "malformed reference text") = Except.ok cfg.persisted
    rw [decConfig_encConfig]


/-! ## Theorems: the store over a faithful codec -/

theorem Config.persisted_Normalize (c : Config) :
    c.persisted.Normalize = c.Normalize.persisted := by
  unfold Config.persisted Config.Normalize Tunnel.persisted
  simp only [List.map_map, Config.mk.injEq, true_and]
  apply List.map_congr_left
  intro t _
  rfl

theorem Config.persisted_persisted (c : Config) : c.persisted.persisted = c.persisted := by
  unfold Config.persisted Tunnel.persisted
  simp only [List.map_map, Config.mk.injEq, true_and]
  apply List.map_congr_left
  intro t _
  rfl

theorem Storage.loadLocked_default (codec : TomlCodec) (r : Storage) :
    (match r.saveLocked codec DefaultConfig with
      | (some err, r1, _) => ((Except.error err : Except String Config), r1)
      | (none, r1, cfg) => (Except.ok cfg, r1))
      = (.ok DefaultConfig, { file := some (encodeConfigTOML codec DefaultConfig).1 }) := by
  rw [Storage.saveLocked_eq]
  rfl

/-- Loading what `saveLocked` wrote for `cfg` gives `cfg` normalized, up to the
fields without a TOML key, and does not touch the file. -/
theorem Storage.loadLocked_saved (codec : TomlCodec) (hf : codec.Faithful) (cfg : Config) :
    Storage.loadLocked codec { file := some (encodeConfigTOML codec cfg).1 }
      = (.ok cfg.Normalize.persisted, { file := some (encodeConfigTOML codec cfg).1 }) := by
  obtain ⟨text, henc, hblank, hdec⟩ := hf cfg.Normalize
  have htext : (encodeConfigTOML codec cfg).1 = text := by
    unfold encodeConfigTOML
    simp only [henc]
  rw [htext]
  unfold Storage.loadLocked
  simp only [hblank, if_false, parseConfigTOML, hdec, Config.persisted_Normalize,
    Config.Normalize_idempotent]

theorem Storage.loadLocked_stable (codec : TomlCodec) (hf : codec.Faithful) (r r1 : Storage)
    (cfg : Config) (h : r.loadLocked codec = (.ok cfg, r1)) :
    r1.loadLocked codec = (.ok cfg, r1) := by
  have hdef : DefaultConfig.Normalize.persisted = DefaultConfig := by decide
  unfold Storage.loadLocked at h
  rcases hfile : r.file with _ | data
  · rw [hfile] at h
    simp only [Storage.loadLocked_default, Prod.mk.injEq, Except.ok.injEq] at h
    rw [← h.1, ← h.2, Storage.loadLocked_saved codec hf, hdef]
  · rw [hfile] at h
    simp only at h
    by_cases hblank : (trimSpace data).utf8ByteSize = 0
    · rw [if_pos hblank] at h
      simp only [Storage.loadLocked_default, Prod.mk.injEq, Except.ok.injEq] at h
      rw [← h.1, ← h.2, Storage.loadLocked_saved codec hf, hdef]
    · rw [if_neg hblank] at h
      cases hp : parseConfigTOML codec data with
      | error err => rw [hp] at h; simp at h
      | ok c =>
        rw [hp] at h
        simp only [Prod.mk.injEq, Except.ok.injEq] at h
        rw [← h.2]
        unfold Storage.loadLocked
        simp only [hfile, hblank, if_false, hp, h.1]

theorem Storage.Load_ok (codec : TomlCodec) (r : Storage) (C : Config)
    (h : (r.Load codec).1 = .ok C) :
    r.loadLocked codec = (.ok C, (r.loadLocked codec).2) := by
  unfold Storage.Load at h
  rcases hl : r.loadLocked codec with ⟨res, r1⟩
  rw [hl] at h
  cases res with
  | error err => simp at h
  | ok cfg =>
    simp only [Config.Clone_eq, Except.ok.injEq] at h
    rw [h]

theorem Storage.Load_of_loadLocked (codec : TomlCodec) (r r1 : Storage) (C : Config)
    (h : r.loadLocked codec = (.ok C, r1)) : r.Load codec = (.ok C, r1) := by
  unfold Storage.Load
  rw [h]
  simp only [Config.Clone_eq]

/-- A failing `Storage.Update` leaves the persisted config as it was. -/
theorem Storage.Update_error_Load {α : Type} (codec : TomlCodec) (hf : codec.Faithful)
    (r : Storage) (C : Config) (hC : (r.Load codec).1 = .ok C)
    (mutator : Config → Except String (Config × α)) (err : String)
    (herr : (r.Update codec mutator).1 = .error err) :
    ((r.Update codec mutator).2.Load codec).1 = .ok C ∧
    (r.Update codec mutator).2 = (r.loadLocked codec).2 := by
  have hl := Storage.Load_ok codec r C hC
  have hst := Storage.loadLocked_stable codec hf r _ C hl
  rw [Storage.Update_eq] at herr ⊢
  rw [hl] at herr ⊢
  simp only at herr ⊢
  cases hm : mutator C with
  | error e =>
    simp only [hm]
    exact ⟨by rw [Storage.Load_of_loadLocked codec _ _ C hst], trivial⟩
  | ok pair =>
    rw [hm] at herr
    simp at herr

/-- A successful `Storage.Update`: the mutator succeeded on the persisted
config, and the persisted config afterwards is its normalized result. -/
theorem Storage.Update_ok_Load {α : Type} (codec : TomlCodec) (hf : codec.Faithful)
    (r : Storage) (C : Config) (hC : (r.Load codec).1 = .ok C)
    (mutator : Config → Except String (Config × α)) (c1 : Config) (a : α)
    (hok : (r.Update codec mutator).1 = .ok (c1, a)) :
    ∃ cfg1 : Config, mutator C = .ok (cfg1, a) ∧ c1 = cfg1.Normalize ∧
      (r.Update codec mutator).2.Load codec
        = (.ok cfg1.Normalize.persisted, (r.Update codec mutator).2) := by
  have hl := Storage.Load_ok codec r C hC
  rw [Storage.Update_eq] at hok ⊢
  rw [hl] at hok ⊢
  simp only at hok ⊢
  cases hm : mutator C with
  | error e =>
    rw [hm] at hok
    simp at hok
  | ok pair =>
    obtain ⟨cfg1, a1⟩ := pair
    rw [hm] at hok
    simp only [Except.ok.injEq, Prod.mk.injEq] at hok
    refine ⟨cfg1, by rw [hok.2], hok.1.symm, ?_⟩
    simp only
    exact Storage.Load_of_loadLocked codec _ _ _ (Storage.loadLocked_saved codec hf cfg1)


/-! ## Theorems: failed CRUD calls -/

theorem TunnelBiz.stopRuntime_eq (b : TunnelBiz) (id : Int) :
    (b.stopRuntime id).1 = none ∧ (b.stopRuntime id).2.storage = b.storage := by
  unfold TunnelBiz.stopRuntime
  cases b.runs.lookup id <;> exact ⟨rfl, rfl⟩

/-- C15: when the persisted config is `C` and a jumper or tunnel `Create`,
`Update` or `Delete` returns an error, the persisted config after the call is
still `C`; and a `Storage.Update` whose mutator fails leaves the storage as its
load left it (nothing is saved). -/
theorem crud_error_keeps_config (codec : TomlCodec) (hf : codec.Faithful) (r : Storage)
    (C : Config) (hC : (r.Load codec).1 = .ok C) :
    (∀ (p : JumperPayload) (err : String), (JumperBiz.Create codec r p).1 = .error err →
      ((JumperBiz.Create codec r p).2.Load codec).1 = .ok C) ∧
    (∀ (id : Int) (p : JumperPayload) (err : String),
      (JumperBiz.Update codec r id p).1 = .error err →
      ((JumperBiz.Update codec r id p).2.Load codec).1 = .ok C) ∧
    (∀ (id : Int) (err : String), (JumperBiz.Delete codec r id).1 = some err →
      ((JumperBiz.Delete codec r id).2.Load codec).1 = .ok C) ∧
    (∀ (runs : List (Int × Nat)) (p : TunnelPayload) (err : String),
      (TunnelBiz.Create codec { storage := r, runs := runs } p).1 = .error err →
      ((TunnelBiz.Create codec { storage := r, runs := runs } p).2.storage.Load codec).1
        = .ok C) ∧
    (∀ (runs : List (Int × Nat)) (id : Int) (p : TunnelPayload) (err : String),
      (TunnelBiz.Update codec { storage := r, runs := runs } id p).1 = .error err →
      ((TunnelBiz.Update codec { storage := r, runs := runs } id p).2.storage.Load codec).1
        = .ok C) ∧
    (∀ (runs : List (Int × Nat)) (id : Int) (err : String),
      (TunnelBiz.Delete codec { storage := r, runs := runs } id).1 = some err →
      ((TunnelBiz.Delete codec { storage := r, runs := runs } id).2.storage.Load codec).1
        = .ok C) ∧
    (∀ (α : Type) (mutator : Config → Except String (Config × α)) (err : String),
      (r.Update codec mutator).1 = .error err →
      (r.Update codec mutator).2 = (r.loadLocked codec).2) := by
  have key : ∀ (α : Type) (mutator : Config → Except String (Config × α)) (res : Except String (Config × α))
      (r1 : Storage), r.Update codec mutator = (res, r1) →
      (∀ v, res ≠ .ok v) → (r1.Load codec).1 = .ok C := by
    intro α mutator res r1 hu hne
    cases res with
    | ok v => exact absurd rfl (hne v)
    | error e =>
      have := (Storage.Update_error_Load codec hf r C hC mutator e (by rw [hu])).1
      rw [hu] at this
      exact this
  refine ⟨?_, ?_, ?_, ?_, ?_, ?_, ?_⟩
  · intro p err h
    unfold JumperBiz.Create at h ⊢
    simp only at h ⊢
    cases hv : validateJumperPayload (normalizeJumperPayload p) with
    | some e => simp only [hv]; exact hC
    | none =>
      simp only [hv] at h ⊢
      generalize hu : r.Update codec (jumperCreateMutator (normalizeJumperPayload p)) = u at h ⊢
      obtain ⟨res, r1⟩ := u
      cases res with
      | error e => exact key _ _ _ r1 hu (fun v hv => by cases hv)
      | ok v => simp at h
  · intro id p err h
    unfold JumperBiz.Update at h ⊢
    by_cases hid : id ≤ 0
    · simp only [hid, if_true]; exact hC
    · simp only [hid, if_false] at h ⊢
      cases hv : validateJumperPayload (normalizeJumperPayload p) with
      | some e => simp only [hv]; exact hC
      | none =>
        simp only [hv] at h ⊢
        generalize hu : r.Update codec (jumperUpdateMutator id (normalizeJumperPayload p)) = u
          at h ⊢
        obtain ⟨res, r1⟩ := u
        cases res with
        | error e => exact key _ _ _ r1 hu (fun v hv => by cases hv)
        | ok v => simp at h
  · intro id err h
    unfold JumperBiz.Delete at h ⊢
    by_cases hid : id ≤ 0
    · simp only [hid, if_true]; exact hC
    · simp only [hid, if_false] at h ⊢
      generalize hu : r.Update codec (jumperDeleteMutator id) = u at h ⊢
      obtain ⟨res, r1⟩ := u
      cases res with
      | error e => exact key _ _ _ r1 hu (fun v hv => by cases hv)
      | ok v => simp at h
  · intro runs p err h
    unfold TunnelBiz.Create at h ⊢
    simp only at h ⊢
    generalize hu : r.Update codec (tunnelCreateMutator (normalizeTunnelPayload p)) = u at h ⊢
    obtain ⟨res, r1⟩ := u
    cases res with
    | error e => exact key _ _ _ r1 hu (fun v hv => by cases hv)
    | ok v => simp at h
  · intro runs id p err h
    unfold TunnelBiz.Update at h ⊢
    by_cases hid : id ≤ 0
    · simp only [hid, if_true]; exact hC
    · simp only [hid, if_false] at h ⊢
      by_cases hrun : TunnelBiz.isRunning { storage := r, runs := runs } id = true
      · simp only [hrun, if_true]; exact hC
      · simp only [hrun] at h ⊢
        generalize hu : r.Update codec (tunnelUpdateMutator id (normalizeTunnelPayload p)) = u
          at h ⊢
        obtain ⟨res, r1⟩ := u
        cases res with
        | error e => exact key _ _ _ r1 hu (fun v hv => by cases hv)
        | ok v => simp at h
  · intro runs id err h
    unfold TunnelBiz.Delete at h ⊢
    by_cases hid : id ≤ 0
    · simp only [hid, if_true]; exact hC
    · simp only [hid, if_false] at h ⊢
      obtain ⟨hs1, hs2⟩ := TunnelBiz.stopRuntime_eq { storage := r, runs := runs } id
      generalize TunnelBiz.stopRuntime { storage := r, runs := runs } id = sr at h hs1 hs2 ⊢
      obtain ⟨e0, b1⟩ := sr
      simp only at hs1 hs2
      subst hs1
      simp only [hs2] at h ⊢
      generalize hu : r.Update codec (tunnelDeleteMutator id) = u at h ⊢
      obtain ⟨res, r1⟩ := u
      cases res with
      | error e => exact key _ _ _ r1 hu (fun v hv => by cases hv)
      | ok v => simp at h
  · intro α mutator err h
    exact (Storage.Update_error_Load codec hf r C hC mutator err h).2


set_option maxRecDepth 100000

/-- Witness for C15: deleting jumper 1 of `smallConfig`, which tunnel 1 uses,
fails, and the persisted config is still `smallConfig`. -/
theorem crud_error_keeps_config_witness :
    (JumperBiz.Delete referenceCodec smallStorage 1).1 = some ErrJumperInUse ∧
    ((JumperBiz.Delete referenceCodec smallStorage 1).2.Load referenceCodec).1
      = .ok smallConfig :=
  ⟨by decide,
    (crud_error_keeps_config referenceCodec referenceCodec_faithful smallStorage smallConfig
      (by decide)).2.2.1 1 ErrJumperInUse (by decide)⟩


/-! ## Theorems: list facts used by the mutators -/

theorem findIdx?_some_getElem? {α : Type} (l : List α) (p : α → Bool) (idx : Nat)
    (h : l.findIdx? p = some idx) : ∃ a, l[idx]? = some a ∧ p a = true := by
  obtain ⟨hlt, hp, _⟩ := List.findIdx?_eq_some_iff_getElem.mp h
  exact ⟨l[idx], List.getElem?_eq_getElem hlt, hp⟩

theorem set_map_eq_of_getElem? {α β : Type} (l : List α) (f : α → β) (idx : Nat) (a x : α)
    (ha : l[idx]? = some a) (hf : f a = f x) : (l.set idx x).map f = l.map f := by
  apply List.ext_getElem?
  intro i
  simp only [List.getElem?_map, List.getElem?_set]
  by_cases hi : idx = i
  · subst hi
    have hlt : idx < l.length := by
      by_contra hge
      rw [List.getElem?_eq_none (by omega)] at ha
      exact absurd ha (by simp)
    simp [hlt, ha, hf]
  · simp [hi]

theorem mem_take_append_drop {α : Type} (l : List α) (idx : Nat) (a b : α)
    (hb : b ∈ l) (ha : l[idx]? = some a) (hne : b ≠ a) :
    b ∈ l.take idx ++ l.drop (idx + 1) := by
  rw [← List.eraseIdx_eq_take_drop_succ, List.mem_eraseIdx_iff_getElem?]
  obtain ⟨i, hi⟩ := List.mem_iff_getElem?.mp hb
  refine ⟨i, ?_, hi⟩
  intro hidx
  rw [hidx, ha] at hi
  exact hne (Option.some.inj hi).symm

theorem mem_of_mem_take_append_drop {α : Type} (l : List α) (idx : Nat) (b : α)
    (hb : b ∈ l.take idx ++ l.drop (idx + 1)) : b ∈ l := by
  rw [← List.eraseIdx_eq_take_drop_succ] at hb
  exact (List.eraseIdx_sublist l idx).subset hb

theorem collectJumpersLoop_ok (items : List Jumper) (ids : List Int)
    (collected result : List Jumper)
    (h : collectJumpersLoop items ids collected = .ok result) :
    ∀ id ∈ ids, ∃ j ∈ items, j.ID = id := by
  induction ids generalizing collected with
  | nil => simp
  | cons x rest ih =>
    unfold collectJumpersLoop at h
    cases hfind : findJumperByID items x with
    | none => rw [hfind] at h; simp at h
    | some item =>
      rw [hfind] at h
      simp only at h
      intro id hid
      rcases List.mem_cons.mp hid with hx | hx
      · rw [hx]
        unfold findJumperByID at hfind
        exact ⟨item, List.mem_of_find?_eq_some hfind, by simpa using List.find?_some hfind⟩
      · exact ih _ h id hx

theorem collectJumpers_ok (items : List Jumper) (ids : List Int) (result : List Jumper)
    (h : collectJumpers items ids = .ok result) : ∀ id ∈ ids, ∃ j ∈ items, j.ID = id := by
  unfold collectJumpers at h
  split_ifs at h
  exact collectJumpersLoop_ok items ids [] result h

/-! ## Theorems: referential integrity -/

theorem Config.ReferencesResolve_saved (c : Config) (h : c.ReferencesResolve) :
    c.Normalize.persisted.ReferencesResolve := by
  intro t ht id hid
  simp only [Config.persisted, Config.Normalize, List.map_map, List.mem_map,
    Function.comp] at ht
  obtain ⟨t0, ht0, rfl⟩ := ht
  simp only [Tunnel.persisted] at hid
  have hid0 : id ∈ t0.JumperIDs := by
    rw [normalizeJumperIDs_eq] at hid
    exact ((mem_firstPositiveOccurrencesFrom [] _ id).mp hid).1
  exact h t0 ht0 id hid0

theorem jumperCreateMutator_resolves (p : JumperPayload) (C cfg1 : Config) (a : Jumper)
    (h : C.ReferencesResolve) (hm : jumperCreateMutator p C = .ok (cfg1, a)) :
    cfg1.ReferencesResolve := by
  simp only [jumperCreateMutator, Except.ok.injEq, Prod.mk.injEq] at hm
  rw [← hm.1]
  intro t ht id hid
  obtain ⟨j, hj, hjid⟩ := h t ht id hid
  exact ⟨j, List.mem_append_left _ hj, hjid⟩

theorem jumperUpdateMutator_resolves (id0 : Int) (p : JumperPayload) (C cfg1 : Config)
    (a : Jumper) (h : C.ReferencesResolve) (hm : jumperUpdateMutator id0 p C = .ok (cfg1, a)) :
    cfg1.ReferencesResolve := by
  unfold jumperUpdateMutator at hm
  cases hidx : jumperIndex C.Jumpers id0 with
  | none => rw [hidx] at hm; simp at hm
  | some idx =>
    rw [hidx] at hm
    simp only [Except.ok.injEq, Prod.mk.injEq] at hm
    rw [← hm.1]
    obtain ⟨old, hold, hp⟩ := findIdx?_some_getElem? _ _ _ hidx
    have hids : (C.Jumpers.set idx (jumperFromPayload id0 p)).map (fun j => j.ID)
        = C.Jumpers.map (fun j => j.ID) :=
      set_map_eq_of_getElem? _ _ idx old _ hold (by simpa [jumperFromPayload] using hp)
    intro t ht id hid
    obtain ⟨j, hj, hjid⟩ := h t ht id hid
    have hmem : id ∈ (C.Jumpers.set idx (jumperFromPayload id0 p)).map (fun j => j.ID) := by
      rw [hids]
      exact List.mem_map.mpr ⟨j, hj, hjid⟩
    obtain ⟨j2, hj2, hj2id⟩ := List.mem_map.mp hmem
    exact ⟨j2, hj2, hj2id⟩

theorem jumperDeleteMutator_resolves (id0 : Int) (C cfg1 : Config) (a : Unit)
    (h : C.ReferencesResolve) (hm : jumperDeleteMutator id0 C = .ok (cfg1, a)) :
    cfg1.ReferencesResolve := by
  unfold jumperDeleteMutator at hm
  by_cases huse : C.Tunnels.any (fun tunnel => tunnel.JumperIDs.any (fun jid => jid = id0))
      = true
  · rw [if_pos huse] at hm; simp at hm
  · rw [if_neg huse] at hm
    cases hidx : jumperIndex C.Jumpers id0 with
    | none => rw [hidx] at hm; simp at hm
    | some idx =>
      rw [hidx] at hm
      simp only [Except.ok.injEq, Prod.mk.injEq] at hm
      rw [← hm.1]
      obtain ⟨old, hold, hp⟩ := findIdx?_some_getElem? _ _ _ hidx
      have hold_id : old.ID = id0 := by simpa using hp
      intro t ht id hid
      obtain ⟨j, hj, hjid⟩ := h t ht id hid
      have hne : id ≠ id0 := by
        intro he
        apply huse
        rw [List.any_eq_true]
        refine ⟨t, ht, ?_⟩
        rw [List.any_eq_true]
        exact ⟨id, hid, by simp [he]⟩
      refine ⟨j, mem_take_append_drop _ idx old j hj hold ?_, hjid⟩
      intro hjo
      rw [hjo, hold_id] at hjid
      exact hne hjid.symm

theorem tunnelCreateMutator_resolves (p : TunnelPayload) (C cfg1 : Config) (a : Tunnel)
    (h : C.ReferencesResolve) (hm : tunnelCreateMutator p C = .ok (cfg1, a)) :
    cfg1.ReferencesResolve := by
  unfold tunnelCreateMutator at hm
  cases hv : validateTunnelPayload p with
  | some err => rw [hv] at hm; simp at hm
  | none =>
    rw [hv] at hm
    simp only at hm
    cases hc : collectJumpers C.Jumpers p.JumperIDs with
    | error err => rw [hc] at hm; simp at hm
    | ok js =>
      rw [hc] at hm
      simp only [Except.ok.injEq, Prod.mk.injEq] at hm
      rw [← hm.1]
      intro t ht id hid
      rcases List.mem_append.mp ht with ht1 | ht1
      · exact h t ht1 id hid
      · have : t = a := by rw [← hm.2]; simpa using ht1
        rw [this, ← hm.2] at hid
        exact collectJumpers_ok _ _ _ hc id (by simpa using hid)

theorem tunnelUpdateMutator_resolves (id0 : Int) (p : TunnelPayload) (C cfg1 : Config)
    (a : Tunnel) (h : C.ReferencesResolve) (hm : tunnelUpdateMutator id0 p C = .ok (cfg1, a)) :
    cfg1.ReferencesResolve := by
  unfold tunnelUpdateMutator at hm
  cases hv : validateTunnelPayload p with
  | some err => rw [hv] at hm; simp at hm
  | none =>
    rw [hv] at hm
    simp only at hm
    cases hc : collectJumpers C.Jumpers p.JumperIDs with
    | error err => rw [hc] at hm; simp at hm
    | ok js =>
      rw [hc] at hm
      simp only at hm
      cases hidx : tunnelIndex C.Tunnels id0 with
      | none => rw [hidx] at hm; simp at hm
      | some idx =>
        rw [hidx] at hm
        simp only [Except.ok.injEq, Prod.mk.injEq] at hm
        rw [← hm.1]
        intro t ht id hid
        rcases List.mem_or_eq_of_mem_set ht with ht1 | ht1
        · exact h t ht1 id hid
        · rw [ht1] at hid
          exact collectJumpers_ok _ _ _ hc id (by simpa using hid)

theorem tunnelDeleteMutator_resolves (id0 : Int) (C cfg1 : Config) (a : Unit)
    (h : C.ReferencesResolve) (hm : tunnelDeleteMutator id0 C = .ok (cfg1, a)) :
    cfg1.ReferencesResolve := by
  unfold tunnelDeleteMutator at hm
  cases hidx : tunnelIndex C.Tunnels id0 with
  | none => rw [hidx] at hm; simp at hm
  | some idx =>
    rw [hidx] at hm
    simp only [Except.ok.injEq, Prod.mk.injEq] at hm
    rw [← hm.1]
    intro t ht id hid
    exact h t (mem_of_mem_take_append_drop _ idx t ht) id hid

theorem tunnelStatusMutator_resolves (id0 : Int) (status lastError : String)
    (C cfg1 : Config) (a : Tunnel) (h : C.ReferencesResolve)
    (hm : tunnelStatusMutator id0 status lastError C = .ok (cfg1, a)) :
    cfg1.ReferencesResolve := by
  unfold tunnelStatusMutator at hm
  cases hidx : tunnelIndex C.Tunnels id0 with
  | none => rw [hidx] at hm; simp at hm
  | some idx =>
    rw [hidx] at hm
    simp only [Except.ok.injEq, Prod.mk.injEq] at hm
    rw [← hm.1]
    obtain ⟨old, hold, _⟩ := findIdx?_some_getElem? _ _ _ hidx
    have hget : (C.Tunnels.get? idx).getD Tunnel.zero = old := by
      rw [List.get?_eq_getElem?, hold]
      rfl
    intro t ht id hid
    rcases List.mem_or_eq_of_mem_set ht with ht1 | ht1
    · exact h t ht1 id hid
    · rw [ht1, hget] at hid
      exact h old (List.mem_iff_getElem?.mpr ⟨idx, hold⟩) id hid


/-- C16: when the persisted config `C` has referential integrity (every ID in
every tunnel's `JumperIDs` is the ID of a jumper of `C`), so has the config
persisted by every successful jumper `Create`, `Update`, `Delete`, tunnel
`Create`, `Update`, `Delete` and status update. -/
theorem referential_integrity_preserved (codec : TomlCodec) (hf : codec.Faithful)
    (r : Storage) (C : Config) (hC : (r.Load codec).1 = .ok C) (hint : C.ReferencesResolve) :
    (∀ (p : JumperPayload) (j : Jumper) (C1 : Config),
      (JumperBiz.Create codec r p).1 = .ok j →
      ((JumperBiz.Create codec r p).2.Load codec).1 = .ok C1 → C1.ReferencesResolve) ∧
    (∀ (id : Int) (p : JumperPayload) (j : Jumper) (C1 : Config),
      (JumperBiz.Update codec r id p).1 = .ok j →
      ((JumperBiz.Update codec r id p).2.Load codec).1 = .ok C1 → C1.ReferencesResolve) ∧
    (∀ (id : Int) (C1 : Config),
      (JumperBiz.Delete codec r id).1 = none →
      ((JumperBiz.Delete codec r id).2.Load codec).1 = .ok C1 → C1.ReferencesResolve) ∧
    (∀ (runs : List (Int × Nat)) (p : TunnelPayload) (t : Tunnel) (C1 : Config),
      (TunnelBiz.Create codec { storage := r, runs := runs } p).1 = .ok t →
      ((TunnelBiz.Create codec { storage := r, runs := runs } p).2.storage.Load codec).1
        = .ok C1 → C1.ReferencesResolve) ∧
    (∀ (runs : List (Int × Nat)) (id : Int) (p : TunnelPayload) (t : Tunnel) (C1 : Config),
      (TunnelBiz.Update codec { storage := r, runs := runs } id p).1 = .ok t →
      ((TunnelBiz.Update codec { storage := r, runs := runs } id p).2.storage.Load codec).1
        = .ok C1 → C1.ReferencesResolve) ∧
    (∀ (runs : List (Int × Nat)) (id : Int) (C1 : Config),
      (TunnelBiz.Delete codec { storage := r, runs := runs } id).1 = none →
      ((TunnelBiz.Delete codec { storage := r, runs := runs } id).2.storage.Load codec).1
        = .ok C1 → C1.ReferencesResolve) ∧
    (∀ (runs : List (Int × Nat)) (id : Int) (status lastError : String) (t : Tunnel)
      (C1 : Config),
      (TunnelBiz.updateStatus codec { storage := r, runs := runs } id status lastError).1
        = .ok t →
      ((TunnelBiz.updateStatus codec { storage := r, runs := runs } id status
        lastError).2.storage.Load codec).1 = .ok C1 → C1.ReferencesResolve) := by
  have key : ∀ (α : Type) (mutator : Config → Except String (Config × α)) (v : Config × α)
      (r1 : Storage), r.Update codec mutator = (.ok v, r1) →
      (∀ cfg1 a, mutator C = .ok (cfg1, a) → cfg1.ReferencesResolve) →
      ∀ C1, (r1.Load codec).1 = .ok C1 → C1.ReferencesResolve := by
    intro α mutator v r1 hu hmut C1 hC1
    obtain ⟨cfg1, hm, _, hload⟩ :=
      Storage.Update_ok_Load codec hf r C hC mutator v.1 v.2 (by rw [hu])
    rw [hu] at hload
    simp only at hload
    rw [hload] at hC1
    simp only [Except.ok.injEq] at hC1
    rw [← hC1]
    exact Config.ReferencesResolve_saved cfg1 (hmut cfg1 v.2 hm)
  refine ⟨?_, ?_, ?_, ?_, ?_, ?_, ?_⟩
  · intro p j C1 h
    unfold JumperBiz.Create at h ⊢
    simp only at h ⊢
    cases hv : validateJumperPayload (normalizeJumperPayload p) with
    | some e => simp [hv] at h
    | none =>
      simp only [hv] at h ⊢
      generalize hu : r.Update codec (jumperCreateMutator (normalizeJumperPayload p)) = u at h ⊢
      obtain ⟨res, r1⟩ := u
      cases res with
      | error e => simp at h
      | ok v =>
        exact key _ _ v r1 hu
          (fun cfg1 a hm => jumperCreateMutator_resolves _ C cfg1 a hint hm) C1
  · intro id p j C1 h
    unfold JumperBiz.Update at h ⊢
    by_cases hid : id ≤ 0
    · simp [hid] at h
    · simp only [hid, if_false] at h ⊢
      cases hv : validateJumperPayload (normalizeJumperPayload p) with
      | some e => simp [hv] at h
      | none =>
        simp only [hv] at h ⊢
        generalize hu : r.Update codec (jumperUpdateMutator id (normalizeJumperPayload p)) = u
          at h ⊢
        obtain ⟨res, r1⟩ := u
        cases res with
        | error e => simp at h
        | ok v =>
          exact key _ _ v r1 hu
            (fun cfg1 a hm => jumperUpdateMutator_resolves id _ C cfg1 a hint hm) C1
  · intro id C1 h
    unfold JumperBiz.Delete at h ⊢
    by_cases hid : id ≤ 0
    · simp [hid] at h
    · simp only [hid, if_false] at h ⊢
      generalize hu : r.Update codec (jumperDeleteMutator id) = u at h ⊢
      obtain ⟨res, r1⟩ := u
      cases res with
      | error e => simp at h
      | ok v =>
        exact key _ _ v r1 hu
          (fun cfg1 a hm => jumperDeleteMutator_resolves id C cfg1 a hint hm) C1
  · intro runs p t C1 h
    unfold TunnelBiz.Create at h ⊢
    simp only at h ⊢
    generalize hu : r.Update codec (tunnelCreateMutator (normalizeTunnelPayload p)) = u at h ⊢
    obtain ⟨res, r1⟩ := u
    cases res with
    | error e => simp at h
    | ok v =>
      exact key _ _ v r1 hu
        (fun cfg1 a hm => tunnelCreateMutator_resolves _ C cfg1 a hint hm) C1
  · intro runs id p t C1 h
    unfold TunnelBiz.Update at h ⊢
    by_cases hid : id ≤ 0
    · simp [hid] at h
    · simp only [hid, if_false] at h ⊢
      by_cases hrun : TunnelBiz.isRunning { storage := r, runs := runs } id = true
      · simp [hrun] at h
      · simp only [hrun] at h ⊢
        generalize hu : r.Update codec (tunnelUpdateMutator id (normalizeTunnelPayload p)) = u
          at h ⊢
        obtain ⟨res, r1⟩ := u
        cases res with
        | error e => simp at h
        | ok v =>
          exact key _ _ v r1 hu
            (fun cfg1 a hm => tunnelUpdateMutator_resolves id _ C cfg1 a hint hm) C1
  · intro runs id C1 h
    unfold TunnelBiz.Delete at h ⊢
    by_cases hid : id ≤ 0
    · simp [hid] at h
    · simp only [hid, if_false] at h ⊢
      obtain ⟨hs1, hs2⟩ := TunnelBiz.stopRuntime_eq { storage := r, runs := runs } id
      generalize TunnelBiz.stopRuntime { storage := r, runs := runs } id = sr at h hs1 hs2 ⊢
      obtain ⟨e0, b1⟩ := sr
      simp only at hs1 hs2
      subst hs1
      simp only [hs2] at h ⊢
      generalize hu : r.Update codec (tunnelDeleteMutator id) = u at h ⊢
      obtain ⟨res, r1⟩ := u
      cases res with
      | error e => simp at h
      | ok v =>
        exact key _ _ v r1 hu
          (fun cfg1 a hm => tunnelDeleteMutator_resolves id C cfg1 a hint hm) C1
  · intro runs id status lastError t C1 h
    unfold TunnelBiz.updateStatus at h ⊢
    simp only at h ⊢
    generalize hu : r.Update codec (tunnelStatusMutator id status lastError) = u at h ⊢
    obtain ⟨res, r1⟩ := u
    cases res with
    | error e => simp at h
    | ok v =>
      exact key _ _ v r1 hu
        (fun cfg1 a hm => tunnelStatusMutator_resolves id status lastError C cfg1 a hint hm) C1

/-- Witness for C16: deleting tunnel 1 of `smallConfig` succeeds and the
persisted config, `smallConfig` without its tunnel, has referential
integrity. -/
theorem referential_integrity_preserved_witness :
    (TunnelBiz.Delete referenceCodec { storage := smallStorage, runs := [] } 1).1 = none ∧
    Config.ReferencesResolve { smallConfig with Tunnels := [] } :=
  ⟨by decide,
    (referential_integrity_preserved referenceCodec referenceCodec_faithful smallStorage
      smallConfig (by decide) (by unfold Config.ReferencesResolve; decide)).2.2.2.2.2.1
      [] 1 { smallConfig with Tunnels := [] } (by decide) (by decide)⟩


/-! ## Theorems: ID uniqueness -/

theorem idsUnique_append_next (ids : List Int) (h : idsUnique ids)
    (hmax : ∀ id ∈ ids, id < maxInt64) :
    idsUnique (ids ++ [ids.foldl nextIDStep 1]) ∧ ids.foldl nextIDStep 1 ∉ ids := by
  obtain ⟨h1, h2, _⟩ := foldl_nextIDStep ids 1 (le_refl 1) hmax
  have hnot : ids.foldl nextIDStep 1 ∉ ids := by
    intro hmem
    have := h2 _ hmem
    omega
  refine ⟨⟨?_, ?_⟩, hnot⟩
  · rw [List.nodup_append]
    refine ⟨h.1, by simp, ?_⟩
    intro a ha hb
    have : a = ids.foldl nextIDStep 1 := by simpa using hb
    rw [this] at ha
    exact hnot ha
  · intro id hid
    rcases List.mem_append.mp hid with hx | hx
    · exact h.2 id hx
    · have : id = ids.foldl nextIDStep 1 := by simpa using hx
      rw [this]
      exact h1

theorem idsUnique_take_append_drop {α : Type} (l : List α) (f : α → Int) (idx : Nat)
    (h : idsUnique (l.map f)) : idsUnique ((l.take idx ++ l.drop (idx + 1)).map f) := by
  rw [← List.eraseIdx_eq_take_drop_succ]
  have hsub : List.Sublist ((l.eraseIdx idx).map f) (l.map f) :=
    (List.eraseIdx_sublist l idx).map f
  exact ⟨hsub.nodup h.1, fun id hid => h.2 id (hsub.subset hid)⟩

theorem Config.saved_Jumpers (c : Config) : c.Normalize.persisted.Jumpers = c.Jumpers := rfl

theorem Config.saved_TunnelIDs (c : Config) :
    c.Normalize.persisted.Tunnels.map (fun t => t.ID) = c.Tunnels.map (fun t => t.ID) := by
  simp only [Config.persisted, Config.Normalize, List.map_map]
  apply List.map_congr_left
  intro t _
  rfl

theorem jumperCreateMutator_unique (p : JumperPayload) (C cfg1 : Config) (a : Jumper)
    (h : C.JumperIDsUnique) (hmax : ∀ j ∈ C.Jumpers, j.ID < maxInt64)
    (hm : jumperCreateMutator p C = .ok (cfg1, a)) :
    cfg1.JumperIDsUnique ∧ a.ID = nextJumperID C.Jumpers ∧ ∀ j ∈ C.Jumpers, j.ID ≠ a.ID := by
  simp only [jumperCreateMutator, Except.ok.injEq, Prod.mk.injEq] at hm
  have hids : ∀ id ∈ C.Jumpers.map (fun j => j.ID), id < maxInt64 := by
    intro id hid
    obtain ⟨j, hj, rfl⟩ := List.mem_map.mp hid
    exact hmax j hj
  obtain ⟨hu, hnot⟩ := idsUnique_append_next _ h hids
  rw [← nextJumperID_eq_foldl] at hu hnot
  rw [← hm.1, ← hm.2]
  refine ⟨?_, rfl, ?_⟩
  · unfold Config.JumperIDsUnique
    simpa [jumperFromPayload] using hu
  · intro j hj he
    apply hnot
    have : (jumperFromPayload (nextJumperID C.Jumpers) p).ID = nextJumperID C.Jumpers := rfl
    rw [this] at he
    rw [← he]
    exact List.mem_map_of_mem _ hj

theorem jumperUpdateMutator_unique (id0 : Int) (p : JumperPayload) (C cfg1 : Config)
    (a : Jumper) (h : C.JumperIDsUnique) (hm : jumperUpdateMutator id0 p C = .ok (cfg1, a)) :
    cfg1.JumperIDsUnique := by
  unfold jumperUpdateMutator at hm
  cases hidx : jumperIndex C.Jumpers id0 with
  | none => rw [hidx] at hm; simp at hm
  | some idx =>
    rw [hidx] at hm
    simp only [Except.ok.injEq, Prod.mk.injEq] at hm
    rw [← hm.1]
    obtain ⟨old, hold, hp⟩ := findIdx?_some_getElem? _ _ _ hidx
    unfold Config.JumperIDsUnique
    simp only
    rw [set_map_eq_of_getElem? _ _ idx old _ hold (by simpa [jumperFromPayload] using hp)]
    exact h

theorem jumperDeleteMutator_unique (id0 : Int) (C cfg1 : Config) (a : Unit)
    (h : C.JumperIDsUnique) (hm : jumperDeleteMutator id0 C = .ok (cfg1, a)) :
    cfg1.JumperIDsUnique := by
  unfold jumperDeleteMutator at hm
  split_ifs at hm
  cases hidx : jumperIndex C.Jumpers id0 with
  | none => rw [hidx] at hm; simp at hm
  | some idx =>
    rw [hidx] at hm
    simp only [Except.ok.injEq, Prod.mk.injEq] at hm
    rw [← hm.1]
    exact idsUnique_take_append_drop _ _ idx h

theorem tunnelCreateMutator_unique (p : TunnelPayload) (C cfg1 : Config) (a : Tunnel)
    (h : C.TunnelIDsUnique) (hmax : ∀ t ∈ C.Tunnels, t.ID < maxInt64)
    (hm : tunnelCreateMutator p C = .ok (cfg1, a)) :
    cfg1.TunnelIDsUnique ∧ a.ID = nextTunnelID C.Tunnels ∧ ∀ t ∈ C.Tunnels, t.ID ≠ a.ID := by
  unfold tunnelCreateMutator at hm
  cases hv : validateTunnelPayload p with
  | some err => rw [hv] at hm; simp at hm
  | none =>
    rw [hv] at hm
    simp only at hm
    cases hc : collectJumpers C.Jumpers p.JumperIDs with
    | error err => rw [hc] at hm; simp at hm
    | ok js =>
      rw [hc] at hm
      simp only [Except.ok.injEq, Prod.mk.injEq] at hm
      have hids : ∀ id ∈ C.Tunnels.map (fun t => t.ID), id < maxInt64 := by
        intro id hid
        obtain ⟨t, ht, rfl⟩ := List.mem_map.mp hid
        exact hmax t ht
      obtain ⟨hu, hnot⟩ := idsUnique_append_next _ h hids
      rw [← nextTunnelID_eq_foldl] at hu hnot
      rw [← hm.1, ← hm.2]
      refine ⟨?_, rfl, ?_⟩
      · unfold Config.TunnelIDsUnique
        simpa using hu
      · intro t ht he
        apply hnot
        simp only at he
        rw [← he]
        exact List.mem_map_of_mem _ ht

theorem tunnelUpdateMutator_unique (id0 : Int) (p : TunnelPayload) (C cfg1 : Config)
    (a : Tunnel) (h : C.TunnelIDsUnique) (hm : tunnelUpdateMutator id0 p C = .ok (cfg1, a)) :
    cfg1.TunnelIDsUnique := by
  unfold tunnelUpdateMutator at hm
  cases hv : validateTunnelPayload p with
  | some err => rw [hv] at hm; simp at hm
  | none =>
    rw [hv] at hm
    simp only at hm
    cases hc : collectJumpers C.Jumpers p.JumperIDs with
    | error err => rw [hc] at hm; simp at hm
    | ok js =>
      rw [hc] at hm
      simp only at hm
      cases hidx : tunnelIndex C.Tunnels id0 with
      | none => rw [hidx] at hm; simp at hm
      | some idx =>
        rw [hidx] at hm
        simp only [Except.ok.injEq, Prod.mk.injEq] at hm
        rw [← hm.1]
        obtain ⟨old, hold, hp⟩ := findIdx?_some_getElem? _ _ _ hidx
        unfold Config.TunnelIDsUnique
        simp only
        rw [set_map_eq_of_getElem? _ _ idx old _ hold (by simpa using hp)]
        exact h

theorem tunnelDeleteMutator_unique (id0 : Int) (C cfg1 : Config) (a : Unit)
    (h : C.TunnelIDsUnique) (hm : tunnelDeleteMutator id0 C = .ok (cfg1, a)) :
    cfg1.TunnelIDsUnique := by
  unfold tunnelDeleteMutator at hm
  cases hidx : tunnelIndex C.Tunnels id0 with
  | none => rw [hidx] at hm; simp at hm
  | some idx =>
    rw [hidx] at hm
    simp only [Except.ok.injEq, Prod.mk.injEq] at hm
    rw [← hm.1]
    exact idsUnique_take_append_drop _ _ idx h


/-- `JumperBiz.Create` with a valid payload on a store that serves `C`: the
jumper gets `nextJumperID C.Jumpers`, is appended, and the result is what the
store serves afterwards. -/
theorem JumperBiz.Create_valid (codec : TomlCodec) (hf : codec.Faithful) (r : Storage)
    (C : Config) (hC : (r.Load codec).1 = .ok C) (p : JumperPayload)
    (hv : validateJumperPayload (normalizeJumperPayload p) = none) :
    (JumperBiz.Create codec r p).1
      = .ok (jumperFromPayload (nextJumperID C.Jumpers) (normalizeJumperPayload p)) ∧
    ((JumperBiz.Create codec r p).2.Load codec).1
      = .ok ({ C with Jumpers := C.Jumpers ++
          [jumperFromPayload (nextJumperID C.Jumpers) (normalizeJumperPayload p)] }
          : Config).Normalize.persisted := by
  have hl := Storage.Load_ok codec r C hC
  unfold JumperBiz.Create
  simp only [hv, Storage.Update_eq]
  rw [hl]
  simp only [jumperCreateMutator]
  refine ⟨trivial, ?_⟩
  rw [Storage.Load_of_loadLocked codec _ _ _ (Storage.loadLocked_saved codec hf _)]

/-- `TunnelBiz.Create` with a valid payload whose jumpers exist, on a store
that serves `C`. -/
theorem TunnelBiz.Create_tunnel_valid (codec : TomlCodec) (hf : codec.Faithful) (r : Storage)
    (runs : List (Int × Nat)) (C : Config) (hC : (r.Load codec).1 = .ok C)
    (p : TunnelPayload) (created : Tunnel) (cfg1 : Config)
    (hm : tunnelCreateMutator (normalizeTunnelPayload p) C = .ok (cfg1, created)) :
    (TunnelBiz.Create codec { storage := r, runs := runs } p).1 = .ok created ∧
    ((TunnelBiz.Create codec { storage := r, runs := runs } p).2.storage.Load codec).1
      = .ok cfg1.Normalize.persisted := by
  have hl := Storage.Load_ok codec r C hC
  unfold TunnelBiz.Create
  simp only [Storage.Update_eq]
  rw [hl]
  simp only [hm]
  refine ⟨trivial, ?_⟩
  rw [Storage.Load_of_loadLocked codec _ _ _ (Storage.loadLocked_saved codec hf _)]

/-- C17, as stated, fails: on a config whose only jumper has the largest `int`
as its ID (distinct IDs, all ≥ 1), a successful `JumperBiz.Create` assigns the
smallest `int`, and the persisted config holds an ID below 1. -/
theorem id_uniqueness_counterexample :
    maxIDConfig.JumperIDsUnique ∧
    (maxIDStorage.Load referenceCodec).1 = .ok maxIDConfig ∧
    (JumperBiz.Create referenceCodec maxIDStorage nextPayload).1
      = .ok (jumperFromPayload (-9223372036854775808) nextPayload) ∧
    ((JumperBiz.Create referenceCodec maxIDStorage nextPayload).2.Load referenceCodec).1
      = .ok { maxIDConfig with Jumpers := maxIDConfig.Jumpers ++
          [jumperFromPayload (-9223372036854775808) nextPayload] } ∧
    ¬ Config.JumperIDsUnique { maxIDConfig with Jumpers := maxIDConfig.Jumpers ++
          [jumperFromPayload (-9223372036854775808) nextPayload] } := by
  have hload : (maxIDStorage.Load referenceCodec).1 = .ok maxIDConfig := by
    unfold maxIDStorage
    rw [Storage.Load_of_loadLocked referenceCodec _ _ _
      (Storage.loadLocked_saved referenceCodec referenceCodec_faithful maxIDConfig)]
    decide
  have hnorm : normalizeJumperPayload nextPayload = nextPayload := by decide
  have hnext : nextJumperID maxIDConfig.Jumpers = -9223372036854775808 := by decide
  obtain ⟨h1, h2⟩ := JumperBiz.Create_valid referenceCodec referenceCodec_faithful
    maxIDStorage maxIDConfig hload nextPayload (by decide)
  rw [hnorm, hnext] at h1 h2
  refine ⟨?_, hload, h1, ?_, ?_⟩
  · unfold Config.JumperIDsUnique idsUnique
    decide
  · rw [h2]
    decide
  · unfold Config.JumperIDsUnique idsUnique
    decide

/-- C17, amended: when the persisted config `C` has pairwise distinct jumper
IDs, all ≥ 1, the jumper IDs persisted by a successful `JumperBiz.Update` or
`Delete` are pairwise distinct and ≥ 1, and so are those persisted by a
successful `JumperBiz.Create` when every existing jumper ID is below the
largest `int`, the ID assigned by `Create` then differing from every existing
ID; likewise, and independently of the jumper IDs, for the tunnel IDs under
`TunnelBiz.Create`, `Update` and `Delete`. -/
theorem id_uniqueness_preserved (codec : TomlCodec) (hf : codec.Faithful)
    (r : Storage) (C : Config) (hC : (r.Load codec).1 = .ok C) :
    (C.JumperIDsUnique →
      ((∀ j ∈ C.Jumpers, j.ID < maxInt64) →
        ∀ (p : JumperPayload) (j : Jumper) (C1 : Config),
          (JumperBiz.Create codec r p).1 = .ok j →
          ((JumperBiz.Create codec r p).2.Load codec).1 = .ok C1 →
          C1.JumperIDsUnique ∧ ∀ j0 ∈ C.Jumpers, j0.ID ≠ j.ID) ∧
      (∀ (id : Int) (p : JumperPayload) (j : Jumper) (C1 : Config),
        (JumperBiz.Update codec r id p).1 = .ok j →
        ((JumperBiz.Update codec r id p).2.Load codec).1 = .ok C1 → C1.JumperIDsUnique) ∧
      (∀ (id : Int) (C1 : Config),
        (JumperBiz.Delete codec r id).1 = none →
        ((JumperBiz.Delete codec r id).2.Load codec).1 = .ok C1 → C1.JumperIDsUnique)) ∧
    (C.TunnelIDsUnique →
      ((∀ t ∈ C.Tunnels, t.ID < maxInt64) →
        ∀ (runs : List (Int × Nat)) (p : TunnelPayload) (t : Tunnel) (C1 : Config),
          (TunnelBiz.Create codec { storage := r, runs := runs } p).1 = .ok t →
          ((TunnelBiz.Create codec { storage := r, runs := runs } p).2.storage.Load codec).1
            = .ok C1 → C1.TunnelIDsUnique ∧ ∀ t0 ∈ C.Tunnels, t0.ID ≠ t.ID) ∧
      (∀ (runs : List (Int × Nat)) (id : Int) (p : TunnelPayload) (t : Tunnel)
          (C1 : Config),
        (TunnelBiz.Update codec { storage := r, runs := runs } id p).1 = .ok t →
        ((TunnelBiz.Update codec { storage := r, runs := runs } id p).2.storage.Load codec).1
          = .ok C1 → C1.TunnelIDsUnique) ∧
      (∀ (runs : List (Int × Nat)) (id : Int) (C1 : Config),
        (TunnelBiz.Delete codec { storage := r, runs := runs } id).1 = none →
        ((TunnelBiz.Delete codec { storage := r, runs := runs } id).2.storage.Load codec).1
          = .ok C1 → C1.TunnelIDsUnique)) := by
  have key : ∀ (α : Type) (mutator : Config → Except String (Config × α)) (v : Config × α)
      (r1 : Storage), r.Update codec mutator = (.ok v, r1) →
      ∃ cfg1, mutator C = .ok (cfg1, v.2) ∧
        ∀ C1, (r1.Load codec).1 = .ok C1 → C1 = cfg1.Normalize.persisted := by
    intro α mutator v r1 hu
    obtain ⟨cfg1, hm, _, hload⟩ :=
      Storage.Update_ok_Load codec hf r C hC mutator v.1 v.2 (by rw [hu])
    rw [hu] at hload
    simp only at hload
    refine ⟨cfg1, hm, ?_⟩
    intro C1 hC1
    rw [hload] at hC1
    simp only [Except.ok.injEq] at hC1
    exact hC1.symm
  have savedJ : ∀ cfg1 : Config, cfg1.JumperIDsUnique →
      cfg1.Normalize.persisted.JumperIDsUnique := fun cfg1 h => h
  have savedT : ∀ cfg1 : Config, cfg1.TunnelIDsUnique →
      cfg1.Normalize.persisted.TunnelIDsUnique := by
    intro cfg1 h
    unfold Config.TunnelIDsUnique
    rw [Config.saved_TunnelIDs]
    exact h
  refine ⟨fun hJ => ⟨fun hJmax => ?_, ?_, ?_⟩, fun hT => ⟨fun hTmax => ?_, ?_, ?_⟩⟩
  · intro p j C1 h hC1
    unfold JumperBiz.Create at h hC1
    simp only at h hC1
    cases hv : validateJumperPayload (normalizeJumperPayload p) with
    | some e => simp [hv] at h
    | none =>
      simp only [hv] at h hC1
      generalize hu : r.Update codec (jumperCreateMutator (normalizeJumperPayload p)) = u
        at h hC1
      obtain ⟨res, r1⟩ := u
      cases res with
      | error e => simp at h
      | ok v =>
        obtain ⟨cfg1, hm, hload⟩ := key _ _ v r1 hu
        obtain ⟨hu1, _, hne⟩ := jumperCreateMutator_unique _ C cfg1 v.2 hJ hJmax hm
        simp only [Except.ok.injEq] at h
        rw [hload C1 hC1, ← h]
        exact ⟨savedJ cfg1 hu1, hne⟩
  · intro id p j C1 h hC1
    unfold JumperBiz.Update at h hC1
    by_cases hid : id ≤ 0
    · simp [hid] at h
    · simp only [hid, if_false] at h hC1
      cases hv : validateJumperPayload (normalizeJumperPayload p) with
      | some e => simp [hv] at h
      | none =>
        simp only [hv] at h hC1
        generalize hu : r.Update codec (jumperUpdateMutator id (normalizeJumperPayload p)) = u
          at h hC1
        obtain ⟨res, r1⟩ := u
        cases res with
        | error e => simp at h
        | ok v =>
          obtain ⟨cfg1, hm, hload⟩ := key _ _ v r1 hu
          rw [hload C1 hC1]
          exact savedJ cfg1 (jumperUpdateMutator_unique id _ C cfg1 v.2 hJ hm)
  · intro id C1 h hC1
    unfold JumperBiz.Delete at h hC1
    by_cases hid : id ≤ 0
    · simp [hid] at h
    · simp only [hid, if_false] at h hC1
      generalize hu : r.Update codec (jumperDeleteMutator id) = u at h hC1
      obtain ⟨res, r1⟩ := u
      cases res with
      | error e => simp at h
      | ok v =>
        obtain ⟨cfg1, hm, hload⟩ := key _ _ v r1 hu
        rw [hload C1 hC1]
        exact savedJ cfg1 (jumperDeleteMutator_unique id C cfg1 v.2 hJ hm)
  · intro runs p t C1 h hC1
    unfold TunnelBiz.Create at h hC1
    simp only at h hC1
    generalize hu : r.Update codec (tunnelCreateMutator (normalizeTunnelPayload p)) = u
      at h hC1
    obtain ⟨res, r1⟩ := u
    cases res with
    | error e => simp at h
    | ok v =>
      obtain ⟨cfg1, hm, hload⟩ := key _ _ v r1 hu
      obtain ⟨hu1, _, hne⟩ := tunnelCreateMutator_unique _ C cfg1 v.2 hT hTmax hm
      simp only [Except.ok.injEq] at h
      rw [hload C1 hC1, ← h]
      exact ⟨savedT cfg1 hu1, hne⟩
  · intro runs id p t C1 h hC1
    unfold TunnelBiz.Update at h hC1
    by_cases hid : id ≤ 0
    · simp [hid] at h
    · simp only [hid, if_false] at h hC1
      by_cases hrun : TunnelBiz.isRunning { storage := r, runs := runs } id = true
      · simp [hrun] at h
      · simp only [hrun] at h hC1
        generalize hu : r.Update codec (tunnelUpdateMutator id (normalizeTunnelPayload p)) = u
          at h hC1
        obtain ⟨res, r1⟩ := u
        cases res with
        | error e => simp at h
        | ok v =>
          obtain ⟨cfg1, hm, hload⟩ := key _ _ v r1 hu
          rw [hload C1 hC1]
          exact savedT cfg1 (tunnelUpdateMutator_unique id _ C cfg1 v.2 hT hm)
  · intro runs id C1 h hC1
    unfold TunnelBiz.Delete at h hC1
    by_cases hid : id ≤ 0
    · simp [hid] at h
    · simp only [hid, if_false] at h hC1
      obtain ⟨hs1, hs2⟩ := TunnelBiz.stopRuntime_eq { storage := r, runs := runs } id
      generalize TunnelBiz.stopRuntime { storage := r, runs := runs } id = sr at h hC1 hs1 hs2
      obtain ⟨e0, b1⟩ := sr
      simp only at hs1 hs2
      subst hs1
      simp only [hs2] at h hC1
      generalize hu : r.Update codec (tunnelDeleteMutator id) = u at h hC1
      obtain ⟨res, r1⟩ := u
      cases res with
      | error e => simp at h
      | ok v =>
        obtain ⟨cfg1, hm, hload⟩ := key _ _ v r1 hu
        rw [hload C1 hC1]
        exact savedT cfg1 (tunnelDeleteMutator_unique id C cfg1 v.2 hT hm)


/-! ## Theorems: successive creations -/

theorem idsFrom_eq_range (k : Int) (n : Nat) :
    idsFrom k n = (List.range n).map (fun (i : Nat) => k + (i : Int)) := by
  induction n generalizing k with
  | zero => rfl
  | succ m ih =>
    rw [idsFrom, ih, List.range_succ_eq_map]
    simp only [List.map_cons, List.map_map, Nat.cast_zero, add_zero, List.cons.injEq, true_and]
    apply List.map_congr_left
    intro i _
    show k + 1 + (i : Int) = k + ((i + 1 : Nat) : Int)
    omega

theorem nextIDStep_self (k : Int) (h1 : 1 ≤ k) (h2 : k < maxInt64) :
    nextIDStep k k = k + 1 := by
  unfold nextIDStep
  rw [if_pos (le_refl k)]
  apply wrapInt64_of_inRange
  · unfold minInt64; omega
  · omega

theorem JumperBiz.CreateAll_spec (codec : TomlCodec) (hf : codec.Faithful)
    (ps : List JumperPayload) (r : Storage) (C : Config) (k : Int)
    (hC : (r.Load codec).1 = .ok C) (hnext : nextJumperID C.Jumpers = k) (hk : 1 ≤ k)
    (hlen : k + (ps.length : Int) ≤ maxInt64)
    (hvalid : ∀ p ∈ ps, validateJumperPayload (normalizeJumperPayload p) = none) :
    ∃ created : List Jumper,
      (JumperBiz.CreateAll codec r ps).1 = created.map Except.ok ∧
      created.map (fun j => j.ID) = idsFrom k ps.length ∧
      ∃ C1 : Config, ((JumperBiz.CreateAll codec r ps).2.Load codec).1 = .ok C1 ∧
        C1.Jumpers = C.Jumpers ++ created := by
  induction ps generalizing r C k with
  | nil => exact ⟨[], rfl, rfl, C, hC, by simp⟩
  | cons p rest ih =>
    obtain ⟨h1, h2⟩ := JumperBiz.Create_valid codec hf r C hC p
      (hvalid p (List.mem_cons_self _ _))
    have hlen1 : k + 1 + (rest.length : Int) ≤ maxInt64 := by
      simp only [List.length_cons, Nat.cast_succ] at hlen
      omega
    have hnext1 : nextJumperID (({ C with Jumpers := C.Jumpers ++
        [jumperFromPayload (nextJumperID C.Jumpers) (normalizeJumperPayload p)] }
        : Config).Normalize.persisted).Jumpers = k + 1 := by
      rw [Config.saved_Jumpers]
      unfold nextJumperID at hnext ⊢
      simp only [List.foldl_append, List.foldl_cons, List.foldl_nil, hnext]
      exact nextIDStep_self k hk (by omega)
    obtain ⟨created, c1, c2, C1, c3, c4⟩ := ih (JumperBiz.Create codec r p).2 _ (k + 1) h2
      hnext1 (by omega) hlen1 (fun q hq => hvalid q (List.mem_cons_of_mem _ hq))
    refine ⟨jumperFromPayload k (normalizeJumperPayload p) :: created, ?_, ?_, C1, ?_, ?_⟩
    · simp only [JumperBiz.CreateAll, List.map_cons, c1, h1, hnext]
    · simp only [List.map_cons, List.length_cons, idsFrom, c2]
      rfl
    · simp only [JumperBiz.CreateAll]
      exact c3
    · rw [c4, Config.saved_Jumpers, hnext]
      simp

theorem JumperBiz.CreateAll_ok_valid (codec : TomlCodec) (ps : List JumperPayload)
    (r : Storage)
    (hok : ∀ res ∈ (JumperBiz.CreateAll codec r ps).1, ∃ j, res = Except.ok j) :
    ∀ p ∈ ps, validateJumperPayload (normalizeJumperPayload p) = none := by
  induction ps generalizing r with
  | nil => simp
  | cons p rest ih =>
    simp only [JumperBiz.CreateAll, List.mem_cons, forall_eq_or_imp] at hok
    obtain ⟨⟨j, hj⟩, hrest⟩ := hok
    intro q hq
    rcases List.mem_cons.mp hq with h | h
    · rw [h]
      exact (JumperBiz.Create_ok_eq codec r p j hj).1
    · exact ih _ hrest q h

theorem TunnelBiz.Create_ok_mutator (codec : TomlCodec) (hf : codec.Faithful) (r : Storage)
    (runs : List (Int × Nat)) (C : Config) (hC : (r.Load codec).1 = .ok C)
    (q : TunnelPayload) (t : Tunnel)
    (h : (TunnelBiz.Create codec { storage := r, runs := runs } q).1 = .ok t) :
    ∃ cfg1, tunnelCreateMutator (normalizeTunnelPayload q) C = .ok (cfg1, t) := by
  unfold TunnelBiz.Create at h
  simp only at h
  generalize hu : r.Update codec (tunnelCreateMutator (normalizeTunnelPayload q)) = u at h
  obtain ⟨res, r1⟩ := u
  cases res with
  | error e => simp at h
  | ok v =>
    obtain ⟨cfg1, hm, _, _⟩ := Storage.Update_ok_Load codec hf r C hC _ v.1 v.2 (by rw [hu])
    simp only [Except.ok.injEq] at h
    rw [h] at hm
    exact ⟨cfg1, hm⟩

theorem TunnelBiz.CreateAll_tunnels_spec (codec : TomlCodec) (hf : codec.Faithful)
    (qs : List TunnelPayload) (r : Storage) (runs : List (Int × Nat)) (C : Config) (k : Int)
    (hC : (r.Load codec).1 = .ok C)
    (hnext : nextTunnelID C.Tunnels = k) (hk : 1 ≤ k)
    (hlen : k + (qs.length : Int) ≤ maxInt64)
    (hok : ∀ res ∈ (TunnelBiz.CreateAll codec { storage := r, runs := runs } qs).1,
      ∃ t, res = Except.ok t) :
    ∃ created : List Tunnel,
      (TunnelBiz.CreateAll codec { storage := r, runs := runs } qs).1
        = created.map Except.ok ∧
      created.map (fun t => t.ID) = idsFrom k qs.length ∧
      ∃ C1 : Config,
        ((TunnelBiz.CreateAll codec { storage := r, runs := runs } qs).2.storage.Load
          codec).1 = .ok C1 ∧
        C1.Tunnels.map (fun t => t.ID)
          = C.Tunnels.map (fun t => t.ID) ++ created.map (fun t => t.ID) := by
  induction qs generalizing r C k with
  | nil => exact ⟨[], rfl, rfl, C, hC, by simp⟩
  | cons q rest ih =>
    simp only [TunnelBiz.CreateAll, List.mem_cons, forall_eq_or_imp] at hok
    obtain ⟨⟨t, ht⟩, hrest⟩ := hok
    obtain ⟨cfg1, hm1⟩ := TunnelBiz.Create_ok_mutator codec hf r runs C hC q t ht
    have hshape : t.ID = k ∧ cfg1 = { C with Tunnels := C.Tunnels ++ [t] } := by
      unfold tunnelCreateMutator at hm1
      cases hv : validateTunnelPayload (normalizeTunnelPayload q) with
      | some err => rw [hv] at hm1; simp at hm1
      | none =>
        rw [hv] at hm1
        simp only at hm1
        cases hc : collectJumpers C.Jumpers (normalizeTunnelPayload q).JumperIDs with
        | error err => rw [hc] at hm1; simp at hm1
        | ok js =>
          rw [hc] at hm1
          simp only [Except.ok.injEq, Prod.mk.injEq] at hm1
          obtain ⟨ha, hb⟩ := hm1
          subst hb
          subst ha
          exact ⟨hnext, rfl⟩
    obtain ⟨hm2, hm3⟩ := hshape
    obtain ⟨h1, h2⟩ := TunnelBiz.Create_tunnel_valid codec hf r runs C hC q t cfg1 hm1
    have hlen1 : k + 1 + (rest.length : Int) ≤ maxInt64 := by
      simp only [List.length_cons, Nat.cast_succ] at hlen
      omega
    have hids1 : cfg1.Normalize.persisted.Tunnels.map (fun t => t.ID)
        = C.Tunnels.map (fun t => t.ID) ++ [k] := by
      rw [Config.saved_TunnelIDs, hm3]
      simp [hm2]
    have hnext1 : nextTunnelID cfg1.Normalize.persisted.Tunnels = k + 1 := by
      rw [nextTunnelID_eq_foldl, hids1, List.foldl_append, ← nextTunnelID_eq_foldl, hnext]
      simp only [List.foldl_cons, List.foldl_nil]
      exact nextIDStep_self k hk (by omega)
    have hstate : (TunnelBiz.Create codec { storage := r, runs := runs } q).2
        = { storage := (TunnelBiz.Create codec { storage := r, runs := runs } q).2.storage,
            runs := runs } := by
      unfold TunnelBiz.Create
      simp only
      generalize r.Update codec (tunnelCreateMutator (normalizeTunnelPayload q)) = u
      obtain ⟨res, r1⟩ := u
      cases res <;> rfl
    rw [hstate] at hrest
    obtain ⟨created, c1, c2, C1, c3, c4⟩ :=
      ih (TunnelBiz.Create codec { storage := r, runs := runs } q).2.storage
        cfg1.Normalize.persisted (k + 1) h2 hnext1 (by omega) hlen1 hrest
    rw [← hstate] at c1 c3
    refine ⟨t :: created, ?_, ?_, C1, ?_, ?_⟩
    · simp only [TunnelBiz.CreateAll, List.map_cons, c1, h1]
    · simp only [List.map_cons, List.length_cons, idsFrom, c2, hm2]
    · simp only [TunnelBiz.CreateAll]
      exact c3
    · rw [c4, hids1]
      simp [hm2]

/-- C14: over a faithful TOML library, `N ≥ 1` successive successful
`JumperBiz.Create` calls on a config without jumpers return jumpers with the
IDs 1, 2, ..., N in call order, and the stored jumper list is exactly these
jumpers in that order; `N ≥ 1` successive successful `TunnelBiz.Create` calls on
a config without tunnels return tunnels with the IDs 1, 2, ..., N in call
order, and the stored tunnels carry these IDs in that order. `N` is below the
largest `int`, as the length of every Go slice is. -/
theorem create_sequence_ids (codec : TomlCodec) (hf : codec.Faithful) :
    (∀ (r : Storage) (C0 : Config) (ps : List JumperPayload),
      (r.Load codec).1 = .ok C0 → C0.Jumpers = [] →
      1 ≤ ps.length → (ps.length : Int) < maxInt64 →
      (∀ res ∈ (JumperBiz.CreateAll codec r ps).1, ∃ j, res = Except.ok j) →
      ∃ created : List Jumper,
        (JumperBiz.CreateAll codec r ps).1 = created.map Except.ok ∧
        created.map (fun j => j.ID)
          = (List.range ps.length).map (fun (i : Nat) => 1 + (i : Int)) ∧
        ∃ C1 : Config, ((JumperBiz.CreateAll codec r ps).2.Load codec).1 = .ok C1 ∧
          C1.Jumpers = created) ∧
    (∀ (r : Storage) (runs : List (Int × Nat)) (C0 : Config) (qs : List TunnelPayload),
      (r.Load codec).1 = .ok C0 → C0.Tunnels = [] →
      1 ≤ qs.length → (qs.length : Int) < maxInt64 →
      (∀ res ∈ (TunnelBiz.CreateAll codec { storage := r, runs := runs } qs).1,
        ∃ t, res = Except.ok t) →
      ∃ created : List Tunnel,
        (TunnelBiz.CreateAll codec { storage := r, runs := runs } qs).1
          = created.map Except.ok ∧
        created.map (fun t => t.ID)
          = (List.range qs.length).map (fun (i : Nat) => 1 + (i : Int)) ∧
        ∃ C1 : Config,
          ((TunnelBiz.CreateAll codec { storage := r, runs := runs } qs).2.storage.Load
            codec).1 = .ok C1 ∧
          C1.Tunnels.map (fun t => t.ID) = created.map (fun t => t.ID)) := by
  refine ⟨?_, ?_⟩
  · intro r C0 ps hC hJ _ hlen hok
    have hvalid := JumperBiz.CreateAll_ok_valid codec ps r hok
    obtain ⟨created, c1, c2, C1, c3, c4⟩ := JumperBiz.CreateAll_spec codec hf ps r C0 1 hC
      (by rw [hJ]; rfl) (le_refl 1) (by omega) hvalid
    refine ⟨created, c1, ?_, C1, c3, ?_⟩
    · rw [c2, idsFrom_eq_range]
    · rw [c4, hJ]
      simp
  · intro r runs C0 qs hC hT _ hlen hok
    obtain ⟨created, c1, c2, C1, c3, c4⟩ := TunnelBiz.CreateAll_tunnels_spec codec hf qs r runs C0 1
      hC (by rw [hT]; rfl) (le_refl 1) (by omega) hok
    refine ⟨created, c1, ?_, C1, c3, ?_⟩
    · rw [c2, idsFrom_eq_range]
    · rw [c4, hT]
      simp

/-- Witness for C14: two `JumperBiz.Create` calls on a storage without a file
return the IDs 1, 2, and two `TunnelBiz.Create` calls on `jumperOnlyConfig`
return the IDs 1, 2. -/
theorem create_sequence_ids_witness :
    (∃ created : List Jumper,
      (JumperBiz.CreateAll referenceCodec { file := none } [nextPayload, nextPayload]).1
        = created.map Except.ok ∧
      created.map (fun j => j.ID) = (List.range 2).map (fun (i : Nat) => 1 + (i : Int)) ∧
      ∃ C1 : Config,
        ((JumperBiz.CreateAll referenceCodec { file := none }
          [nextPayload, nextPayload]).2.Load referenceCodec).1 = .ok C1 ∧
        C1.Jumpers = created) ∧
    (∃ created : List Tunnel,
      (TunnelBiz.CreateAll referenceCodec { storage := jumperOnlyStorage, runs := [] }
        [webPayload, webPayload]).1 = created.map Except.ok ∧
      created.map (fun t => t.ID) = (List.range 2).map (fun (i : Nat) => 1 + (i : Int)) ∧
      ∃ C1 : Config,
        ((TunnelBiz.CreateAll referenceCodec { storage := jumperOnlyStorage, runs := [] }
          [webPayload, webPayload]).2.storage.Load referenceCodec).1 = .ok C1 ∧
        C1.Tunnels.map (fun t => t.ID) = created.map (fun t => t.ID)) :=
  ⟨(create_sequence_ids referenceCodec referenceCodec_faithful).1 { file := none }
      DefaultConfig [nextPayload, nextPayload] (by decide) rfl (by decide) (by decide)
      (by
        intro res hres
        rw [show (JumperBiz.CreateAll referenceCodec { file := none }
            [nextPayload, nextPayload]).1
          = [.ok (jumperFromPayload 1 nextPayload), .ok (jumperFromPayload 2 nextPayload)]
          by decide] at hres
        simp only [List.mem_cons, List.mem_singleton, List.not_mem_nil, or_false] at hres
        rcases hres with h | h <;> exact ⟨_, h⟩),
    (create_sequence_ids referenceCodec referenceCodec_faithful).2 jumperOnlyStorage []
      jumperOnlyConfig [webPayload, webPayload] (by decide) rfl (by decide) (by decide)
      (by
        intro res hres
        have h1 : ∀ res ∈ (TunnelBiz.CreateAll referenceCodec
            { storage := jumperOnlyStorage, runs := [] } [webPayload, webPayload]).1,
            res.toBool = true := by decide
        have h2 := h1 res hres
        cases res with
        | error e => simp [Except.toBool] at h2
        | ok t => exact ⟨t, rfl⟩)⟩

/-- Witness for C17: `twinTunnelConfig` has the one jumper ID 1 and the tunnel
ID 1 twice; creating a jumper on it assigns ID 2, and the persisted jumper IDs
1, 2 are pairwise distinct and ≥ 1. -/
theorem id_uniqueness_preserved_witness :
    twinTunnelConfig.Tunnels.map (fun t => t.ID) = [1, 1] ∧
    (JumperBiz.Create referenceCodec twinTunnelStorage nextPayload).1
      = .ok (jumperFromPayload 2 nextPayload) ∧
    Config.JumperIDsUnique { twinTunnelConfig with Jumpers := twinTunnelConfig.Jumpers ++
      [jumperFromPayload 2 nextPayload] } ∧
    ∀ j0 ∈ twinTunnelConfig.Jumpers, j0.ID ≠ (jumperFromPayload 2 nextPayload).ID :=
  ⟨by decide, by decide,
    ((id_uniqueness_preserved referenceCodec referenceCodec_faithful twinTunnelStorage
      twinTunnelConfig (by decide)).1
      (by unfold Config.JumperIDsUnique idsUnique; decide)).1 (by decide)
      nextPayload (jumperFromPayload 2 nextPayload)
      { twinTunnelConfig with
        Jumpers := twinTunnelConfig.Jumpers ++ [jumperFromPayload 2 nextPayload] }
      (by decide) (by decide)⟩

/-! ## Theorems: save, then load -/

theorem Config.persisted_of_no_latency (c : Config) (h : ∀ t ∈ c.Tunnels, t.LatencyMs = 0) :
    c.persisted = c := by
  obtain ⟨v, js, ts⟩ := c
  simp only [Config.persisted, Config.mk.injEq, true_and]
  simp only at h
  induction ts with
  | nil => rfl
  | cons t rest ih =>
    simp only [List.map_cons, List.cons.injEq]
    refine ⟨?_, ih (fun t1 h1 => h t1 (List.mem_cons_of_mem _ h1))⟩
    have h0 := h t (List.mem_cons_self _ _)
    obtain ⟨a1, a2, a3, a4, a5, a6, a7, a8, a9, a10, a11, a12, a13⟩ := t
    simp only at h0
    simp only [Tunnel.persisted, h0]

theorem Config.Normalize_latency (c : Config) (h : ∀ t ∈ c.Tunnels, t.LatencyMs = 0) :
    ∀ t ∈ c.Normalize.Tunnels, t.LatencyMs = 0 := by
  intro t ht
  simp only [Config.Normalize, List.mem_map] at ht
  obtain ⟨t0, h0, rfl⟩ := ht
  exact h t0 h0

/-- C19, as stated, fails: `latencyConfig` is `smallConfig` with a latency of
7 ms on its tunnel; saved and loaded through the reference codec, which like
the TOML library skips the `LatencyMs` field (tag `toml:"-"`), it reads back as
`smallConfig`, whose tunnel differs from the tunnel of the normalized
`latencyConfig`. -/
theorem toml_round_trip_counterexample :
    saveThenLoad referenceCodec { file := none } latencyConfig = .ok smallConfig ∧
    parseConfigTOML referenceCodec (encodeConfigTOML referenceCodec latencyConfig).1
      = .ok smallConfig ∧
    smallConfig.Tunnels ≠ latencyConfig.Normalize.Tunnels ∧
    latencyConfig.Normalize.Tunnels.map (fun t => t.LatencyMs) = [7] ∧
    smallConfig.Tunnels.map (fun t => t.LatencyMs) = [0] := by
  refine ⟨?_, ?_, ?_, ?_, ?_⟩ <;> decide

/-- C19, amended: over a TOML library that writes and reads back every field
it is told to keep, saving any config `C` (`saveLocked`: `encodeConfigTOML`,
then the write) succeeds, and loading afterwards (`loadLocked`:
`parseConfigTOML`) yields the normalized `C` with the runtime latency of each
tunnel, which is not written, read back as 0: the jumpers are those of the
normalized `C`, the tunnels are those of the normalized `C` with `LatencyMs`
0, and the whole config is the normalized `C` when no tunnel of `C` carries a
latency. -/
theorem toml_round_trip (codec : TomlCodec) (hf : codec.Faithful) (r : Storage) (C : Config) :
    (r.saveLocked codec C).1 = none ∧
    saveThenLoad codec r C = .ok C.Normalize.persisted ∧
    parseConfigTOML codec (encodeConfigTOML codec C).1 = .ok C.Normalize.persisted ∧
    C.Normalize.persisted.Jumpers = C.Normalize.Jumpers ∧
    C.Normalize.persisted.Tunnels
      = C.Normalize.Tunnels.map (fun t => { t with LatencyMs := 0 }) ∧
    ((∀ t ∈ C.Tunnels, t.LatencyMs = 0) → C.Normalize.persisted = C.Normalize) := by
  refine ⟨?_, ?_, ?_, rfl, rfl, ?_⟩
  · rw [Storage.saveLocked_eq]
  · unfold saveThenLoad
    rw [Storage.saveLocked_eq]
    simp only
    rw [Storage.loadLocked_saved codec hf]
  · obtain ⟨text, henc, _, hdec⟩ := hf C.Normalize
    have htext : (encodeConfigTOML codec C).1 = text := by
      unfold encodeConfigTOML
      simp only [henc]
    rw [htext]
    unfold parseConfigTOML
    simp only [hdec, Config.persisted_Normalize, Config.Normalize_idempotent]
  · intro h
    exact Config.persisted_of_no_latency _ (Config.Normalize_latency C h)

/-- Witness for C19: the config of `TestStorage_LoadUpdate`, with the one
jumper `testJumper`, is read back with that jumper, through `saveLocked` and
`loadLocked` and through `Update` and `Load` on a storage without a file. -/
theorem toml_round_trip_witness :
    saveThenLoad referenceCodec { file := none } testJumperConfig = .ok testJumperConfig ∧
    testJumperConfig.Jumpers = [testJumper] ∧
    ((Storage.Update referenceCodec { file := none }
        (fun c => .ok ({ c with Jumpers := c.Jumpers ++ [testJumper] }, ()))).2.Load
      referenceCodec).1 = .ok testJumperConfig := by
  refine ⟨?_, by decide, by decide⟩
  have h := (toml_round_trip referenceCodec referenceCodec_faithful { file := none }
    testJumperConfig).2.1
  rw [h]
  decide

/-! ## Theorems: tunnel payload validation -/

theorem normalizeTunnelPayload_eq (p : TunnelPayload) :
    normalizeTunnelPayload p =
      { Name := trimSpace p.Name,
        Mode := if trimSpace p.Mode = "" then "local" else trimSpace p.Mode,
        JumperIDs := normalizeJumperIDs p.JumperIDs,
        LocalHost := if trimSpace p.LocalHost = "" then "127.0.0.1" else trimSpace p.LocalHost,
        LocalPort := p.LocalPort,
        RemoteHost := trimSpace p.RemoteHost,
        RemotePort := p.RemotePort,
        AutoStart := p.AutoStart,
        Status := if trimSpace p.Status = "" then "stopped" else trimSpace p.Status,
        Description := trimSpace p.Description } := by
  by_cases c1 : trimSpace p.Mode = "" <;> by_cases c2 : trimSpace p.Status = "" <;>
    by_cases c3 : trimSpace p.LocalHost = "" <;>
    simp [normalizeTunnelPayload, c1, c2, c3]

theorem validateTunnelPayload_none_iff (q : TunnelPayload) :
    validateTunnelPayload q = none ↔
      (q.Name ≠ "" ∧ q.JumperIDs ≠ [] ∧ q.LocalHost ≠ "" ∧
        (1 ≤ q.LocalPort ∧ q.LocalPort ≤ 65535) ∧
        (q.Mode = "local" ∨ q.Mode = "remote" ∨ q.Mode = "dynamic") ∧
        (q.Mode ≠ "dynamic" →
          q.RemoteHost ≠ "" ∧ 1 ≤ q.RemotePort ∧ q.RemotePort ≤ 65535) ∧
        (q.Status = "running" ∨ q.Status = "stopped" ∨ q.Status = "error")) := by
  unfold validateTunnelPayload validateTunnelPayloadWithOption
  by_cases h1 : q.Name = ""
  · simp [h1]
  rw [if_neg h1]
  by_cases h2 : q.JumperIDs = []
  · simp [h2]
  have h2a : ¬ ((true : Bool) = true ∧ q.JumperIDs.length = 0) := by
    simp [List.length_eq_zero, h2]
  rw [if_neg h2a]
  by_cases h3 : q.LocalHost = ""
  · simp [h3]
  rw [if_neg h3]
  by_cases h4 : q.LocalPort < 1 ∨ q.LocalPort > 65535
  · rw [if_pos h4]
    simp only [reduceCtorEq, false_iff, not_and]
    intro _ _ _ h
    omega
  rw [if_neg h4]
  by_cases h5 : q.Mode = "local" ∨ q.Mode = "remote" ∨ q.Mode = "dynamic"
  swap
  · rw [if_pos h5]
    simp [h5]
  rw [if_neg (not_not.mpr h5)]
  by_cases h6 : q.Mode ≠ "dynamic" ∧ q.RemoteHost = ""
  · rw [if_pos h6]
    simp only [reduceCtorEq, false_iff, not_and]
    intro _ _ _ _ _ h
    exact absurd h6.2 (h h6.1).1
  rw [if_neg h6]
  by_cases h7 : q.Mode ≠ "dynamic" ∧ (q.RemotePort < 1 ∨ q.RemotePort > 65535)
  · rw [if_pos h7]
    simp only [reduceCtorEq, false_iff, not_and]
    intro _ _ _ _ _ h
    have := h h7.1
    omega
  rw [if_neg h7]
  by_cases h8 : q.Status = "running" ∨ q.Status = "stopped" ∨ q.Status = "error"
  swap
  · rw [if_pos h8]
    simp [h8]
  rw [if_neg (not_not.mpr h8)]
  simp only [true_iff]
  refine ⟨h1, h2, h3, by omega, h5, ?_, h8⟩
  intro hm
  have e1 : q.RemoteHost ≠ "" := fun h => h6 ⟨hm, h⟩
  have e2 : ¬ (q.RemotePort < 1 ∨ q.RemotePort > 65535) := fun h => h7 ⟨hm, h⟩
  exact ⟨e1, by omega, by omega⟩

theorem normalizeJumperIDs_ne_nil_iff (ids : List Int) :
    normalizeJumperIDs ids ≠ [] ↔ ∃ id ∈ ids, 0 < id := by
  rw [normalizeJumperIDs_eq]
  unfold firstPositiveOccurrences
  constructor
  · intro h
    obtain ⟨x, hx⟩ := List.exists_mem_of_ne_nil _ h
    obtain ⟨h1, h2, _⟩ := (mem_firstPositiveOccurrencesFrom [] ids x).mp hx
    exact ⟨x, h1, h2⟩
  · rintro ⟨x, h1, h2⟩
    have hx := (mem_firstPositiveOccurrencesFrom [] ids x).mpr ⟨h1, h2, by simp⟩
    exact List.ne_nil_of_mem hx

/-- C21: for every tunnel payload `p`, `validateTunnelPayload
(normalizeTunnelPayload p)` succeeds exactly when the trimmed name is
non-empty, `p.JumperIDs` holds a positive ID, the local port is in 1..65535,
the trimmed mode is empty, `local`, `remote` or `dynamic`, the trimmed remote
host is non-empty and the remote port in 1..65535 unless the trimmed mode is
`dynamic`, and the trimmed status is empty, `stopped`, `running` or `error`. -/
theorem tunnel_payload_valid_iff (p : TunnelPayload) :
    validateTunnelPayload (normalizeTunnelPayload p) = none ↔
      (trimSpace p.Name ≠ "" ∧
        (∃ id ∈ p.JumperIDs, 0 < id) ∧
        (1 ≤ p.LocalPort ∧ p.LocalPort ≤ 65535) ∧
        (trimSpace p.Mode = "" ∨ trimSpace p.Mode = "local" ∨ trimSpace p.Mode = "remote" ∨
          trimSpace p.Mode = "dynamic") ∧
        (trimSpace p.Mode ≠ "dynamic" →
          trimSpace p.RemoteHost ≠ "" ∧ 1 ≤ p.RemotePort ∧ p.RemotePort ≤ 65535) ∧
        (trimSpace p.Status = "" ∨ trimSpace p.Status = "stopped" ∨
          trimSpace p.Status = "running" ∨ trimSpace p.Status = "error")) := by
  rw [validateTunnelPayload_none_iff, normalizeTunnelPayload_eq]
  simp only
  rw [normalizeJumperIDs_ne_nil_iff]
  have hhost : (if trimSpace p.LocalHost = "" then "127.0.0.1" else trimSpace p.LocalHost)
      ≠ "" := by
    split_ifs with h
    · decide
    · exact h
  by_cases hm : trimSpace p.Mode = ""
  · by_cases hs : trimSpace p.Status = ""
    · simp only [hm, hs, if_true]
      constructor
      · rintro ⟨a, b, _, c, _, d, _⟩
        exact ⟨a, b, c, Or.inl trivial, fun _ => d (by decide), Or.inl trivial⟩
      · rintro ⟨a, b, c, _, d, _⟩
        exact ⟨a, b, hhost, c, Or.inl trivial, fun _ => d (by decide), Or.inr (Or.inl trivial)⟩
    · simp only [hm, hs, if_true, if_false]
      constructor
      · rintro ⟨a, b, _, c, _, d, e⟩
        refine ⟨a, b, c, Or.inl trivial, fun _ => d (by decide), Or.inr ?_⟩
        rcases e with e | e | e
        · exact Or.inr (Or.inl e)
        · exact Or.inl e
        · exact Or.inr (Or.inr e)
      · rintro ⟨a, b, c, _, d, e⟩
        refine ⟨a, b, hhost, c, Or.inl trivial, fun _ => d (by decide), ?_⟩
        rcases e with e | e | e | e
        · exact e.elim
        · exact Or.inr (Or.inl e)
        · exact Or.inl e
        · exact Or.inr (Or.inr e)
  · by_cases hs : trimSpace p.Status = ""
    · simp only [hm, hs, if_true, if_false]
      constructor
      · rintro ⟨a, b, _, c, m, d, _⟩
        exact ⟨a, b, c, Or.inr m, d, Or.inl trivial⟩
      · rintro ⟨a, b, c, m, d, _⟩
        refine ⟨a, b, hhost, c, ?_, d, Or.inr (Or.inl trivial)⟩
        rcases m with m | m
        · exact m.elim
        · exact m
    · simp only [hm, hs, if_false]
      constructor
      · rintro ⟨a, b, _, c, m, d, e⟩
        refine ⟨a, b, c, Or.inr m, d, Or.inr ?_⟩
        rcases e with e | e | e
        · exact Or.inr (Or.inl e)
        · exact Or.inl e
        · exact Or.inr (Or.inr e)
      · rintro ⟨a, b, c, m, d, e⟩
        refine ⟨a, b, hhost, c, ?_, d, ?_⟩
        · rcases m with m | m
          · exact m.elim
          · exact m
        · rcases e with e | e | e | e
          · exact e.elim
          · exact Or.inr (Or.inl e)
          · exact Or.inl e
          · exact Or.inr (Or.inr e)

/-! ## Theorems: toggling a running tunnel -/

theorem find?_findIdx? {α : Type} (p : α → Bool) (l : List α) (a : α)
    (h : l.find? p = some a) : ∃ idx, l.findIdx? p = some idx ∧ l[idx]? = some a := by
  induction l with
  | nil => simp at h
  | cons x rest ih =>
    rw [List.findIdx?_cons]
    by_cases hx : p x = true
    · rw [List.find?_cons_of_pos _ hx] at h
      simp only [Option.some.injEq] at h
      exact ⟨0, by simp [hx], by simp [h]⟩
    · rw [List.find?_cons_of_neg _ hx] at h
      obtain ⟨idx, h1, h2⟩ := ih h
      refine ⟨idx + 1, ?_, ?_⟩
      · simp only [hx, Bool.false_eq_true, if_false, Nat.zero_add, List.findIdx?_succ, h1,
          Option.map_some']
      · simpa using h2

theorem lookup_filter_ne (runs : List (Int × Nat)) (id : Int) :
    (runs.filter (fun entry => entry.1 ≠ id)).lookup id = none ∧
    ∀ other : Int, other ≠ id →
      (runs.filter (fun entry => entry.1 ≠ id)).lookup other = runs.lookup other := by
  induction runs with
  | nil => simp
  | cons e rest ih =>
    obtain ⟨k, v⟩ := e
    by_cases hk : k = id
    · subst hk
      simp only [ne_eq, not_true_eq_false, decide_False, Bool.false_eq_true,
        not_false_eq_true, List.filter_cons_of_neg]
      refine ⟨ih.1, ?_⟩
      intro other ho
      rw [ih.2 other ho, List.lookup_cons]
      have : (other == k) = false := by simpa using ho
      rw [this]
    · have hfil : ((k, v) :: rest).filter (fun entry => decide (entry.1 ≠ id))
          = (k, v) :: rest.filter (fun entry => decide (entry.1 ≠ id)) := by
        simp [List.filter_cons, hk]
      rw [hfil]
      refine ⟨?_, ?_⟩
      · rw [List.lookup_cons]
        have : (id == k) = false := by simpa using (fun h : id = k => hk h.symm)
        rw [this]
        exact ih.1
      · intro other ho
        rw [List.lookup_cons, List.lookup_cons, ih.2 other ho]

theorem TunnelBiz.stopRuntime_runs (b : TunnelBiz) (id : Int) :
    (b.stopRuntime id).2.runs.lookup id = none ∧
    ∀ other : Int, other ≠ id →
      (b.stopRuntime id).2.runs.lookup other = b.runs.lookup other := by
  unfold TunnelBiz.stopRuntime
  cases h : b.runs.lookup id with
  | none => exact ⟨h, fun _ _ => rfl⟩
  | some run => exact lookup_filter_ne b.runs id

/-- A `Storage.Update` whose mutator succeeds on the persisted config returns
the normalized result and persists it. -/
theorem Storage.Update_of_mutator_ok {α : Type} (codec : TomlCodec) (hf : codec.Faithful)
    (r : Storage) (C : Config) (hC : (r.Load codec).1 = .ok C)
    (mutator : Config → Except String (Config × α)) (cfg1 : Config) (a : α)
    (hm : mutator C = .ok (cfg1, a)) :
    (r.Update codec mutator).1 = .ok (cfg1.Normalize, a) ∧
    ((r.Update codec mutator).2.Load codec).1 = .ok cfg1.Normalize.persisted := by
  have hl := Storage.Load_ok codec r C hC
  simp only [Storage.Update_eq]
  rw [hl]
  simp only [hm]
  refine ⟨trivial, ?_⟩
  rw [Storage.Load_of_loadLocked codec _ _ _ (Storage.loadLocked_saved codec hf _)]

theorem Config.Normalize_set_status (cfg0 : Config) (idx : Nat) (t : Tunnel)
    (status lastError : String) (ht : cfg0.Normalize.Tunnels[idx]? = some t) :
    ({ cfg0.Normalize with
        Tunnels := cfg0.Normalize.Tunnels.set idx
          { t with Status := status, LastError := lastError } } : Config).Normalize
      = { cfg0.Normalize with
          Tunnels := cfg0.Normalize.Tunnels.set idx
            { t with Status := status, LastError := lastError } } := by
  have hN := Config.Normalize_idempotent cfg0
  have hfix : normalizeJumperIDs t.JumperIDs = t.JumperIDs := by
    simp only [Config.Normalize, List.getElem?_map] at ht
    cases h0 : cfg0.Tunnels[idx]? with
    | none => rw [h0] at ht; simp at ht
    | some t0 =>
      rw [h0] at ht
      simp only [Option.map_some', Option.some.injEq] at ht
      rw [← ht]
      exact normalizeJumperIDs_idempotent _
  have hV : (if cfg0.Normalize.Version ≤ 0 then currentConfigVersion
      else cfg0.Normalize.Version) = cfg0.Normalize.Version := by
    have := congrArg Config.Version hN
    simpa [Config.Normalize] using this
  have hT : cfg0.Normalize.Tunnels.map
      (fun t => { t with JumperIDs := normalizeJumperIDs t.JumperIDs })
      = cfg0.Normalize.Tunnels := by
    have := congrArg Config.Tunnels hN
    simpa [Config.Normalize] using this
  show ({ Version := _, Jumpers := _, Tunnels := _ } : Config) = _
  simp only [List.map_set, hT, hfix]
  rw [Config.mk.injEq]
  exact ⟨hV, rfl, rfl⟩

theorem tunnelStatusMutator_found (id : Int) (status lastError : String) (C : Config)
    (idx : Nat) (t : Tunnel) (hidx : tunnelIndex C.Tunnels id = some idx)
    (hget : C.Tunnels[idx]? = some t) :
    tunnelStatusMutator id status lastError C
      = .ok ({ C with
                Tunnels := C.Tunnels.set idx
                  { t with Status := status, LastError := trimSpace lastError } },
              { t with Status := status, LastError := trimSpace lastError }) := by
  unfold tunnelStatusMutator
  rw [hidx]
  simp only [List.get?_eq_getElem?, hget, Option.getD_some]

/-- C22: over a faithful TOML library, for a tunnel `t` of the persisted config
`C` found under an `id > 0`, tracked in the runtime map or persisted as
`running`, `TunnelBiz.Toggle id` returns `t` with status `stopped` and an empty
last error, leaves no entry for `id` in the runtime map and every other entry
as it was, and persists `C` with that one tunnel replaced: the version, the
jumpers, the other tunnels and the other fields of the tunnel are those of
`C` (the runtime latency, which has no key in the file, reads back as 0). -/
theorem toggle_stops_running (codec : TomlCodec) (hf : codec.Faithful) (env : ToggleEnv)
    (b : TunnelBiz) (C : Config) (id : Int) (t : Tunnel)
    (hC : (b.storage.Load codec).1 = .ok C) (hid : 0 < id)
    (ht : findTunnelByID C.Tunnels id = some t)
    (hrun : b.isRunning id = true ∨ t.Status = "running") :
    ∃ idx : Nat, tunnelIndex C.Tunnels id = some idx ∧ C.Tunnels[idx]? = some t ∧
      (TunnelBiz.Toggle codec env b id).1
        = .ok { t with Status := "stopped", LastError := "" } ∧
      (TunnelBiz.Toggle codec env b id).2.runs.lookup id = none ∧
      (∀ other : Int, other ≠ id →
        (TunnelBiz.Toggle codec env b id).2.runs.lookup other = b.runs.lookup other) ∧
      ((TunnelBiz.Toggle codec env b id).2.storage.Load codec).1
        = .ok (Config.persisted { C with
            Tunnels := C.Tunnels.set idx { t with Status := "stopped", LastError := "" } }) ∧
      ((∀ u ∈ C.Tunnels, u.LatencyMs = 0) →
        ((TunnelBiz.Toggle codec env b id).2.storage.Load codec).1
          = .ok { C with
              Tunnels := C.Tunnels.set idx
                { t with Status := "stopped", LastError := "" } }) := by
  obtain ⟨idx, hidx, hget⟩ := find?_findIdx? _ _ _ ht
  have hl := Storage.Load_ok codec b.storage C hC
  have hLoad := Storage.Load_of_loadLocked codec _ _ _ hl
  have hst := Storage.loadLocked_stable codec hf _ _ _ hl
  have hC1 : (((b.storage.loadLocked codec).2).Load codec).1 = .ok C := by
    rw [Storage.Load_of_loadLocked codec _ _ _ hst]
  obtain ⟨_, cfg0, hnorm⟩ := Storage.loadLocked_of_tunnel codec b.storage C t (by rw [hl])
    (List.mem_of_find?_eq_some ht)
  have htrim : trimSpace "" = "" := by decide
  have hmut := tunnelStatusMutator_found id "stopped" "" C idx t hidx hget
  rw [htrim] at hmut
  have hfix : (Config.Normalize { C with
      Tunnels := C.Tunnels.set idx { t with Status := "stopped", LastError := "" } })
      = { C with
          Tunnels := C.Tunnels.set idx { t with Status := "stopped", LastError := "" } } := by
    have hget0 := hget
    rw [hnorm] at hget0 ⊢
    exact Config.Normalize_set_status cfg0 idx t "stopped" "" hget0
  obtain ⟨b0, hb0⟩ : ∃ b0 : TunnelBiz, b0 = ⟨(b.storage.loadLocked codec).2, b.runs⟩ :=
    ⟨_, rfl⟩
  have hsr := TunnelBiz.stopRuntime_eq b0 id
  have hruns := TunnelBiz.stopRuntime_runs b0 id
  have hcond : (b0.isRunning id = true ∨ t.Status = "running") := by
    rw [hb0]
    exact hrun
  have hfound : findTunnelByID C.Tunnels id = some t := ht
  have key : TunnelBiz.Toggle codec env b id
      = TunnelBiz.updateStatus codec (b0.stopRuntime id).2 id "stopped" "" := by
    unfold TunnelBiz.Toggle
    rw [if_neg (by omega), hLoad]
    simp only [hfound]
    rw [← hb0, if_pos hcond]
    generalize b0.stopRuntime id = sr at hsr
    obtain ⟨e0, b1⟩ := sr
    simp only at hsr
    rw [hsr.1]
  rw [key]
  generalize b0.stopRuntime id = sr at hsr hruns
  obtain ⟨e0, b1⟩ := sr
  simp only at hsr hruns
  obtain ⟨_, hstore⟩ := hsr
  rw [hb0] at hstore hruns
  simp only at hstore hruns
  have hup := Storage.Update_of_mutator_ok codec hf b1.storage C (by rw [hstore]; exact hC1)
    (tunnelStatusMutator id "stopped" "") _ _ hmut
  rw [hfix] at hup
  unfold TunnelBiz.updateStatus
  generalize b1.storage.Update codec (tunnelStatusMutator id "stopped" "") = u at hup
  obtain ⟨res, r2⟩ := u
  simp only at hup
  obtain ⟨hres, hload2⟩ := hup
  subst hres
  refine ⟨idx, hidx, hget, rfl, hruns.1, hruns.2, hload2, ?_⟩
  intro hlat
  show (r2.Load codec).1 = _
  rw [hload2]
  congr 1
  apply Config.persisted_of_no_latency
  intro u hu
  rcases List.mem_or_eq_of_mem_set hu with h | h
  · exact hlat u h
  · rw [h]
    exact hlat t (List.mem_of_find?_eq_some ht)

/-- Witness for C22: tunnel 1 of `runningConfig` is persisted as running and
tracked in the runtime map; toggling it returns it stopped, empties the map and
persists `smallConfig`, in which the tunnel is stopped. -/
theorem toggle_stops_running_witness :
    (TunnelBiz.Toggle referenceCodec startingEnv
      { storage := runningStorage, runs := [(1, 3)] } 1).2.runs = [] ∧
    ((TunnelBiz.Toggle referenceCodec startingEnv
      { storage := runningStorage, runs := [(1, 3)] } 1).2.storage.Load referenceCodec).1
      = .ok smallConfig ∧
    ∃ idx : Nat, tunnelIndex runningConfig.Tunnels 1 = some idx ∧
      (TunnelBiz.Toggle referenceCodec startingEnv
        { storage := runningStorage, runs := [(1, 3)] } 1).1
        = .ok { runningTunnel with Status := "stopped", LastError := "" } :=
  ⟨by decide, by decide,
    (toggle_stops_running referenceCodec referenceCodec_faithful startingEnv
      { storage := runningStorage, runs := [(1, 3)] } runningConfig 1
      runningTunnel (by decide) (by decide) (by decide)
      (Or.inl (by decide))).imp (fun _ h => ⟨h.1, h.2.2.1⟩)⟩

/-! ## Theorems: SSH agent socket candidates -/

theorem mem_firstOccurrencesFrom {α : Type} [DecidableEq α] (earlier l : List α) (x : α) :
    x ∈ firstOccurrencesFrom earlier l ↔ (x ∈ l ∧ x ∉ earlier) := by
  induction l generalizing earlier with
  | nil => simp [firstOccurrencesFrom]
  | cons y rest ih =>
    unfold firstOccurrencesFrom
    by_cases hy : y ∈ earlier
    · rw [if_pos hy, ih]
      constructor
      · rintro ⟨h1, h2⟩
        exact ⟨List.mem_cons_of_mem _ h1, h2⟩
      · rintro ⟨h1, h2⟩
        rcases List.mem_cons.mp h1 with h | h
        · rw [h] at h2
          exact absurd hy h2
        · exact ⟨h, h2⟩
    · rw [if_neg hy, List.mem_cons, ih]
      simp only [List.mem_append, List.mem_singleton, not_or, List.mem_cons,
        List.not_mem_nil, or_false]
      constructor
      · rintro (h | ⟨h1, h2, _⟩)
        · rw [h]
          exact ⟨Or.inl rfl, hy⟩
        · exact ⟨Or.inr h1, h2⟩
      · rintro ⟨h1 | h1, h2⟩
        · exact Or.inl h1
        · by_cases hxy : x = y
          · exact Or.inl hxy
          · exact Or.inr ⟨h1, h2, hxy⟩

theorem nodup_firstOccurrencesFrom {α : Type} [DecidableEq α] (earlier l : List α) :
    (firstOccurrencesFrom earlier l).Nodup := by
  induction l generalizing earlier with
  | nil => simp [firstOccurrencesFrom]
  | cons y rest ih =>
    unfold firstOccurrencesFrom
    by_cases hy : y ∈ earlier
    · rw [if_pos hy]
      exact ih earlier
    · rw [if_neg hy, List.nodup_cons]
      refine ⟨?_, ih _⟩
      rw [mem_firstOccurrencesFrom]
      simp

theorem agentSocketAdd_foldl (env : AgentEnv) (l : List String) (seen cands : List String)
    (hseen : ∀ x, x ∈ seen ↔ x ∈ cands) :
    (l.foldl (agentSocketAdd env) (seen, cands)).2
      = cands ++ firstOccurrencesFrom cands
          ((l.map (normalizeAgentSocketPath env)).filter (fun s => s ≠ "")) := by
  induction l generalizing seen cands with
  | nil => simp [firstOccurrencesFrom]
  | cons sock rest ih =>
    simp only [List.foldl_cons, List.map_cons]
    by_cases h1 : normalizeAgentSocketPath env sock = ""
    · have hadd : agentSocketAdd env (seen, cands) sock = (seen, cands) := by
        simp [agentSocketAdd, h1]
      have hfil : (normalizeAgentSocketPath env sock ::
          rest.map (normalizeAgentSocketPath env)).filter (fun s => decide (s ≠ ""))
          = (rest.map (normalizeAgentSocketPath env)).filter (fun s => decide (s ≠ "")) := by
        simp [List.filter_cons, h1]
      rw [hadd, hfil]
      exact ih seen cands hseen
    · have hfil : (normalizeAgentSocketPath env sock ::
          rest.map (normalizeAgentSocketPath env)).filter (fun s => decide (s ≠ ""))
          = normalizeAgentSocketPath env sock ::
            (rest.map (normalizeAgentSocketPath env)).filter (fun s => decide (s ≠ "")) := by
        simp [List.filter_cons, h1]
      rw [hfil]
      by_cases h2 : normalizeAgentSocketPath env sock ∈ seen
      · have hadd : agentSocketAdd env (seen, cands) sock = (seen, cands) := by
          simp [agentSocketAdd, h1, h2]
        rw [hadd, ih seen cands hseen]
        conv_rhs => unfold firstOccurrencesFrom
        rw [if_pos ((hseen _).mp h2)]
      · have hadd : agentSocketAdd env (seen, cands) sock
            = (normalizeAgentSocketPath env sock :: seen,
                cands ++ [normalizeAgentSocketPath env sock]) := by
          simp [agentSocketAdd, h1, h2]
        rw [hadd, ih]
        · conv_rhs => unfold firstOccurrencesFrom
          rw [if_neg (fun h => h2 ((hseen _).mpr h))]
          simp
        · intro x
          simp only [List.mem_cons, List.mem_append, List.mem_singleton, hseen]
          tauto

theorem agentSocketCandidates_eq_foldl (env : AgentEnv) (e : String) :
    agentSocketCandidates env e
      = ((agentSocketSources env e).foldl (agentSocketAdd env) ([], [])).2 := by
  unfold agentSocketCandidates agentSocketSources osDefaultAgentSockets
    defaultAgentSocketCandidates
  cases hw : env.windows with
  | true => simp
  | false =>
    cases hh : env.home with
    | none => simp
    | some home =>
      by_cases hb : trimSpace home = ""
      · simp [hb]
      · simp [hb, List.foldl_append]

theorem normalizeAgentSocketPath_eq (env : AgentEnv) (s : String) :
    normalizeAgentSocketPath env s =
      match env.home with
      | some home => expandHome env.join home s
      | none => trimSpace s := by
  unfold normalizeAgentSocketPath expandHome
  simp only
  by_cases h0 : trimSpace s = ""
  · have hp : hasPrefix "" "~/" = false := by decide
    rw [if_pos h0, h0, hp]
    cases env.home <;> simp
  · rw [if_neg h0]
    cases env.home with
    | none => simp
    | some home => rfl

/-- C23, as stated, fails: where the home directory is not known
(`os.UserHomeDir` returns an error), the explicit path ` ~/agent.sock` is
trimmed but its leading `~/` is not expanded. -/
theorem agentSocketCandidates_counterexample :
    homelessAgentEnv.home = none ∧
    agentSocketCandidates homelessAgentEnv " ~/agent.sock" = ["~/agent.sock"] ∧
    hasPrefix "~/agent.sock" "~/" = true := by
  refine ⟨rfl, ?_, ?_⟩ <;> decide

/-- C23, amended: for every explicit path `e`, `agentSocketCandidates e` is
the list `[e, LORIS_TUNNEL_SSH_AUTH_SOCK, SSH_AUTH_SOCK, OS defaults...]`
after normalising each entry, dropping the empty entries and removing every
later duplicate of an earlier entry; normalising trims the entry and, where the
home directory is known, expands a leading `~/` to it (where it is not known
the trimmed entry is kept as it is). So the result has no repeated and no empty
element, and its first element is the normalised explicit path whenever that
is non-empty. -/
theorem agentSocketCandidates_spec (env : AgentEnv) (e : String) :
    agentSocketCandidates env e
      = firstOccurrencesFrom []
          (((agentSocketSources env e).map (normalizeAgentSocketPath env)).filter
            (fun s => s ≠ "")) ∧
    (∀ home : String, env.home = some home →
      ∀ s : String, normalizeAgentSocketPath env s = expandHome env.join home s) ∧
    (env.home = none → ∀ s : String, normalizeAgentSocketPath env s = trimSpace s) ∧
    (agentSocketCandidates env e).Nodup ∧
    "" ∉ agentSocketCandidates env e ∧
    (normalizeAgentSocketPath env e ≠ "" →
      (agentSocketCandidates env e).head? = some (normalizeAgentSocketPath env e)) := by
  have heq : agentSocketCandidates env e
      = firstOccurrencesFrom []
          (((agentSocketSources env e).map (normalizeAgentSocketPath env)).filter
            (fun s => s ≠ "")) := by
    rw [agentSocketCandidates_eq_foldl, agentSocketAdd_foldl env _ [] [] (by simp)]
    simp
  refine ⟨heq, ?_, ?_, ?_, ?_, ?_⟩
  · intro home hh s
    rw [normalizeAgentSocketPath_eq, hh]
  · intro hh s
    rw [normalizeAgentSocketPath_eq, hh]
  · rw [heq]
    exact nodup_firstOccurrencesFrom _ _
  · rw [heq, mem_firstOccurrencesFrom]
    simp
  · intro hne
    rw [heq]
    unfold agentSocketSources
    simp only [List.cons_append, List.map_cons]
    have hfil : ∀ rest : List String,
        (normalizeAgentSocketPath env e :: rest).filter (fun s => decide (s ≠ ""))
          = normalizeAgentSocketPath env e :: rest.filter (fun s => decide (s ≠ "")) := by
      intro rest
      simp [List.filter_cons, hne]
    rw [hfil]
    unfold firstOccurrencesFrom
    simp

/-- Witness for C23: in the environment of
`TestAgentSocketCandidates_OrderAndNormalization` the home directory is
`/home/u`, the explicit path ` ~/user-selected.sock ` normalises to
`/home/u/user-selected.sock`, and that is the first candidate. -/
theorem agentSocketCandidates_spec_witness :
    normalizeAgentSocketPath testAgentEnv " ~/user-selected.sock "
      = "/home/u/user-selected.sock" ∧
    (agentSocketCandidates testAgentEnv " ~/user-selected.sock ").head?
      = some (normalizeAgentSocketPath testAgentEnv " ~/user-selected.sock ") ∧
    agentSocketCandidates testAgentEnv ""
      = ["/home/u/custom-agent.sock", "/tmp/another-agent.sock",
          "/home/u/.ssh/ssh-agent.sock"] :=
  ⟨by decide,
    (agentSocketCandidates_spec testAgentEnv " ~/user-selected.sock ").2.2.2.2.2 (by decide),
    by decide⟩

/-! ## Theorems: legacy RSA signers -/

theorem referenceNewSignerWithAlgorithms_restricts :
    RestrictsSigner referenceNewSignerWithAlgorithms := by
  intro signer restricted algorithms h
  unfold referenceNewSignerWithAlgorithms at h
  by_cases h0 : algorithms = []
  · rw [if_pos h0] at h
    cases h
  · rw [if_neg h0] at h
    simp only at h
    cases h1 : algorithms.find?
        (fun algo => algo ∉ algorithmsForKeyFormat (signer.keyType.getD "")) with
    | some algo =>
      rw [h1] at h
      cases h
    | none =>
      rw [h1] at h
      simp only at h
      cases h2 : algorithms.find? (fun algo => algo ∉ signer.algorithms.getD
          (algorithmsForKeyFormat (signer.keyType.getD ""))) with
      | some algo =>
        rw [h2] at h
        cases h
      | none =>
        rw [h2] at h
        simp only [Except.ok.injEq] at h
        rw [← h]
        exact ⟨rfl, rfl, rfl⟩

/-- C24, as stated, fails: an RSA signer that implements `AlgorithmSigner`
but is already restricted to `rsa-sha2-256` is refused by
`ssh.NewSignerWithAlgorithms`, and `ensureSignerSupportsLegacyRSA` returns it
as it is, advertising neither `ssh-rsa` nor `rsa-sha2-512`. -/
theorem ensureSignerSupportsLegacyRSA_counterexample :
    restrictedRSASigner.keyType = some KeyAlgoRSA ∧
    restrictedRSASigner.algorithmSigner = true ∧
    ensureSignerSupportsLegacyRSA referenceNewSignerWithAlgorithms (some restrictedRSASigner)
      = some restrictedRSASigner ∧
    restrictedRSASigner.algorithms = some ["rsa-sha2-256"] := by
  refine ⟨rfl, rfl, ?_, rfl⟩
  decide

/-- C24, amended: `ensureSignerSupportsLegacyRSA` returns every non-RSA signer
unchanged; for every RSA signer that implements `AlgorithmSigner` and that
`ssh.NewSignerWithAlgorithms` accepts for `rsa-sha2-512`, `rsa-sha2-256`,
`ssh-rsa`, it returns the signer that call built, which is for the same key and
advertises `ssh-rsa`, `rsa-sha2-256` and `rsa-sha2-512`; a signer that call
refuses, and an RSA signer that does not implement `AlgorithmSigner`, is
returned unchanged. -/
theorem ensureSignerSupportsLegacyRSA_spec
    (newSigner : Signer → List String → Except String Signer)
    (hlib : RestrictsSigner newSigner) (signer : Signer) :
    (signer.keyType ≠ some KeyAlgoRSA →
      ensureSignerSupportsLegacyRSA newSigner (some signer) = some signer) ∧
    (signer.keyType = some KeyAlgoRSA → signer.algorithmSigner = true →
      ∀ compatible : Signer,
        newSigner signer [KeyAlgoRSASHA512, KeyAlgoRSASHA256, KeyAlgoRSA] = .ok compatible →
        ensureSignerSupportsLegacyRSA newSigner (some signer) = some compatible ∧
        compatible.keyType = signer.keyType ∧ compatible.keyBlob = signer.keyBlob ∧
        ∃ advertised : List String, compatible.algorithms = some advertised ∧
          "ssh-rsa" ∈ advertised ∧ "rsa-sha2-256" ∈ advertised ∧
          "rsa-sha2-512" ∈ advertised) ∧
    (signer.keyType = some KeyAlgoRSA → signer.algorithmSigner = true →
      ∀ err : String,
        newSigner signer [KeyAlgoRSASHA512, KeyAlgoRSASHA256, KeyAlgoRSA] = .error err →
        ensureSignerSupportsLegacyRSA newSigner (some signer) = some signer) ∧
    (signer.keyType = some KeyAlgoRSA → signer.algorithmSigner = false →
      ensureSignerSupportsLegacyRSA newSigner (some signer) = some signer) ∧
    ensureSignerSupportsLegacyRSA newSigner none = none := by
  refine ⟨?_, ?_, ?_, ?_, rfl⟩
  · intro h
    unfold ensureSignerSupportsLegacyRSA
    cases hk : signer.keyType with
    | none => simp only [hk]
    | some ty =>
      have hne : ty ≠ KeyAlgoRSA := by
        intro hty
        exact h (by rw [hk, hty])
      simp only [hk, hne, ne_eq, not_false_eq_true, if_true]
  · intro hk ha compatible hok
    obtain ⟨h1, h2, h3⟩ := hlib signer compatible _ hok
    refine ⟨?_, h1, h2, _, h3, ?_, ?_, ?_⟩
    · unfold ensureSignerSupportsLegacyRSA
      simp only [hk, ha, hok, ne_eq, not_true_eq_false, if_false, Bool.true_eq_false]
    · decide
    · decide
    · decide
  · intro hk ha err herr
    unfold ensureSignerSupportsLegacyRSA
    simp only [hk, ha, herr, ne_eq, not_true_eq_false, if_false, Bool.true_eq_false]
  · intro hk ha
    unfold ensureSignerSupportsLegacyRSA
    simp only [hk, ha, ne_eq, not_true_eq_false, if_false, if_true]

/-- Witness for C24: a freshly built RSA signer is accepted and comes back
advertising the three RSA algorithms, for the same key. -/
theorem ensureSignerSupportsLegacyRSA_spec_witness :
    ensureSignerSupportsLegacyRSA referenceNewSignerWithAlgorithms (some freshRSASigner)
      = some { freshRSASigner with
                algorithms := some ["rsa-sha2-512", "rsa-sha2-256", "ssh-rsa"] } ∧
    ensureSignerSupportsLegacyRSA referenceNewSignerWithAlgorithms
      (some { freshRSASigner with keyType := some KeyAlgoED25519 })
      = some { freshRSASigner with keyType := some KeyAlgoED25519 } :=
  ⟨((ensureSignerSupportsLegacyRSA_spec referenceNewSignerWithAlgorithms
      referenceNewSignerWithAlgorithms_restricts freshRSASigner).2.1 rfl rfl
      { freshRSASigner with
        algorithms := some ["rsa-sha2-512", "rsa-sha2-256", "ssh-rsa"] } (by decide)).1,
    (ensureSignerSupportsLegacyRSA_spec referenceNewSignerWithAlgorithms
      referenceNewSignerWithAlgorithms_restricts
      { freshRSASigner with keyType := some KeyAlgoED25519 }).1 (by decide)⟩

/-! ## Theorems: where the config file is -/

/-- C25, as stated, fails: with `LORIS_TUNNEL_CONFIG_PATH` unset, the working
directory not writable and no home directory known (`os.UserHomeDir` returns an
error), `ResolveConfigPath` returns `config.toml`, relative to the working
directory. -/
theorem ResolveConfigPath_counterexample :
    ResolveConfigPath { bundleConfigEnv with home := none } = "config.toml" := by
  decide

/-- C25, amended: `ResolveConfigPath` returns the trimmed value of
`LORIS_TUNNEL_CONFIG_PATH` when that is not blank; otherwise
`<cwd>/config.toml` when the working directory is known and writable;
otherwise `<home>/.loris-tunnel/config.toml` when the home directory is known,
and `filepath.Join(".", "config.toml")` when it is not. -/
theorem ResolveConfigPath_spec (env : ConfigEnv) :
    (trimSpace env.configPathVar ≠ "" →
      ResolveConfigPath env = trimSpace env.configPathVar) ∧
    (trimSpace env.configPathVar = "" →
      ∀ cwd : String, env.cwd = some cwd → env.createTemp cwd = true →
        ResolveConfigPath env = env.join [cwd, "config.toml"]) ∧
    (trimSpace env.configPathVar = "" →
      (env.cwd = none ∨ ∃ cwd : String, env.cwd = some cwd ∧ env.createTemp cwd = false) →
      (∀ home : String, env.home = some home →
        ResolveConfigPath env = env.join [env.join [home, ".loris-tunnel"], "config.toml"]) ∧
      (env.home = none → ResolveConfigPath env = env.join [".", "config.toml"])) := by
  refine ⟨?_, ?_, ?_⟩
  · intro h
    unfold ResolveConfigPath
    simp only [h, ne_eq, not_false_eq_true, if_true]
  · intro h cwd hcwd hw
    unfold ResolveConfigPath getDefaultConfigDir isDirWritable defaultConfigPath
    simp only [h, hcwd, hw, ne_eq, not_true_eq_false, if_false, if_true]
  · intro h hcwd
    refine ⟨?_, ?_⟩
    · intro home hh
      unfold ResolveConfigPath getDefaultConfigDir isDirWritable defaultConfigPath
      rcases hcwd with hcwd | ⟨cwd, hcwd, hw⟩
      · simp only [h, hcwd, hh, ne_eq, not_true_eq_false, if_false]
      · simp only [h, hcwd, hw, hh, ne_eq, not_true_eq_false, if_false, Bool.false_eq_true]
    · intro hh
      unfold ResolveConfigPath getDefaultConfigDir isDirWritable defaultConfigPath
      rcases hcwd with hcwd | ⟨cwd, hcwd, hw⟩
      · simp only [h, hcwd, hh, ne_eq, not_true_eq_false, if_false]
      · simp only [h, hcwd, hw, hh, ne_eq, not_true_eq_false, if_false, Bool.false_eq_true]

/-- Witness for C25: without the environment variable, in a read-only working
directory and with `/home/u` as home directory, the path is
`/home/u/.loris-tunnel/config.toml`; with the variable set it is its trimmed
value; in a writable working directory it is `config.toml` in there. -/
theorem ResolveConfigPath_spec_witness :
    ResolveConfigPath bundleConfigEnv = "/home/u/.loris-tunnel/config.toml" ∧
    ResolveConfigPath { bundleConfigEnv with configPathVar := " /etc/loris.toml " }
      = "/etc/loris.toml" ∧
    ResolveConfigPath { bundleConfigEnv with createTemp := (fun _ => true) }
      = "/Applications/Loris.app/config.toml" := by
  refine ⟨?_, ?_, ?_⟩
  · rw [((ResolveConfigPath_spec bundleConfigEnv).2.2 (by decide)
      (Or.inr ⟨"/Applications/Loris.app", rfl, rfl⟩)).1 "/home/u" rfl]
    decide
  · rw [(ResolveConfigPath_spec
      { bundleConfigEnv with configPathVar := " /etc/loris.toml " }).1 (by decide)]
    decide
  · rw [(ResolveConfigPath_spec { bundleConfigEnv with createTemp := (fun _ => true) }).2.1
      (by decide) "/Applications/Loris.app" rfl rfl]
    decide

/-! ## Theorems: the dynamic forward probe -/

/-- C26, as stated, fails: when the probe dial succeeds and closing the probe
connection fails with `EOF`, `probeDynamicForwardCapability` returns that
error. -/
theorem probeDynamicForwardCapability_counterexample :
    probeDynamicForwardCapability asciiLower (fun _ _ => .ok (some "EOF")) = some "EOF" ∧
    isPortForwardDenied asciiLower (some "EOF") = false := by
  refine ⟨?_, ?_⟩ <;> decide

/-- C26, amended: when the probe dial to `127.0.0.1:1` fails,
`probeDynamicForwardCapability` returns the error `dynamic forward is not
allowed by ssh server: ...` if the lower-cased message of the dial error
contains `administratively prohibited`, `forwarding disabled` or `port
forwarding disabled`, and succeeds for every other dial error; when the dial
succeeds it returns what closing the probe connection returns, so it succeeds
when the close does. -/
theorem probeDynamicForwardCapability_spec (toLower : String → String)
    (dial : String → String → Except String (Option String)) :
    (∀ err : String, dial "tcp" "127.0.0.1:1" = .error err →
      ((stringsContains (toLower err) "administratively prohibited" = true ∨
          stringsContains (toLower err) "forwarding disabled" = true ∨
          stringsContains (toLower err) "port forwarding disabled" = true) →
        probeDynamicForwardCapability toLower dial
          = some ("dynamic forward is not allowed by ssh server: " ++ err)) ∧
      (¬ (stringsContains (toLower err) "administratively prohibited" = true ∨
          stringsContains (toLower err) "forwarding disabled" = true ∨
          stringsContains (toLower err) "port forwarding disabled" = true) →
        probeDynamicForwardCapability toLower dial = none)) ∧
    (∀ closeResult : Option String, dial "tcp" "127.0.0.1:1" = .ok closeResult →
      probeDynamicForwardCapability toLower dial = closeResult) ∧
    (probeDynamicForwardCapability toLower dial ≠ none →
      (∃ err : String, dial "tcp" "127.0.0.1:1" = .error err ∧
        isPortForwardDenied toLower (some err) = true) ∨
      (∃ closeErr : String, dial "tcp" "127.0.0.1:1" = .ok (some closeErr))) := by
  refine ⟨?_, ?_, ?_⟩
  · intro err hdial
    refine ⟨?_, ?_⟩
    · intro h
      have hden : isPortForwardDenied toLower (some err) = true := by
        simp only [isPortForwardDenied, Bool.or_eq_true]
        tauto
      simp only [probeDynamicForwardCapability, hdial, hden, if_true]
    · intro h
      have hden : isPortForwardDenied toLower (some err) = false := by
        rw [Bool.eq_false_iff]
        intro hd
        apply h
        simp only [isPortForwardDenied, Bool.or_eq_true] at hd
        tauto
      simp only [probeDynamicForwardCapability, hdial, hden, Bool.false_eq_true, if_false]
  · intro closeResult hdial
    simp only [probeDynamicForwardCapability, hdial]
  · intro h
    unfold probeDynamicForwardCapability at h
    simp only at h
    cases hd : dial "tcp" "127.0.0.1:1" with
    | error err =>
      rw [hd] at h
      simp only at h
      by_cases hden : isPortForwardDenied toLower (some err) = true
      · exact Or.inl ⟨err, rfl, hden⟩
      · rw [if_neg hden] at h
        exact absurd rfl h
    | ok closeResult =>
      rw [hd] at h
      simp only at h
      cases closeResult with
      | none => exact absurd rfl h
      | some closeErr => exact Or.inr ⟨closeErr, rfl⟩

/-- Witness for C26: a dial refused by the server with `administratively
prohibited` fails the probe, a plain connection refusal and a successful dial
closed without error pass it. -/
theorem probeDynamicForwardCapability_spec_witness :
    probeDynamicForwardCapability asciiLower
        (fun _ _ => .error "ssh: rejected: Administratively Prohibited (open failed)")
      = some ("dynamic forward is not allowed by ssh server: " ++
          "ssh: rejected: Administratively Prohibited (open failed)") ∧
    probeDynamicForwardCapability asciiLower
        (fun _ _ => .error "ssh: rejected: connect failed (Connection refused)") = none ∧
    probeDynamicForwardCapability asciiLower (fun _ _ => .ok none) = none :=
  ⟨((probeDynamicForwardCapability_spec asciiLower
      (fun _ _ => .error "ssh: rejected: Administratively Prohibited (open failed)")).1
      _ rfl).1 (Or.inl (by decide)),
    ((probeDynamicForwardCapability_spec asciiLower
      (fun _ _ => .error "ssh: rejected: connect failed (Connection refused)")).1
      _ rfl).2 (by decide),
    (probeDynamicForwardCapability_spec asciiLower (fun _ _ => .ok none)).2.1 none rfl⟩

/-! ## Theorems: dialling the jumper chain -/

theorem closedClients_closeAll (clients : List Nat) :
    closedClients (closeAll clients) = clients.reverse := by
  unfold closedClients closeAll
  rw [List.filterMap_map]
  induction clients.reverse with
  | nil => rfl
  | cons c rest ih => simp [List.filterMap_cons, ih]

theorem closedClients_conn (hop : Nat) (log : List Closed) :
    closedClients (Closed.conn hop :: log) = closedClients log := by
  simp [closedClients, List.filterMap_cons]

theorem dialSSHChainLoop_cons_ok (w : SSHWorld) (next : Jumper) (rest : List Jumper)
    (i : Nat) (clients : List Nat) (current : Nat)
    (h1 : makeSSHClientConfig w next = none) (h2 : trimSpace next.Host ≠ "")
    (h3 : w.channelDial i (jumperAddr next) = none)
    (h4 : w.handshake i (jumperAddr next) = none) :
    dialSSHChainLoop w (next :: rest) i clients current
      = dialSSHChainLoop w rest (i + 1) (clients ++ [i]) i := by
  rw [dialSSHChainLoop]
  simp only [h1, h2, h3, h4, if_false]

theorem dialSSHChainLoop_error (w : SSHWorld) (rest : List Jumper) :
    ∀ (i : Nat) (clients : List Nat) (current : Nat) (err : String) (log : List Closed),
      dialSSHChainLoop w rest i clients current = (.error err, log) →
      ∃ k : Nat, k < rest.length ∧
        closedClients log = (clients ++ List.range' i k).reverse ∧
        (∃ cur : Nat, dialSSHChainLoop w (rest.take k) i clients current
          = (.ok (cur, clients ++ List.range' i k), [])) ∧
        dialSSHChainLoop w (rest.take (k + 1)) i clients current = (.error err, log) ∧
        (∀ j : Jumper, rest[k]? = some j → makeSSHClientConfig w j = none →
          NamesHop err (i + k)) := by
  induction rest with
  | nil =>
    intro i clients current err log h
    simp [dialSSHChainLoop] at h
  | cons next rest ih =>
    intro i clients current err log h
    have stop : ∀ (hfail : dialSSHChainLoop w [next] i clients current = (.error err, log))
        (hlog : closedClients log = clients.reverse)
        (hname : makeSSHClientConfig w next = none → NamesHop err i),
        ∃ k : Nat, k < (next :: rest).length ∧
          closedClients log = (clients ++ List.range' i k).reverse ∧
          (∃ cur : Nat, dialSSHChainLoop w ((next :: rest).take k) i clients current
            = (.ok (cur, clients ++ List.range' i k), [])) ∧
          dialSSHChainLoop w ((next :: rest).take (k + 1)) i clients current
            = (.error err, log) ∧
          (∀ j : Jumper, (next :: rest)[k]? = some j → makeSSHClientConfig w j = none →
            NamesHop err (i + k)) := by
      intro hfail hlog hname
      refine ⟨0, by simp, by simpa using hlog, ⟨current, by simp [dialSSHChainLoop]⟩, ?_, ?_⟩
      · simpa using hfail
      · intro j hj hc
        simp only [List.getElem?_cons_zero, Option.some.injEq] at hj
        rw [← hj] at hc
        simpa using hname hc
    rw [dialSSHChainLoop] at h
    cases h1 : makeSSHClientConfig w next with
    | some e =>
      rw [h1] at h
      simp only [Prod.mk.injEq, Except.error.injEq] at h
      obtain ⟨he, hl⟩ := h
      refine stop ?_ ?_ ?_
      · rw [dialSSHChainLoop]
        simp only [h1, he, hl]
      · rw [← hl, closedClients_closeAll]
      · intro hc
        rw [h1] at hc
        cases hc
    | none =>
      rw [h1] at h
      simp only at h
      by_cases h2 : trimSpace next.Host = ""
      · rw [if_pos h2] at h
        simp only [Prod.mk.injEq, Except.error.injEq] at h
        obtain ⟨he, hl⟩ := h
        refine stop ?_ ?_ ?_
        · rw [dialSSHChainLoop]
          simp only [h1, h2, if_true, he, hl]
        · rw [← hl, closedClients_closeAll]
        · intro _
          exact Or.inl he.symm
      · rw [if_neg h2] at h
        cases h3 : w.channelDial i (jumperAddr next) with
        | some e =>
          rw [h3] at h
          simp only [Prod.mk.injEq, Except.error.injEq] at h
          obtain ⟨he, hl⟩ := h
          refine stop ?_ ?_ ?_
          · rw [dialSSHChainLoop]
            simp only [h1, h2, if_false, h3, he, hl]
          · rw [← hl, closedClients_closeAll]
          · intro _
            exact Or.inr (Or.inl ⟨_, _, he.symm⟩)
        | none =>
          rw [h3] at h
          simp only at h
          cases h4 : w.handshake i (jumperAddr next) with
          | some e =>
            rw [h4] at h
            simp only [Prod.mk.injEq, Except.error.injEq] at h
            obtain ⟨he, hl⟩ := h
            refine stop ?_ ?_ ?_
            · rw [dialSSHChainLoop]
              simp only [h1, h2, if_false, h3, h4, he, hl]
            · rw [← hl, closedClients_conn, closedClients_closeAll]
            · intro _
              exact Or.inr (Or.inr ⟨_, _, he.symm⟩)
          | none =>
            rw [h4] at h
            simp only at h
            obtain ⟨k, hk, c1, ⟨cur, c2⟩, c3, c4⟩ := ih (i + 1) (clients ++ [i]) i err log h
            have hr : clients ++ [i] ++ List.range' (i + 1) k
                = clients ++ List.range' i (k + 1) := by
              rw [List.range'_succ, List.append_assoc]
              rfl
            refine ⟨k + 1, by simpa using hk, ?_, ⟨cur, ?_⟩, ?_, ?_⟩
            · rw [c1, hr]
            · rw [List.take_succ_cons, dialSSHChainLoop_cons_ok w next _ i clients current
                h1 h2 h3 h4, c2, hr]
            · rw [List.take_succ_cons, dialSSHChainLoop_cons_ok w next _ i clients current
                h1 h2 h3 h4, c3]
            · intro j hj hc
              have := c4 j (by simpa using hj) hc
              rw [show i + (k + 1) = i + 1 + k by omega]
              exact this

theorem range_succ_eq_zero_cons (k : Nat) : List.range (k + 1) = [0] ++ List.range' 1 k := by
  rw [List.range_eq_range', List.range'_succ]
  rfl

/-- C27, as stated, fails: the first hop is dialled by `dialSSH`, whose errors
name no hop. A first jumper without a host fails with `jumper host is
required`, and a first jumper that refuses the connection with `ssh dial
10.0.0.1:22 failed: connection refused`; neither message holds the word `hop`
or an index in brackets. -/
theorem dialSSHChain_counterexample :
    dialSSHChain openWorld [hostlessJumper] = (.error "jumper host is required", []) ∧
    dialSSHChain { openWorld with sshDial := (fun _ => some "connection refused") } [bastion]
      = (.error "ssh dial 10.0.0.1:22 failed: connection refused", []) ∧
    stringsContains "jumper host is required" "hop" = false ∧
    stringsContains "jumper host is required" "jumper[" = false ∧
    stringsContains "jumper host is required" "0" = false ∧
    stringsContains "ssh dial 10.0.0.1:22 failed: connection refused" "hop" = false ∧
    stringsContains "ssh dial 10.0.0.1:22 failed: connection refused" "jumper[" = false := by
  refine ⟨?_, ?_, ?_, ?_, ?_, ?_, ?_⟩ <;> decide

/-- C27, amended: when `dialSSHChain` fails on a non-empty chain, it fails at
one hop `i`: the hops before `i` were opened (the chain cut before `i` is
dialled with success, its clients being those of the hops `0..i-1`), the
failure is that of the chain cut after `i`, and the clients of the hops
`i-1, ..., 0` have been closed, in this order and once each, before returning;
the result is the error alone. The error is the one of `dialSSH` when `i = 0`,
which names no hop; for a missing host, a TCP channel that does not open or a
failed SSH handshake at a hop `i ≥ 1` it names the hop `i`. -/
theorem dialSSHChain_failure (w : SSHWorld) (jumpers : List Jumper) (err : String)
    (log : List Closed) (hne : jumpers ≠ [])
    (h : dialSSHChain w jumpers = (.error err, log)) :
    ∃ i : Nat, i < jumpers.length ∧
      (i = 0 ∨ ∃ cur : Nat,
        dialSSHChain w (jumpers.take i) = (.ok (cur, List.range i), [])) ∧
      dialSSHChain w (jumpers.take (i + 1)) = (.error err, log) ∧
      closedClients log = (List.range i).reverse ∧
      ∀ j : Jumper, jumpers[i]? = some j →
        (i = 0 → dialSSH w j = some err) ∧
        (1 ≤ i → makeSSHClientConfig w j = none → NamesHop err i) := by
  cases jumpers with
  | nil => exact absurd rfl hne
  | cons first rest =>
    unfold dialSSHChain at h
    simp only at h
    cases hd : dialSSH w first with
    | some e =>
      rw [hd] at h
      simp only [Prod.mk.injEq, Except.error.injEq] at h
      obtain ⟨he, hl⟩ := h
      subst he
      subst hl
      refine ⟨0, by simp, Or.inl rfl, ?_, by simp [closedClients], ?_⟩
      · simp [dialSSHChain, hd]
      · intro j hj
        simp only [List.getElem?_cons_zero, Option.some.injEq] at hj
        subst hj
        exact ⟨fun _ => hd, fun h1 => absurd h1 (by omega)⟩
    | none =>
      rw [hd] at h
      simp only at h
      obtain ⟨k, hk, c1, ⟨cur, c2⟩, c3, c4⟩ := dialSSHChainLoop_error w rest 1 [0] 0 err log h
      refine ⟨k + 1, by simpa using hk, Or.inr ⟨cur, ?_⟩, ?_, ?_, ?_⟩
      · rw [List.take_succ_cons, range_succ_eq_zero_cons]
        simp only [dialSSHChain, hd]
        exact c2
      · rw [List.take_succ_cons]
        simp only [dialSSHChain, hd]
        exact c3
      · rw [c1, range_succ_eq_zero_cons]
      · intro j hj
        have hj1 : rest[k]? = some j := by simpa using hj
        refine ⟨fun h0 => absurd h0 (by omega), ?_⟩
        intro _ hc
        have := c4 j hj1 hc
        rw [Nat.add_comm] at this
        exact this

/-- Witness for C27: in a chain of four jumpers whose handshake fails at hop
2, the clients of the hops 1 and 0 are closed, in this order, and the error
names hop 2. -/
theorem dialSSHChain_failure_witness :
    dialSSHChain { openWorld with handshake := (fun i _ => if i = 2 then some "EOF" else none) }
        [bastion, bastion, bastion, bastion]
      = (.error "ssh handshake 10.0.0.1:22 via hop 2 failed: EOF",
          [Closed.conn 2, Closed.client 1, Closed.client 0]) ∧
    ∃ i : Nat, i < 4 ∧
      closedClients [Closed.conn 2, Closed.client 1, Closed.client 0]
        = (List.range i).reverse ∧
      ∀ j : Jumper, [bastion, bastion, bastion, bastion][i]? = some j →
        (1 ≤ i → makeSSHClientConfig
            { openWorld with handshake := (fun i _ => if i = 2 then some "EOF" else none) } j
            = none →
          NamesHop "ssh handshake 10.0.0.1:22 via hop 2 failed: EOF" i) :=
  ⟨by decide,
    (dialSSHChain_failure
      { openWorld with handshake := (fun i _ => if i = 2 then some "EOF" else none) }
      [bastion, bastion, bastion, bastion]
      "ssh handshake 10.0.0.1:22 via hop 2 failed: EOF"
      [Closed.conn 2, Closed.client 1, Closed.client 0] (by decide) (by decide)).imp
      (fun _ hi => ⟨hi.1, hi.2.2.2.1, fun j hj => (hi.2.2.2.2 j hj).2⟩)⟩

/-! ## Theorems: runtime events -/

theorem LocalForward.events_invariant (ops : List EventOp) :
    ∃ queue : List RuntimeEvent,
      (ops.foldl LocalForward.apply NewLocalForward.Start)
        = { started := true, events := some { capacity := 8, queue := queue } } ∧
      queue.length ≤ 8 := by
  induction ops using List.reverseRecOn with
  | nil => exact ⟨[], rfl, by simp⟩
  | append_singleton ops op ih =>
    obtain ⟨queue, hq, hlen⟩ := ih
    rw [List.foldl_append, List.foldl_cons, List.foldl_nil, hq]
    cases op with
    | emit event =>
      by_cases hfull : queue.length < 8
      · refine ⟨queue ++ [event], ?_, ?_⟩
        · simp [LocalForward.apply, LocalForward.emitEvent, Chan.trySend, hfull]
        · simp only [List.length_append, List.length_singleton]
          omega
      · refine ⟨queue, ?_, hlen⟩
        simp [LocalForward.apply, LocalForward.emitEvent, Chan.trySend, hfull]
    | deliver =>
      refine ⟨queue.tail, ?_, ?_⟩
      · simp [LocalForward.apply, LocalForward.deliver, Chan.receive]
      · simp only [List.length_tail]
        omega

/-- C29: in a started runtime, after any sequence of emitted and received
events, the event queue holds at most 8 events; `emitEvent e` appends `e` at
the tail when fewer than 8 events are queued, and leaves the runtime as it is
(`e` is dropped) when 8 are queued; either way it returns, and the events
already queued keep their order. -/
theorem emitEvent_drop_newest (ops : List EventOp) (e : RuntimeEvent) :
    (ops.foldl LocalForward.apply NewLocalForward.Start).queued.length ≤ 8 ∧
    ((ops.foldl LocalForward.apply NewLocalForward.Start).queued.length < 8 →
      ((ops.foldl LocalForward.apply NewLocalForward.Start).emitEvent e).queued
        = (ops.foldl LocalForward.apply NewLocalForward.Start).queued ++ [e]) ∧
    ((ops.foldl LocalForward.apply NewLocalForward.Start).queued.length = 8 →
      (ops.foldl LocalForward.apply NewLocalForward.Start).emitEvent e
        = ops.foldl LocalForward.apply NewLocalForward.Start) ∧
    (∃ added : List RuntimeEvent,
      ((ops.foldl LocalForward.apply NewLocalForward.Start).emitEvent e).queued
        = (ops.foldl LocalForward.apply NewLocalForward.Start).queued ++ added) := by
  obtain ⟨queue, hq, hlen⟩ := LocalForward.events_invariant ops
  rw [hq]
  refine ⟨hlen, ?_, ?_, ?_⟩
  · intro h
    have h8 : queue.length < 8 := h
    simp [LocalForward.emitEvent, LocalForward.queued, Chan.trySend, h8]
  · intro h
    have h8 : ¬ queue.length < 8 := by
      have : queue.length = 8 := h
      omega
    simp [LocalForward.emitEvent, Chan.trySend, h8]
  · by_cases h8 : queue.length < 8
    · exact ⟨[e], by simp [LocalForward.emitEvent, LocalForward.queued, Chan.trySend, h8]⟩
    · exact ⟨[], by simp [LocalForward.emitEvent, LocalForward.queued, Chan.trySend, h8]⟩

/-- Witness for C29: the ninth event emitted into a started runtime that
nobody listens to is dropped, the first eight stay queued in order. -/
theorem emitEvent_drop_newest_witness :
    ((List.replicate 8 (EventOp.emit { type := .disconnected, Err := some "EOF" })).foldl
      LocalForward.apply NewLocalForward.Start).queued.length = 8 ∧
    ((List.replicate 8 (EventOp.emit { type := .disconnected, Err := some "EOF" })).foldl
      LocalForward.apply NewLocalForward.Start).emitEvent { type := .reconnected, Err := none }
      = (List.replicate 8 (EventOp.emit { type := .disconnected, Err := some "EOF" })).foldl
        LocalForward.apply NewLocalForward.Start :=
  ⟨by decide,
    (emitEvent_drop_newest
      (List.replicate 8 (EventOp.emit { type := .disconnected, Err := some "EOF" }))
      { type := .reconnected, Err := none }).2.2.1 (by decide)⟩

/-! ## Theorems: comparing versions -/

/-- C30 fails on the code: the versions `1.0.0-01` and `1.0.0-1`, both
accepted by `parseSemver`, have prerelease identifiers that differ as text and
are equal as numbers, and `compareSemver` returns `-1` for them in both
orders. -/
theorem compareSemver_not_antisymmetric :
    atoi "01" = some 1 ∧ atoi "1" = some 1 ∧
    compareSemver { Major := 1, Minor := 0, Patch := 0, Prerelease := ["01"] }
      { Major := 1, Minor := 0, Patch := 0, Prerelease := ["1"] } = -1 ∧
    compareSemver { Major := 1, Minor := 0, Patch := 0, Prerelease := ["1"] }
      { Major := 1, Minor := 0, Patch := 0, Prerelease := ["01"] } = -1 ∧
    compareSemver { Major := 1, Minor := 0, Patch := 0, Prerelease := ["01"] }
        { Major := 1, Minor := 0, Patch := 0, Prerelease := ["1"] }
      ≠ -compareSemver { Major := 1, Minor := 0, Patch := 0, Prerelease := ["1"] }
        { Major := 1, Minor := 0, Patch := 0, Prerelease := ["01"] } := by
  refine ⟨?_, ?_, ?_, ?_, ?_⟩ <;> decide

end LorisTunnel
